import Mathlib

/-! # bengine-concur / atex: texture assembly

A shallow embedding of the merge part of `be::atex::AtexApp`
(`src/src-atex/atex_app.cpp`, `atex_app.hpp`) together with theorems about it.

The application is written against `be::gfx::tex` (bengine-gfx), which is not
part of this repository.  Its index types and limits are therefore parameters
of the development (`TextureStorageTraits`), and the two mipmapping helpers it
calls are modelled from the specification.
-/

namespace be.atex

/-! ## Index types and limits of `TextureStorage` -/

/-- The declarations of `be::gfx::tex::TextureStorage` that the application
uses: the byte sizes of `layer_index_type`, `face_index_type` and
`level_index_type` (all unsigned), and the constants `max_layers`,
`max_faces`, `max_levels`.  They are declared in bengine-gfx, so they are
parameters here. -/
structure TextureStorageTraits where
  sizeof_layer_index_type : Nat
  sizeof_face_index_type : Nat
  sizeof_level_index_type : Nat
  max_layers : Nat
  max_faces : Nat
  max_levels : Nat
  deriving DecidableEq, Repr

namespace TextureStorageTraits

/-- The `constexpr int layer_bits = 8 * sizeof(TextureStorage::layer_index_type)`. -/
def layer_bits (ts : TextureStorageTraits) : Nat := 8 * ts.sizeof_layer_index_type

/-- The `constexpr int face_bits = 8 * sizeof(TextureStorage::face_index_type)`. -/
def face_bits (ts : TextureStorageTraits) : Nat := 8 * ts.sizeof_face_index_type

/-- The `constexpr int level_bits = 8 * sizeof(TextureStorage::level_index_type)`. -/
def level_bits (ts : TextureStorageTraits) : Nat := 8 * ts.sizeof_level_index_type

/-- What the application relies on about the traits.  Every index type is an
unsigned type of one or two bytes (the specification calls them small,
"e.g. byte-sized"), hence narrower than `int`: sums of two indices are formed
after integral promotion and cannot wrap.  Each maximum is representable in
its index type: the source stores `max_layers` in a `layer_index_type` as the
"unspecified" sentinel and as the initial `min_layer`, and likewise for faces
and levels. -/
structure WellFormed (ts : TextureStorageTraits) : Prop where
  layer_size_pos : 0 < ts.sizeof_layer_index_type
  face_size_pos : 0 < ts.sizeof_face_index_type
  level_size_pos : 0 < ts.sizeof_level_index_type
  layer_size_le : ts.sizeof_layer_index_type ≤ 2
  face_size_le : ts.sizeof_face_index_type ≤ 2
  level_size_le : ts.sizeof_level_index_type ≤ 2
  max_layers_lt : ts.max_layers < 2 ^ ts.layer_bits
  max_faces_lt : ts.max_faces < 2 ^ ts.face_bits
  max_levels_lt : ts.max_levels < 2 ^ ts.level_bits

instance (ts : TextureStorageTraits) : Decidable ts.WellFormed :=
  decidable_of_iff
    (0 < ts.sizeof_layer_index_type ∧ 0 < ts.sizeof_face_index_type ∧
      0 < ts.sizeof_level_index_type ∧ ts.sizeof_layer_index_type ≤ 2 ∧
      ts.sizeof_face_index_type ≤ 2 ∧ ts.sizeof_level_index_type ≤ 2 ∧
      ts.max_layers < 2 ^ ts.layer_bits ∧
      ts.max_faces < 2 ^ ts.face_bits ∧ ts.max_levels < 2 ^ ts.level_bits)
    ⟨fun ⟨a, b, c, d, e, f, g, h, i⟩ => ⟨a, b, c, d, e, f, g, h, i⟩,
     fun ⟨a, b, c, d, e, f, g, h, i⟩ => ⟨a, b, c, d, e, f, g, h, i⟩⟩

end TextureStorageTraits

/-- Byte-sized index types with 255 as each maximum: the instance the
specification gives as its example ("byte-sized index types"). -/
def byte_traits : TextureStorageTraits :=
  { sizeof_layer_index_type := 1, sizeof_face_index_type := 1, sizeof_level_index_type := 1,
    max_layers := 255, max_faces := 255, max_levels := 255 }

/-! ## The packed key -/

/-- Left shift of a `std::size_t` (64 bits, wrapping). -/
def shl_size_t (x s : Nat) : Nat := (x <<< s) % 2 ^ 64

/-- The key of a destination slot, as computed in `load_inputs_`,
`make_texture_` and its compositor:
`std::size_t img_id = (layer << (face_bits + level_bits)) | (face << level_bits) | level;` -/
def img_id (ts : TextureStorageTraits) (layer face level : Nat) : Nat :=
  shl_size_t layer (ts.face_bits + ts.level_bits) ||| shl_size_t face ts.level_bits ||| level

/-! ## Status and log -/

/-- The `enum status_code_ : U8` of `atex_app.hpp`. -/
inductive status_code_ where
  | status_ok
  | status_warning
  | status_exception
  | status_cli_error
  | status_no_output
  | status_no_input
  | status_read_error
  | status_conversion_error
  | status_write_error
  deriving DecidableEq, Repr

/-- The numeric value of a status code (enumerators count up from 0). -/
def status_code_.value : status_code_ → Int
  | .status_ok => 0
  | .status_warning => 1
  | .status_exception => 2
  | .status_cli_error => 3
  | .status_no_output => 4
  | .status_no_input => 5
  | .status_read_error => 6
  | .status_conversion_error => 7
  | .status_write_error => 8

/-- The `AtexApp::set_status_`, on the member `I8 status_`:
`if (status > status_) status_ = static_cast<U8>(status);` -/
def set_status_ (status_ : Int) (status : status_code_) : Int :=
  if status.value > status_ then status.value else status_

/-- The `ivec3` of three `int` components. -/
structure ivec3 where
  x : Int
  y : Int
  z : Int
  deriving DecidableEq, Repr

/-- The warnings, notices and errors that the application logs, with the
attributes the source attaches to them (a path is given as its text). -/
inductive LogEntry where
  /-- "No files matched input file pattern: " -/
  | no_files_matched (pattern : String)
  /-- "Too many layers; ignoring overflow!" -/
  | too_many_layers (source : String) (source_layer dest_layer : Nat)
  /-- "Too many faces; ignoring overflow!" -/
  | too_many_faces (source : String) (source_face dest_face : Nat)
  /-- "Too many levels; ignoring overflow!" -/
  | too_many_levels (source : String) (source_level dest_level : Nat)
  /-- "Replacing an image that was already loaded!" -/
  | replacing_image (layer face level : Nat) (old_source new_source : String)
  /-- "Missing layers: [ 0, last ]" -/
  | missing_layers (last : Nat)
  /-- "Missing faces: [ 0, last ]" -/
  | missing_faces (last : Nat)
  /-- "Missing levels: [ 0, last ]" -/
  | missing_levels (last : Nat)
  /-- "Unnecessary mipmap levels removed: [ first, last ]" -/
  | unnecessary_levels_removed (first last : Nat)
  /-- "Missing image for layer .. face .. level .." -/
  | missing_image (layer face level : Nat)
  /-- "Image size mismatch!" -/
  | image_size_mismatch (source_path : String) (dim expected : ivec3) (layer face level : Nat)
  /-- "Using non-array texture class for a texture with multiple layers" -/
  | non_array_class (layers : Nat)
  /-- "Face count conflict" -/
  | face_count_conflict (faces expected_faces : Nat)
  /-- "Texture class dimensionality conflict" -/
  | dimensionality_conflict (dimensionality : Nat) (base_dim : ivec3)
  /-- "Component count conflict" -/
  | component_count_conflict (components expected_components : Nat)
  /-- "Block size enlarged to fit all block data" -/
  | block_size_enlarged (block_size required_block_size : Nat)
  /-- "Block span increased to fit all block data" -/
  | block_span_increased (block_span required_block_span : Nat)
  /-- "Not enough memory to allocate merged texture" -/
  | not_enough_memory
  /-- "No layers selected!" -/
  | no_layers_selected (path : String) (first_layer last_layer : Nat)
  /-- "No faces selected!" -/
  | no_faces_selected (path : String) (first_face last_face : Nat)
  /-- "No levels selected!" -/
  | no_levels_selected (path : String) (first_level last_level : Nat)
  /-- "Layer specified in filename is out of range; using layer 0 instead." -/
  | layer_out_of_range (path : String)
  /-- "Face specified in filename is out of range; using face 0 instead." -/
  | face_out_of_range (path : String)
  /-- "Level specified in filename is out of range; using level 0 instead." -/
  | level_out_of_range (path : String)
  /-- "Failed to read texture file: " -/
  | read_failed (path : String)
  /-- "Failed to parse texture file: " -/
  | parse_failed (path : String)
  /-- "Loading texture file resulted in an empty texture!" -/
  | empty_texture (path : String)
  /-- "Not enough memory to duplicate texture" -/
  | duplicate_failed (path : String)
  /-- "Skipping ouput file: file already exists; use --overwrite to ignore." -/
  | output_exists (path : String)
  /-- "Invalid layer specified in output filename." -/
  | invalid_output_layer (path : String)
  /-- "Invalid face specified in output filename." -/
  | invalid_output_face (path : String)
  /-- "Invalid mipmap level specified in output filename." -/
  | invalid_output_level (path : String)
  /-- "Skipping ouput file: no layers selected!" -/
  | no_output_layers (path : String)
  /-- "Skipping ouput file: no faces selected!" -/
  | no_output_faces (path : String)
  /-- "Skipping ouput file: no levels selected!" -/
  | no_output_levels (path : String)
  /-- "Could not determine output texture file format!" -/
  | unknown_output_format (path : String)
  /-- "Could not write output texture!" -/
  | could_not_write (path : String)
  deriving DecidableEq, Repr

/-- The part of the application object that a run mutates: the status member
and the log it writes to.  `reported` is not a member of the class: it keeps,
in order, the codes passed to `set_status_` so far, for the statements about
the status. -/
structure AppState where
  status_ : Int
  log : List LogEntry
  reported : List status_code_
  deriving DecidableEq, Repr

/-- A call `set_status_(status)` on the application object. -/
def AppState.report (s : AppState) (status : status_code_) : AppState :=
  { s with status_ := set_status_ s.status_ status, reported := s.reported ++ [status] }

/-- The recurring pair `set_status_(status_warning); be_warn() << ... | default_log();`. -/
def AppState.warn (s : AppState) (e : LogEntry) : AppState :=
  { status_ := set_status_ s.status_ status_code_.status_warning, log := s.log ++ [e],
    reported := s.reported ++ [status_code_.status_warning] }

/-- A call `set_status_(status)` followed by an error written to the log. -/
def AppState.fail (s : AppState) (status : status_code_) (e : LogEntry) : AppState :=
  { status_ := set_status_ s.status_ status, log := s.log ++ [e],
    reported := s.reported ++ [status] }

/-- A fresh application state: status 0, empty log, nothing reported. -/
def fresh : AppState := { status_ := 0, log := [], reported := [] }

/-! ## Textures and inputs -/

/-- An image handed to the visitor by `visit_texture_images`: its layer, face
and level index within the visited view and its pixel dimensions. -/
structure ImageView where
  layer : Nat
  face : Nat
  level : Nat
  dim : ivec3
  deriving DecidableEq, Repr

/-- The texture classes that `make_texture_` names. -/
inductive TextureClass where
  | lineal
  | lineal_array
  | planar
  | planar_array
  | volumetric
  | volumetric_array
  | directional
  | directional_array
  deriving DecidableEq, Repr

/-- A `TextureAlignment`: the five alignment exponents. -/
structure TextureAlignment where
  line_bits : Nat
  plane_bits : Nat
  level_bits : Nat
  face_bits : Nat
  layer_bits : Nat
  deriving DecidableEq, Repr

/-- An `ImageFormat`, with the properties that `make_texture_` reads or sets.
Block packings and colorspaces are the numeric values of their enumerators,
component types and swizzles the vectors of theirs. -/
structure ImageFormat where
  packing : Nat
  block_dim : ivec3
  block_size : Nat
  components : Nat
  component_types : List Nat
  swizzles : List Nat
  colorspace : Nat
  premultiplied : Bool
  deriving DecidableEq, Repr

/-- A texture view, as far as the application looks at it: its format, class
and block span, the alignment of its storage, its range of layers, faces and
levels (base and count each), and the images that `visit_texture_images`
enumerates, in the order it enumerates them. -/
structure TextureView where
  format : ImageFormat
  texture_class : TextureClass
  block_span : Nat
  alignment : TextureAlignment
  base_layer : Nat
  layers : Nat
  base_face : Nat
  faces : Nat
  base_level : Nat
  levels : Nat
  images : List ImageView
  deriving DecidableEq, Repr

/-- A `Texture`; `view = none` is the empty view, for which `if (tex.view)` is false. -/
structure Texture where
  view : Option TextureView
  deriving DecidableEq, Repr

/-- What `visit_texture_images` enumerates for the view of a texture (nothing for
an empty view). -/
def Texture.images (t : Texture) : List ImageView :=
  match t.view with
  | some v => v.images
  | none => []

/-- The `struct input_file_`; its file format is only handed to the reader
and is left out. -/
structure input_file_ where
  path : String
  layer : Nat
  first_layer : Nat
  last_layer : Nat
  face : Nat
  first_face : Nat
  last_face : Nat
  level : Nat
  first_level : Nat
  last_level : Nat
  override_components : Bool
  component_types : List Nat
  swizzles : List Nat
  override_colorspace : Bool
  colorspace : Nat
  override_premultiplied : Bool
  premultiplied : Bool
  deriving DecidableEq, Repr

/-- The `struct input_` (the file format is not used by the merge). -/
structure input_ where
  path : String
  texture : Texture
  dest_layer : Nat
  dest_face : Nat
  dest_level : Nat
  deriving DecidableEq, Repr

/-- A `std::map<std::size_t, V>`, of which the source uses `insert`, `find`
and `operator[]` only. -/
abbrev KeyMap (V : Type) := Nat → Option V

/-- The empty map. -/
def KeyMap.empty {V : Type} : KeyMap V := fun _ => none

/-- The map after `m[k] = v`. -/
def KeyMap.assign {V : Type} (m : KeyMap V) (k : Nat) (v : V) : KeyMap V :=
  fun k' => if k' = k then some v else m k'

/-! ## `load_inputs_` -/

/-- One path returned by `util::glob` with what `load_input_` did for it: the
`input_` it returned and the codes it passed to `set_status_`, in order. -/
structure loaded_ where
  input : input_
  reported : List status_code_
  deriving DecidableEq, Repr

/-- One entry of `input_files_` with the paths `util::glob` matched for it. -/
structure globbed_ where
  file : input_file_
  paths : List loaded_
  deriving DecidableEq, Repr

/-- The locals of `load_inputs_` and the application state it updates. -/
structure load_state where
  app : AppState
  inputs : List input_
  images : KeyMap Nat

/-- The visitor of `load_inputs_` (the lambda given to `visit_texture_images`),
for one image of `input`, which will be stored at index `inputs.size()`.
When the replaced entry was inserted by an earlier image of the same view the
index read for "Old Source" is past the end of `inputs`; the model logs the
empty path there. -/
def load_inputs_visit (ts : TextureStorageTraits) (file : input_file_) (input : input_)
    (s : load_state) (img : ImageView) : load_state :=
  let layer := input.dest_layer + img.layer
  if layer ≥ ts.max_layers then
    { s with
      app := s.app.warn
        (LogEntry.too_many_layers input.path (file.first_layer + img.layer) layer) }
  else
    let face := input.dest_face + img.face
    if face ≥ ts.max_faces then
      { s with
        app := s.app.warn
          (LogEntry.too_many_faces input.path (file.first_face + img.face) face) }
    else
      let level := input.dest_level + img.level
      if level ≥ ts.max_levels then
        { s with
          app := s.app.warn
            (LogEntry.too_many_levels input.path (file.first_level + img.level) level) }
      else
        let id := img_id ts layer face level
        match s.images id with
        | none => { s with images := s.images.assign id s.inputs.length }
        | some old =>
          { s with
            app := s.app.warn
              (LogEntry.replacing_image img.layer img.face img.level
                ((s.inputs.map input_.path).getD old "") input.path)
            images := s.images.assign id s.inputs.length }

/-- The body of the loop over the matched paths: `load_input_` has reported its
status codes; an input with a non-empty view is visited and appended. -/
def load_inputs_path (ts : TextureStorageTraits) (file : input_file_)
    (s : load_state) (p : loaded_) : load_state :=
  let s1 : load_state :=
    { s with app := { s.app with
        status_ := p.reported.foldl set_status_ s.app.status_,
        reported := s.app.reported ++ p.reported } }
  match p.input.texture.view with
  | none => s1
  | some v =>
    let s2 := v.images.foldl (load_inputs_visit ts file p.input) s1
    { s2 with inputs := s2.inputs ++ [p.input] }

/-- The body of the loop over `input_files_`. -/
def load_inputs_file (ts : TextureStorageTraits) (s : load_state) (g : globbed_) : load_state :=
  if g.paths.isEmpty then
    { s with app := s.app.warn (LogEntry.no_files_matched g.file.path) }
  else
    g.paths.foldl (load_inputs_path ts g.file) s

/-- The `AtexApp::load_inputs_`, returning its locals together with the
application state; the vector it returns is the field `inputs`. -/
def load_inputs_ (ts : TextureStorageTraits) (app : AppState) (files : List globbed_) :
    load_state :=
  files.foldl (load_inputs_file ts) { app := app, inputs := [], images := KeyMap.empty }

/-! ## `make_texture_`: the scan -/

/-- The locals of the scan in `make_texture_`.  The pointer `base_input` is an
index into `inputs`; it is assigned together with `base_dim`, and `base = none`
stands for `base_input == nullptr`, when `base_dim` has no determined value. -/
structure scan_state where
  images : KeyMap (Nat × ImageView)
  min_layer : Nat
  max_layer : Nat
  min_face : Nat
  max_face : Nat
  min_level : Nat
  max_level : Nat
  base : Option (Nat × ivec3)

/-- The locals before the scan: minima at the maxima of the traits, maxima at 0. -/
def scan_init (ts : TextureStorageTraits) : scan_state :=
  { images := KeyMap.empty,
    min_layer := ts.max_layers, max_layer := 0,
    min_face := ts.max_faces, max_face := 0,
    min_level := ts.max_levels, max_level := 0,
    base := none }

/-- The visitor of the scan, for one image of the input at index `idx`; the
conversions to the index types are the `% 2 ^ bits`. -/
def scan_visit (ts : TextureStorageTraits) (idx : Nat) (input : input_)
    (s : scan_state) (img : ImageView) : scan_state :=
  let layer := input.dest_layer + img.layer
  let face := input.dest_face + img.face
  let level := input.dest_level + img.level
  if layer ≥ ts.max_layers ∨ face ≥ ts.max_faces ∨ level ≥ ts.max_levels then s
  else
    { images := s.images.assign (img_id ts layer face level) (idx, img),
      base := if level < s.min_level then some (idx, img.dim) else s.base,
      min_layer := min s.min_layer (layer % 2 ^ ts.layer_bits),
      max_layer := max s.max_layer (layer % 2 ^ ts.layer_bits),
      min_face := min s.min_face (face % 2 ^ ts.face_bits),
      max_face := max s.max_face (face % 2 ^ ts.face_bits),
      min_level := min s.min_level (level % 2 ^ ts.level_bits),
      max_level := max s.max_level (level % 2 ^ ts.level_bits) }

/-- The scan over the inputs from index `idx` on. -/
def scan_from (ts : TextureStorageTraits) : Nat → List input_ → scan_state → scan_state
  | _, [], s => s
  | idx, input :: rest, s =>
    scan_from ts (idx + 1) rest (input.texture.images.foldl (scan_visit ts idx input) s)

/-- The scan of `make_texture_`: `for (const auto& input : inputs) visit_texture_images(...)`. -/
def scan (ts : TextureStorageTraits) (inputs : List input_) : scan_state :=
  scan_from ts 0 inputs (scan_init ts)

/-! ## `make_texture_`: base dimensions and the mipmap chain -/

/-- An integer wrapped to the range of a 32-bit two's complement `int`. -/
def wrap_int (v : Int) : Int := (v + 2 ^ 31) % 2 ^ 32 - 2 ^ 31

/-- The `x <<= s` on an `int` component.  The value is `x * 2^s` whenever
that fits an `int`; otherwise the model takes the wrapped value. -/
def shl_int (x : Int) (s : Nat) : Int := wrap_int (x * 2 ^ s)

/-- One pass of `if (base_dim[n] > 1) base_dim[n] <<= min_level;`. -/
def correct_component (c : Int) (min_level : Nat) : Int :=
  if c > 1 then shl_int c min_level else c

/-- The loop `for (glm::length_t n = 0; n < 3; ++n)` over the components. -/
def correct_base_dim (base_dim : ivec3) (min_level : Nat) : ivec3 :=
  { x := correct_component base_dim.x min_level,
    y := correct_component base_dim.y min_level,
    z := correct_component base_dim.z min_level }

/-- Modelled from the spec: one mip reduction of a component, from
`be/gfx/tex/mipmapping.hpp` (bengine-gfx, not in this repository), "halving
each dimension >1 each step, rounding down". -/
def mipmap_half (c : Int) : Int := if c > 1 then c / 2 else c

/-- Modelled from the spec: one mip reduction of all three components. -/
def mipmap_step (d : ivec3) : ivec3 :=
  { x := mipmap_half d.x, y := mipmap_half d.y, z := mipmap_half d.z }

/-- Modelled from the spec: `mipmap_dim(base_dim, level)` of
`be/gfx/tex/mipmapping.hpp`, the dimensions expected at a mipmap level: the
base dimensions reduced `level` times. -/
def mipmap_dim (base_dim : ivec3) : Nat → ivec3
  | 0 => base_dim
  | level + 1 => mipmap_dim (mipmap_step base_dim) level

/-- Modelled from the spec: the chain length counted with a bound on the
number of reductions. -/
def mipmap_levels_upto : Nat → ivec3 → Nat
  | 0, _ => 1
  | fuel + 1, d =>
    if d.x > 1 ∨ d.y > 1 ∨ d.z > 1 then mipmap_levels_upto fuel (mipmap_step d) + 1 else 1

/-- Modelled from the spec: `mipmap_levels(base_dim)` of
`be/gfx/tex/mipmapping.hpp`, "the number of levels from full size down to
1×1×1, halving each dimension >1 each step, rounding down".  An `int`
component is below `2^31`, so 31 reductions always reach 1×1×1. -/
def mipmap_levels (d : ivec3) : Nat := mipmap_levels_upto 31 d

/-- The three "Missing ..." warnings after the scan and the correction of the
base dimensions (`if (min_layer > 0) ... if (min_level > 0) ...`). -/
def report_missing (app : AppState) (s : scan_state) (base_dim : ivec3) : AppState × ivec3 :=
  let a1 := if s.min_layer > 0 then app.warn (LogEntry.missing_layers (s.min_layer - 1)) else app
  let a2 := if s.min_face > 0 then a1.warn (LogEntry.missing_faces (s.min_face - 1)) else a1
  if s.min_level > 0 then
    (a2.warn (LogEntry.missing_levels (s.min_level - 1)), correct_base_dim base_dim s.min_level)
  else (a2, base_dim)

/-- The `TextureStorage::level_index_type expected_levels = mipmap_levels(base_dim);`. -/
def expected_levels (ts : TextureStorageTraits) (base_dim : ivec3) : Nat :=
  mipmap_levels base_dim % 2 ^ ts.level_bits

/-- The removal of unnecessary levels; returns the state and the new `max_level`:
`if (min_level + expected_levels <= max_level) { ...; max_level = min_level + expected_levels - 1; }`. -/
def trim_levels (ts : TextureStorageTraits) (app : AppState) (min_level max_level : Nat)
    (base_dim : ivec3) : AppState × Nat :=
  if min_level + expected_levels ts base_dim ≤ max_level then
    (app.warn (LogEntry.unnecessary_levels_removed
        (min_level + expected_levels ts base_dim) max_level),
      (min_level + expected_levels ts base_dim - 1) % 2 ^ ts.level_bits)
  else (app, max_level)

/-! ## `make_texture_`: validation of the slots -/

/-- An `int` converted to `std::size_t`: the 32-bit two's complement value `v`
sign-extended to 64 bits. -/
def int_to_size_t (v : Nat) : Nat :=
  if v % 2 ^ 32 < 2 ^ 31 then v % 2 ^ 32 else v % 2 ^ 32 + (2 ^ 64 - 2 ^ 32)

/-- The key as the validation loop computes it.  There `layer`, `face` and
`level` have the index types, so the shifts and ors are carried out in `int`
after integral promotion and only the result is converted to `std::size_t`. -/
def img_id_promoted (ts : TextureStorageTraits) (layer face level : Nat) : Nat :=
  int_to_size_t
    (layer <<< (ts.face_bits + ts.level_bits) ||| face <<< ts.level_bits ||| level)

/-- The indices visited by `for (T i = lo; i <= hi; ++i)`, for `hi` below the
largest value of the index type `T` (so that the loop ends). -/
def index_range (lo hi : Nat) : List Nat := List.range' lo (hi + 1 - lo)

/-- The body of the validation loop for one coordinate. -/
def validate_slot (ts : TextureStorageTraits) (inputs : List input_)
    (images : KeyMap (Nat × ImageView)) (base_dim : ivec3)
    (layer face : Nat) (app : AppState) (level : Nat) : AppState :=
  match images (img_id_promoted ts layer face level) with
  | none => app.warn (LogEntry.missing_image layer face level)
  | some (idx, img) =>
    if img.dim ≠ mipmap_dim base_dim level then
      app.warn (LogEntry.image_size_mismatch ((inputs.map input_.path).getD idx "")
        img.dim (mipmap_dim base_dim level) layer face level)
    else app

/-- The three nested validation loops over
`[min_layer, max_layer] × [min_face, max_face] × [min_level, max_level]`. -/
def validate (ts : TextureStorageTraits) (inputs : List input_)
    (images : KeyMap (Nat × ImageView)) (base_dim : ivec3)
    (min_layer max_layer min_face max_face min_level max_level : Nat)
    (app : AppState) : AppState :=
  (index_range min_layer max_layer).foldl
    (fun a layer =>
      (index_range min_face max_face).foldl
        (fun a face =>
          (index_range min_level max_level).foldl
            (validate_slot ts inputs images base_dim layer face) a)
        a)
    app

/-! ## `make_texture_`: class, format, storage and copy -/

/-- The functions and types of `be::gfx::tex` that the reconciliation calls;
declared in bengine-gfx, so they are parameters here. -/
structure GfxTraits where
  is_array : TextureClass → Bool
  faces : TextureClass → Nat
  dimensionality : TextureClass → Nat
  component_count : Nat → Nat
  block_word_size : Nat → Nat
  block_word_count : Nat → Nat
  sizeof_block_size_type : Nat

/-- The members of `AtexApp` that configure the output texture. -/
structure settings_ where
  override_block_ : Bool
  packing_ : Nat
  components_ : Nat
  component_types_ : List Nat
  swizzles_ : List Nat
  block_span_ : Nat
  override_colorspace_ : Bool
  colorspace_ : Nat
  override_premultiplied_ : Bool
  premultiplied_ : Bool
  override_alignment_ : Bool
  line_alignment_bits_ : Nat
  plane_alignment_bits_ : Nat
  level_alignment_bits_ : Nat
  face_alignment_bits_ : Nat
  layer_alignment_bits_ : Nat
  override_tex_class_ : Bool
  tex_class_ : TextureClass

/-- The `switch (tex_class)` that replaces a class by its array counterpart. -/
def array_counterpart : TextureClass → TextureClass
  | .lineal => .lineal_array
  | .planar => .planar_array
  | .volumetric => .volumetric_array
  | .directional => .directional_array
  | c => c

/-- The choice of the texture class (`TextureClass tex_class; if (override_tex_class_) ...`). -/
def choose_tex_class (gfx : GfxTraits) (cfg : settings_) (base_class : TextureClass)
    (layers : Nat) : TextureClass :=
  if cfg.override_tex_class_ then cfg.tex_class_
  else if layers > 1 ∧ ¬ gfx.is_array base_class then array_counterpart base_class
  else base_class

/-- The three notices about the chosen class. -/
def check_tex_class (gfx : GfxTraits) (app : AppState) (tex_class : TextureClass)
    (layers faces : Nat) (base_dim : ivec3) : AppState :=
  let a1 := if layers > 1 ∧ ¬ gfx.is_array tex_class then
    app.warn (LogEntry.non_array_class layers) else app
  let a2 := if faces ≠ gfx.faces tex_class then
    a1.warn (LogEntry.face_count_conflict faces (gfx.faces tex_class)) else a1
  if (base_dim.z > 1 ∧ gfx.dimensionality tex_class < 3) ∨
      (base_dim.y > 1 ∧ gfx.dimensionality tex_class < 2) then
    a2.warn (LogEntry.dimensionality_conflict (gfx.dimensionality tex_class) base_dim)
  else a2

/-- A value converted to `ImageFormat::block_size_type`. -/
def to_block_size (gfx : GfxTraits) (v : Nat) : Nat := v % 2 ^ (8 * gfx.sizeof_block_size_type)

/-- The `if (override_block_) { ... }`: format and block span (a `U8`) in effect. -/
def override_block (gfx : GfxTraits) (cfg : settings_) (format : ImageFormat)
    (block_span : Nat) : ImageFormat × Nat :=
  if cfg.override_block_ then
    ({ format with
        packing := cfg.packing_,
        block_dim := { x := 1, y := 1, z := 1 },
        block_size :=
          to_block_size gfx (gfx.block_word_size cfg.packing_ * gfx.block_word_count cfg.packing_),
        components := cfg.components_,
        component_types := cfg.component_types_,
        swizzles := cfg.swizzles_ },
      cfg.block_span_)
  else (format, block_span)

/-- The `std::size_t required_block_size`. -/
def required_block_size (gfx : GfxTraits) (format : ImageFormat) : Nat :=
  (format.block_dim.x * format.block_dim.y * format.block_dim.z).toNat *
    gfx.block_word_size format.packing * gfx.block_word_count format.packing

/-- The component count notice and the enlargement of block size and block
span; the span is the `U8 block_span`. -/
def fit_block (gfx : GfxTraits) (app : AppState) (format : ImageFormat) (block_span : Nat) :
    AppState × ImageFormat × Nat :=
  let a1 := if format.components > gfx.component_count format.packing then
    app.warn (LogEntry.component_count_conflict format.components
      (gfx.component_count format.packing)) else app
  let r : AppState × ImageFormat :=
    if required_block_size gfx format > format.block_size then
      (a1.warn (LogEntry.block_size_enlarged format.block_size (required_block_size gfx format)),
        { format with block_size := to_block_size gfx (required_block_size gfx format) })
    else (a1, format)
  if block_span < r.2.block_size then
    (r.1.warn (LogEntry.block_span_increased block_span r.2.block_size), r.2,
      r.2.block_size % 2 ^ 8)
  else (r.1, r.2, block_span)

/-- The colorspace and premultiplication overrides. -/
def override_color (cfg : settings_) (format : ImageFormat) : ImageFormat :=
  let f1 := if cfg.override_colorspace_ then { format with colorspace := cfg.colorspace_ }
    else format
  if cfg.override_premultiplied_ then { f1 with premultiplied := cfg.premultiplied_ } else f1

/-- The alignment of the merged storage. -/
def choose_alignment (cfg : settings_) (base_alignment : TextureAlignment) : TextureAlignment :=
  if cfg.override_alignment_ then
    { line_bits := cfg.line_alignment_bits_, plane_bits := cfg.plane_alignment_bits_,
      level_bits := cfg.level_alignment_bits_, face_bits := cfg.face_alignment_bits_,
      layer_bits := cfg.layer_alignment_bits_ }
  else base_alignment

/-- Modelled from the spec: the images of a view over a newly allocated
`TextureStorage` (bengine-gfx, not in this repository) "spanning the full
merged extents", one per layer, face and level, the image of a level having
the base dimensions reduced that many times; visited layer by layer, face by
face, level by level. -/
def storage_images (layers faces levels : Nat) (base_dim : ivec3) : List ImageView :=
  (List.range layers).flatMap fun layer =>
    (List.range faces).flatMap fun face =>
      (List.range levels).map fun level =>
        { layer := layer, face := face, level := level, dim := mipmap_dim base_dim level }

/-- A call `blit_pixels(src, src_region, dst, dst_region)`; a region starts at
the origin of its image and is given by its extent. -/
structure blit_ where
  src : ImageView
  src_region : ivec3
  dst : ImageView
  dst_region : ivec3
  deriving DecidableEq, Repr

/-- Modelled from the spec: the
`pixel_region(src).extents().intersection(pixel_region(img).extents())` of
bengine-gfx (not in this repository), "the intersection of source and
destination pixel extents"; the pixel extents of an image start at the origin
and have its dimensions. -/
def region_intersection (a b : ivec3) : ivec3 :=
  { x := min a.x b.x, y := min a.y b.y, z := min a.z b.z }

/-- The visitor of the compositor for one image of the merged view:
`ImageRegion region = ...; blit_pixels(src, region, img, region);`. -/
def composite_visit (ts : TextureStorageTraits) (images : KeyMap (Nat × ImageView))
    (img : ImageView) : List blit_ :=
  match images (img_id ts img.layer img.face img.level) with
  | some (_, src) =>
    let region := region_intersection src.dim img.dim
    [{ src := src, src_region := region, dst := img, dst_region := region }]
  | none => []

/-- What `make_texture_` leaves behind: the application state, the returned
texture and the copies made into its storage.  `texture = none` stands for
the failed `assert(base_input != nullptr)`, after which nothing is returned. -/
structure make_result where
  app : AppState
  texture : Option Texture
  blits : List blit_
  deriving DecidableEq, Repr

/-- The `AtexApp::make_texture_`.  `alloc_ok` tells whether
`std::make_unique<TextureStorage>` succeeds (`false`: it throws
`std::bad_alloc`).  Without an accepted image the function stops at its
assertion; what it logs before is not modelled in that case, since it is
computed from the undetermined `base_dim`.  The base input has a view (one of
its images was visited), so the branch for an empty base view is never taken. -/
def make_texture_ (ts : TextureStorageTraits) (gfx : GfxTraits) (cfg : settings_)
    (alloc_ok : Bool) (app : AppState) (inputs : List input_) : make_result :=
  let s := scan ts inputs
  match s.base with
  | none => { app := app, texture := none, blits := [] }
  | some (base_input, recorded) =>
    let m := report_missing app s recorded
    let base_dim := m.2
    let t := trim_levels ts m.1 s.min_level s.max_level base_dim
    let max_level := t.2
    let a3 := validate ts inputs s.images base_dim s.min_layer s.max_layer
      s.min_face s.max_face s.min_level max_level t.1
    let layers := (s.max_layer + 1) % 2 ^ ts.layer_bits
    let faces := (s.max_face + 1) % 2 ^ ts.face_bits
    let levels := (max_level + 1) % 2 ^ ts.level_bits
    match (inputs.map input_.texture).getD base_input { view := none } with
    | { view := none } => { app := a3, texture := none, blits := [] }
    | { view := some base_view } =>
      let tex_class := choose_tex_class gfx cfg base_view.texture_class layers
      let a4 := check_tex_class gfx a3 tex_class layers faces base_dim
      let o := override_block gfx cfg base_view.format base_view.block_span
      let f := fit_block gfx a4 o.1 o.2
      let format := override_color cfg f.2.1
      let alignment := choose_alignment cfg base_view.alignment
      if alloc_ok then
        let view : TextureView :=
          { format := format, texture_class := tex_class, block_span := f.2.2,
            alignment := alignment, base_layer := 0, layers := layers, base_face := 0,
            faces := faces, base_level := 0, levels := levels,
            images := storage_images layers faces levels base_dim }
        { app := f.1, texture := some { view := some view },
          blits := view.images.flatMap (composite_visit ts s.images) }
      else
        { app := f.1.fail status_code_.status_conversion_error LogEntry.not_enough_memory,
          texture := some { view := none }, blits := [] }

/-! ## The output colorspace option -/

/-- The handler of the output option `--colorspace`
(`atex_app_cli.cpp`): `[this](Colorspace colorspace) { colorspace_ = colorspace_;
override_colorspace_ = true; }`, applied to the value given on the command line. -/
def output_colorspace_option (cfg : settings_) (_colorspace : Nat) : settings_ :=
  { cfg with colorspace_ := cfg.colorspace_, override_colorspace_ := true }

/-! ## Output files and the slicer -/

/-- The `TextureFileFormat` values that the application names for its outputs;
`other` stands for the formats that can only be read. -/
inductive TextureFileFormat where
  | unknown
  | betx
  | ktx
  | dds
  | png
  | tga
  | bmp
  | hdr
  | other
  deriving DecidableEq, Repr

/-- A path, split the way `std::filesystem::path` splits it into
`parent_path()`, `stem()` and `extension()`.  The path
`parent_path / Path(stem + suffix + ext)` built by the slicer splits into the
same parent, `stem + suffix` and `ext`: no suffix contains a dot. -/
structure Path where
  parent_path : String
  stem : String
  extension : String
  deriving DecidableEq, Repr

/-- The `path.filename()`: stem and extension. -/
def Path.filename (p : Path) : String := p.stem ++ p.extension

/-- The `path.string()`, with `/` as the separator. -/
def Path.string (p : Path) : String := p.parent_path ++ "/" ++ p.filename

/-- The `struct output_file_`; the byte order is the numeric value of its enumerator. -/
structure output_file_ where
  path : Path
  file_format : TextureFileFormat
  force_layers : Bool
  base_layer : Nat
  layers : Nat
  force_faces : Bool
  base_face : Nat
  faces : Nat
  force_levels : Bool
  base_level : Nat
  levels : Nat
  byte_order : Nat
  payload_compression : Bool
  deriving DecidableEq, Repr

/-- Modelled from the spec: the constructor
`TextureView(format, class, storage, base_layer, layers, base_face, faces, base_level, levels)`
of bengine-gfx (not in this repository), a window with "a {base, count} range
for each of layer/face/level" on the storage of `v`; of the images of `v` it
holds those inside the ranges. -/
def TextureView.window (v : TextureView)
    (base_layer layers base_face faces base_level levels : Nat) : TextureView :=
  { v with
    base_layer := base_layer, layers := layers, base_face := base_face, faces := faces,
    base_level := base_level, levels := levels,
    images := v.images.filter fun img =>
      decide (base_layer ≤ img.layer ∧ img.layer < base_layer + layers ∧
        base_face ≤ img.face ∧ img.face < base_face + faces ∧
        base_level ≤ img.level ∧ img.level < base_level + levels) }

/-- A call `write_output_(view, path, format, byte_order, payload_compression)`. -/
structure write_request where
  view : TextureView
  path : Path
  format : TextureFileFormat
  byte_order : Nat
  payload_compression : Bool
  deriving DecidableEq, Repr

/-- The request made for a view and an output file as it stands. -/
def output_file_.request (file : output_file_) (view : TextureView) : write_request :=
  { view := view, path := file.path, format := file.file_format,
    byte_order := file.byte_order, payload_compression := file.payload_compression }

/-- The `file.path = parent_path / Path(base + std::to_string((std::size_t)index) + ext)`
with `base = file.path.stem().string() + suffix`. -/
def output_file_.with_suffix (file : output_file_) (suffix : String) (index : Nat) :
    output_file_ :=
  { file with path := { file.path with stem := file.path.stem ++ suffix ++ toString index } }

/-- The `AtexApp::write_level_images_`, as the calls of `write_output_` it makes.
The loop `for (level_index_type level = level_index_type(view.base_level());
level < view.base_level() + view.levels(); ++level)` visits `base_level`, ...,
`base_level + levels - 1` when these are values of the index type. -/
def write_level_images_ (view : TextureView) (file : output_file_) : List write_request :=
  if view.levels ≤ 1 then [file.request view]
  else
    (List.range' view.base_level view.levels).map fun level =>
      (file.with_suffix "-level" level).request
        (view.window view.base_layer view.layers view.base_face view.faces level 1)

/-- The `AtexApp::write_face_images_`. -/
def write_face_images_ (view : TextureView) (file : output_file_) : List write_request :=
  if view.faces ≤ 1 then write_level_images_ view file
  else
    (List.range' view.base_face view.faces).flatMap fun face =>
      write_level_images_
        (view.window view.base_layer view.layers face 1 view.base_level view.levels)
        (file.with_suffix "-face" face)

/-- The `AtexApp::write_layer_images_`. -/
def write_layer_images_ (view : TextureView) (file : output_file_) : List write_request :=
  if view.layers ≤ 1 then write_face_images_ view file
  else
    (List.range' view.base_layer view.layers).flatMap fun layer =>
      write_face_images_
        (view.window layer 1 view.base_face view.faces view.base_level view.levels)
        (file.with_suffix "-layer" layer)

/-- The `switch (file.file_format)` at the end of the loop of `write_outputs_`,
as the calls of `write_output_` it leads to: none for an unknown format, one
with the whole selected view for beTx, KTX and DDS, those of the slicer for
every other format. -/
def write_selected (selected_view : TextureView) (file : output_file_) : List write_request :=
  match file.file_format with
  | .unknown => []
  | .betx | .ktx | .dds => [file.request selected_view]
  | _ => write_layer_images_ selected_view file

/-! ## `operator()` -/

/-- What a call of `operator()` leaves behind: the application state, whose
status is the value returned, the result of `make_texture_` if it was called,
and the view handed to `write_outputs_` if that was invoked. -/
structure run_result where
  app : AppState
  made : Option make_result
  written : Option TextureView

/-- The `AtexApp::operator()`, for a run in which no exception reaches its
handlers.  `files` are the entries of `input_files_` with what `util::glob` and
`load_input_` gave for them, `write_outputs_` is the member function of that
name, acting on the application state; `log_texture_info` is not modelled.
After a failed assertion in `make_texture_` nothing more is done. -/
def operator_call (ts : TextureStorageTraits) (gfx : GfxTraits) (cfg : settings_)
    (alloc_ok : Bool) (write_outputs_ : AppState → TextureView → AppState)
    (app : AppState) (output_files_ : List output_file_) (files : List globbed_) :
    run_result :=
  let a1 := if output_files_.isEmpty then app.report status_code_.status_no_output else app
  let a2 := if files.isEmpty then a1.report status_code_.status_no_input else a1
  if a2.status_ ≠ 0 then { app := a2, made := none, written := none }
  else
    let l := load_inputs_ ts a2 files
    if l.inputs.isEmpty then
      { app := l.app.report status_code_.status_no_input, made := none, written := none }
    else
      let m := make_texture_ ts gfx cfg alloc_ok l.app l.inputs
      match m.texture with
      | none => { app := m.app, made := some m, written := none }
      | some tex =>
        match tex.view with
        | none =>
          { app := m.app.report status_code_.status_conversion_error,
            made := some m, written := none }
        | some view => { app := write_outputs_ m.app view, made := some m, written := some view }

/-! ## Indices in file names -/

/-- The value of a run of decimal digits, as a numeric string is read in base 10. -/
def parse_digits (ds : List Char) : Nat :=
  ds.foldl (fun acc c => 10 * acc + (c.toNat - 48)) 0

/-- A literal of a pattern compiled with `std::regex_constants::icase`, at the
start of a text: every letter of the literal (lower case in the patterns) is
matched by itself and by its upper-case form.  Gives the text after the
literal. -/
def skip_literal : List Char → List Char → Option (List Char)
  | [], s => some s
  | _ :: _, [] => none
  | p :: ps, c :: cs => if c.toLower = p then skip_literal ps cs else none

/-- The group `(\d+)` at the start of a text: the longest run of decimal
digits, which must not be empty. -/
def capture_digits (s : List Char) : Option (List Char) :=
  if s.takeWhile Char.isDigit = [] then none else some (s.takeWhile Char.isDigit)

/-- One attempt to match a pattern `-(?:short|long)(\d+)` at the start of a
text, the alternatives tried in their order; gives the digits captured. -/
def match_here (short long : List Char) : List Char → Option (List Char)
  | [] => none
  | c :: rest =>
    if c = '-' then
      match (skip_literal short rest).bind capture_digits with
      | some d => some d
      | none => (skip_literal long rest).bind capture_digits
    else none

/-- The `std::regex_search(filename, m, re)` of the C++ library for a pattern
`-(?:short|long)(\d+)`, followed by `m[1].str()`: the digits captured by the
leftmost match, if there is a match. -/
def regex_search (short long : List Char) : List Char → Option (List Char)
  | [] => none
  | c :: rest =>
    match match_here short long (c :: rest) with
    | some d => some d
    | none => regex_search short long rest

/-- The search with `layer_regex()`, `"-(?:l|layer)(\\d+)"` with `icase`. -/
def layer_regex (filename : List Char) : Option (List Char) :=
  regex_search "l".data "layer".data filename

/-- The search with `face_regex()`, `"-(?:f|face)(\\d+)"` with `icase`. -/
def face_regex (filename : List Char) : Option (List Char) :=
  regex_search "f".data "face".data filename

/-- The search with `level_regex()`, `"-(?:m|level)(\\d+)"` with `icase`. -/
def level_regex (filename : List Char) : Option (List Char) :=
  regex_search "m".data "level".data filename

/-- Modelled from the spec: the
`util::parse_bounded_numeric_string<T>(index, 0, max, 10, ec)` of bengine-util
(not in this repository), applied to the digits that a pattern captured: the
index read in base 10, or `none` (the error code is set) when it is "out of
the valid index range". -/
def parse_bounded_numeric_string (index : List Char) (max : Nat) : Option Nat :=
  if parse_digits index ≤ max then some (parse_digits index) else none

/-! ## `load_input_` -/

/-- The `path.filename().generic_string()` of a path given as its text: what
follows the last `/`. -/
def filename_of (path : String) : List Char :=
  (path.data.reverse.takeWhile fun c => !(c == '/')).reverse

/-- What `TextureReader` gave for a file: `reader.read` set the error code,
`reader.texture` set the error code, or a texture was read. -/
inductive read_outcome where
  | read_failed
  | parse_failed
  | texture (t : Texture)
  deriving DecidableEq, Repr

/-- The `input_` that `load_input_` returns, the codes it passed to
`set_status_` and the warnings, notices and errors it logged, in order. -/
structure load_input_result where
  input : input_
  reported : List status_code_
  logged : List LogEntry
  deriving DecidableEq, Repr

/-- What `load_inputs_` uses of a result of `load_input_`. -/
def load_input_result.loaded (r : load_input_result) : loaded_ :=
  { input := r.input, reported := r.reported }

/-- One of the three blocks `if (result.dest_layer == TextureStorage::max_layers) { ... }`
of `load_input_`: the destination index, the codes reported and the notices
logged.  `found` is what `std::regex_search` gives for the file name. -/
def load_input_dest (max given : Nat) (found : Option (List Char)) (notice : LogEntry) :
    Nat × List status_code_ × List LogEntry :=
  if given = max then
    match found with
    | some index =>
      match parse_bounded_numeric_string index (max - 1) with
      | some v => (v, [], [])
      | none => (0, [status_code_.status_warning], [notice])
    | none => (0, [], [])
  else (given, [], [])

/-- The `ImageFormat new_format` of `load_input_`: the format of the view read
with the overrides of the input file. -/
def load_input_format (file : input_file_) (format : ImageFormat) : ImageFormat :=
  let f1 := if file.override_colorspace then { format with colorspace := file.colorspace }
    else format
  let f2 := if file.override_premultiplied then
    { f1 with premultiplied := file.premultiplied } else f1
  if file.override_components then
    { f2 with component_types := file.component_types, swizzles := file.swizzles }
  else f2

/-- The reading part of `load_input_`: the texture of the result, the codes
reported and the errors logged.  `view_of` is the constructor
`TextureView(format, class, storage, base_layer, layers, base_face, faces, base_level, levels)`
of bengine-gfx, applied to the view read; `duplicate_ok` tells whether
`duplicate_texture` succeeds (`false`: it throws `std::bad_alloc`). -/
def load_input_texture (ts : TextureStorageTraits)
    (view_of : TextureView → ImageFormat → Nat → Nat → Nat → Nat → Nat → Nat → TextureView)
    (duplicate_ok : Bool) (read : read_outcome) (file : input_file_) :
    Texture × List status_code_ × List LogEntry :=
  match read with
  | .read_failed =>
    ({ view := none }, [status_code_.status_read_error], [LogEntry.read_failed file.path])
  | .parse_failed =>
    ({ view := none }, [status_code_.status_read_error], [LogEntry.parse_failed file.path])
  | .texture t =>
    match t.view with
    | none =>
      ({ view := none }, [status_code_.status_read_error], [LogEntry.empty_texture file.path])
    | some view =>
      let new_view := view_of view (load_input_format file view.format)
        file.first_layer ((file.last_layer - file.first_layer + 1) % 2 ^ ts.layer_bits)
        file.first_face ((file.last_face - file.first_face + 1) % 2 ^ ts.face_bits)
        file.first_level ((file.last_level - file.first_level + 1) % 2 ^ ts.level_bits)
      if new_view.layers ≠ view.layers ∨ new_view.faces ≠ view.faces ∨
          new_view.levels ≠ view.levels then
        if duplicate_ok then ({ view := some new_view }, [], [])
        else
          ({ view := none }, [status_code_.status_read_error],
            [LogEntry.duplicate_failed file.path])
      else ({ view := some new_view }, [], [])

/-- The `AtexApp::load_input_`.  `read` is what the reader gives for the file;
informational and verbose messages are not modelled. -/
def load_input_ (ts : TextureStorageTraits)
    (view_of : TextureView → ImageFormat → Nat → Nat → Nat → Nat → Nat → Nat → TextureView)
    (duplicate_ok : Bool) (read : read_outcome) (file : input_file_) : load_input_result :=
  let unset : input_ :=
    { path := file.path, texture := { view := none }, dest_layer := file.layer,
      dest_face := file.face, dest_level := file.level }
  if file.first_layer > file.last_layer then
    { input := unset, reported := [status_code_.status_warning],
      logged := [LogEntry.no_layers_selected file.path file.first_layer file.last_layer] }
  else if file.first_face > file.last_face then
    { input := unset, reported := [status_code_.status_warning],
      logged := [LogEntry.no_faces_selected file.path file.first_face file.last_face] }
  else if file.first_level > file.last_level then
    { input := unset, reported := [status_code_.status_warning],
      logged := [LogEntry.no_levels_selected file.path file.first_level file.last_level] }
  else
    let l := load_input_dest ts.max_layers file.layer (layer_regex (filename_of file.path))
      (LogEntry.layer_out_of_range file.path)
    let f := load_input_dest ts.max_faces file.face (face_regex (filename_of file.path))
      (LogEntry.face_out_of_range file.path)
    let m := load_input_dest ts.max_levels file.level (level_regex (filename_of file.path))
      (LogEntry.level_out_of_range file.path)
    let r := load_input_texture ts view_of duplicate_ok read file
    { input := { path := file.path, texture := r.1, dest_layer := l.1, dest_face := f.1,
                 dest_level := m.1 },
      reported := l.2.1 ++ f.2.1 ++ m.2.1 ++ r.2.1,
      logged := l.2.2 ++ f.2.2 ++ m.2.2 ++ r.2.2 }

/-! ## `write_outputs_` and `write_output_` -/

/-- What `write_outputs_` and `write_output_` use from outside the function
bodies: `fs::absolute(path, output_path_base_)`, `fs::exists`, the member
`overwrite_output_files_`, the constructor
`TextureView(format, class, storage, base_layer, layers, base_face, faces, base_level, levels)`
of bengine-gfx applied to the merged view, and whether `BetxWriter::write`
leaves the error code clear for a request. -/
structure output_env where
  absolute : Path → Path
  file_exists : Path → Bool
  overwrite_output_files_ : Bool
  view_of : TextureView → ImageFormat → Nat → Nat → Nat → Nat → Nat → Nat → TextureView
  betx_written : write_request → Bool

/-- Whether the `switch (format)` of `write_output_` leaves `ec` clear: only
the case `betx` calls a writer; `ktx`, `dds`, `png`, `tga`, `bmp`, `hdr` fall
through to `default`, which sets `std::errc::not_supported`. -/
def write_output_ok (env : output_env) (r : write_request) : Bool :=
  match r.format with
  | .betx => env.betx_written r
  | _ => false

/-- The `AtexApp::write_output_`. -/
def write_output_ (env : output_env) (app : AppState) (r : write_request) : AppState :=
  if write_output_ok env r then app
  else app.fail status_code_.status_write_error (LogEntry.could_not_write r.path.string)

/-- How one pass of the loop of `write_outputs_` ends: left by `continue` or
by the case `unknown` of the switch, or with the calls of `write_output_` it
made. -/
inductive file_outcome where
  | skipped
  | issued (calls : List write_request)
  deriving DecidableEq, Repr

/-- One of the three blocks `if (!file.force_layers) { ... }`: base and count of
the axis, or `none` when the index in the file name is invalid (`continue`). -/
def output_axis (force : Bool) (base count max : Nat) (found : Option (List Char)) :
    Option (Nat × Nat) :=
  if force then some (base, count)
  else
    match found with
    | none => some (base, count)
    | some index =>
      match parse_bounded_numeric_string index (max - 1) with
      | some v => some (v, 1)
      | none => none

/-- The format that `write_outputs_` takes from the extension, lower-cased,
when the output file gives none. -/
def extension_format (extension : String) : TextureFileFormat :=
  let ext : String := { data := extension.data.map Char.toLower }
  if ext = ".betx" then .betx
  else if ext = ".ktx" then .ktx
  else if ext = ".dds" then .dds
  else if ext = ".png" then .png
  else if ext = ".tga" then .tga
  else if ext = ".bmp" ∨ ext = ".dib" then .bmp
  else if ext = ".hdr" ∨ ext = ".rgbe" ∨ ext = ".pic" then .hdr
  else .unknown

/-- The body of the loop of `write_outputs_` for one output file: the
application state after it and how the pass ended. -/
def write_outputs_file (ts : TextureStorageTraits) (env : output_env) (view : TextureView)
    (app : AppState) (entry : output_file_) : AppState × file_outcome :=
  let path := env.absolute entry.path
  if env.file_exists path && !env.overwrite_output_files_ then
    (app.fail status_code_.status_write_error (LogEntry.output_exists path.string),
      file_outcome.skipped)
  else
    match output_axis entry.force_layers entry.base_layer entry.layers ts.max_layers
        (layer_regex path.filename.data) with
    | none =>
      (app.fail status_code_.status_write_error (LogEntry.invalid_output_layer path.string),
        file_outcome.skipped)
    | some (base_layer, layers) =>
      match output_axis entry.force_faces entry.base_face entry.faces ts.max_faces
          (face_regex path.filename.data) with
      | none =>
        (app.fail status_code_.status_write_error (LogEntry.invalid_output_face path.string),
          file_outcome.skipped)
      | some (base_face, faces) =>
        match output_axis entry.force_levels entry.base_level entry.levels ts.max_levels
            (level_regex path.filename.data) with
        | none =>
          (app.fail status_code_.status_write_error
              (LogEntry.invalid_output_level path.string),
            file_outcome.skipped)
        | some (base_level, levels) =>
          if base_layer ≥ view.layers then
            (app.fail status_code_.status_write_error (LogEntry.no_output_layers path.string),
              file_outcome.skipped)
          else if base_face ≥ view.faces then
            (app.fail status_code_.status_write_error (LogEntry.no_output_faces path.string),
              file_outcome.skipped)
          else if base_level ≥ view.levels then
            (app.fail status_code_.status_write_error (LogEntry.no_output_levels path.string),
              file_outcome.skipped)
          else
            let selected_view := env.view_of view view.format
              ((view.base_layer + base_layer) % 2 ^ ts.layer_bits) layers
              ((view.base_face + base_face) % 2 ^ ts.face_bits) faces
              ((view.base_level + base_level) % 2 ^ ts.level_bits) levels
            let file_format :=
              if entry.file_format = TextureFileFormat.unknown then
                extension_format path.extension
              else entry.file_format
            let file : output_file_ :=
              { entry with
                path := path, file_format := file_format,
                base_layer := base_layer, layers := layers,
                base_face := base_face, faces := faces,
                base_level := base_level, levels := levels }
            if file_format = TextureFileFormat.unknown then
              (app.fail status_code_.status_write_error
                  (LogEntry.unknown_output_format path.string),
                file_outcome.skipped)
            else
              ((write_selected selected_view file).foldl (write_output_ env) app,
                file_outcome.issued (write_selected selected_view file))

/-- The application state after some passes of the loop of `write_outputs_`
and how each pass ended. -/
structure output_state where
  app : AppState
  outcomes : List file_outcome
  deriving DecidableEq, Repr

/-- One pass of the loop of `write_outputs_` on the state of the loop. -/
def write_outputs_step (ts : TextureStorageTraits) (env : output_env) (view : TextureView)
    (s : output_state) (entry : output_file_) : output_state :=
  { app := (write_outputs_file ts env view s.app entry).1,
    outcomes := s.outcomes ++ [(write_outputs_file ts env view s.app entry).2] }

/-- The `AtexApp::write_outputs_`: `for (output_file_ file : output_files_) { ... }`. -/
def write_outputs_ (ts : TextureStorageTraits) (env : output_env) (view : TextureView)
    (app : AppState) (output_files_ : List output_file_) : output_state :=
  output_files_.foldl (write_outputs_step ts env view) { app := app, outcomes := [] }

/-- The `AtexApp::operator()` with `write_outputs_` as modelled here. -/
def atex_run (ts : TextureStorageTraits) (gfx : GfxTraits) (cfg : settings_)
    (alloc_ok : Bool) (env : output_env) (app : AppState) (output_files_ : List output_file_)
    (files : List globbed_) : run_result :=
  operator_call ts gfx cfg alloc_ok
    (fun a view => (write_outputs_ ts env view a output_files_).app) app output_files_ files

/-! # Notions used in the statements -/

/-! ## Accepted images in encounter order -/

/-- The destination (layer, face, level) of an image of an input: the offsets
of the input plus the indices of the image. -/
def destination (input : input_) (img : ImageView) : Nat × Nat × Nat :=
  (input.dest_layer + img.layer, input.dest_face + img.face, input.dest_level + img.level)

/-- An image is accepted when no destination index reaches its maximum. -/
def accepted (ts : TextureStorageTraits) (input : input_) (img : ImageView) : Bool :=
  decide (input.dest_layer + img.layer < ts.max_layers ∧
    input.dest_face + img.face < ts.max_faces ∧
    input.dest_level + img.level < ts.max_levels)

/-- The key of a destination triple. -/
def key_of (ts : TextureStorageTraits) (d : Nat × Nat × Nat) : Nat := img_id ts d.1 d.2.1 d.2.2

/-- The accepted images of the inputs from index `idx` on, in the order in which
both `load_inputs_` and `make_texture_` come across them, each with its
destination and the index of its input. -/
def encounter_from (ts : TextureStorageTraits) :
    Nat → List input_ → List ((Nat × Nat × Nat) × Nat × ImageView)
  | _, [] => []
  | idx, input :: rest =>
    ((input.texture.images.filter (accepted ts input)).map
      fun img => (destination input img, idx, img)) ++ encounter_from ts (idx + 1) rest

/-- The accepted images of all inputs in encounter order. -/
def encounter (ts : TextureStorageTraits) (inputs : List input_) :
    List ((Nat × Nat × Nat) × Nat × ImageView) :=
  encounter_from ts 0 inputs

/-- Whether a log entry is "Replacing an image that was already loaded!". -/
def LogEntry.is_replacing : LogEntry → Bool
  | .replacing_image _ _ _ _ _ => true
  | _ => false

/-- The number of "Replacing an image that was already loaded!" warnings in a log. -/
def count_replacing (log : List LogEntry) : Nat := (log.filter LogEntry.is_replacing).length

/-- Whether a log entry is one of the three overflow warnings. -/
def LogEntry.is_overflow : LogEntry → Bool
  | .too_many_layers _ _ _ => true
  | .too_many_faces _ _ _ => true
  | .too_many_levels _ _ _ => true
  | _ => false

/-- The inputs that `load_inputs_` appends for the matched paths of one file:
those whose texture has a view. -/
def kept_inputs (paths : List loaded_) : List input_ :=
  (paths.filter fun p => p.input.texture.view.isSome).map loaded_.input

/-- The table update of one accepted image. -/
def assign_entry (ts : TextureStorageTraits) (m : KeyMap (Nat × ImageView))
    (e : (Nat × Nat × Nat) × Nat × ImageView) : KeyMap (Nat × ImageView) :=
  m.assign (key_of ts e.1) e.2

/-- The number of keys of a list that are met when already seen: `seen` holds
the keys inserted before, and every key met is inserted. -/
def dup_count : List Nat → List Nat → Nat
  | _, [] => 0
  | seen, k :: ks => (if k ∈ seen then 1 else 0) + dup_count (k :: seen) ks

/-- How one step of `load_inputs_` may change status and log: the status does
not drop, and it is at least `status_warning` once the step has logged. -/
def load_progress (a b : AppState) : Prop :=
  a.status_ ≤ b.status_ ∧ (b.log = a.log ∨ 1 ≤ b.status_)

/-- The vector that `load_inputs_` returns: for every file and every matched
path, in order, the input loaded when it has a view. -/
def all_kept : List globbed_ → List input_
  | [] => []
  | g :: rest => kept_inputs g.paths ++ all_kept rest

/-- A destination triple within the limits of the traits. -/
def legal (ts : TextureStorageTraits) (d : Nat × Nat × Nat) : Prop :=
  d.1 < ts.max_layers ∧ d.2.1 < ts.max_faces ∧ d.2.2 < ts.max_levels

/-- An input without the images that are not accepted. -/
def without_rejected (ts : TextureStorageTraits) (input : input_) : input_ :=
  { input with
    texture :=
      { view := input.texture.view.map fun v =>
          { v with images := v.images.filter (accepted ts input) } } }

/-- A loaded path without the images that are not accepted. -/
def loaded_.without_rejected (ts : TextureStorageTraits) (p : loaded_) : loaded_ :=
  { p with input := be.atex.without_rejected ts p.input }

/-- A file whose loaded paths are without the images that are not accepted. -/
def globbed_.without_rejected (ts : TextureStorageTraits) (g : globbed_) : globbed_ :=
  { g with paths := g.paths.map (loaded_.without_rejected ts) }

/-- Two states of `load_inputs_` with the same table and equally many inputs. -/
def same_table (s s' : load_state) : Prop :=
  s.images = s'.images ∧ s.inputs.length = s'.inputs.length

/-- The update of `min_level` and of the base by one accepted image, as the
scan performs it. -/
def base_step (ts : TextureStorageTraits) (mb : Nat × Option (Nat × ivec3))
    (e : (Nat × Nat × Nat) × Nat × ImageView) : Nat × Option (Nat × ivec3) :=
  (min mb.1 (e.1.2.2 % 2 ^ ts.level_bits),
    if e.1.2.2 < mb.1 then some (e.2.1, e.2.2.dim) else mb.2)

/-! ## What the merge logs -/

/-- The state after a sequence of warnings. -/
def warn_all (app : AppState) (es : List LogEntry) : AppState := es.foldl AppState.warn app

/-- Whether a log entry comes from the validation of a slot. -/
def LogEntry.is_slot_report : LogEntry → Bool
  | .missing_image _ _ _ => true
  | .image_size_mismatch _ _ _ _ _ _ => true
  | _ => false

/-- Whether a log entry is "Image size mismatch!" for the given destination. -/
def LogEntry.is_mismatch_at (layer face level : Nat) : LogEntry → Bool
  | .image_size_mismatch _ _ _ l f v => decide (l = layer ∧ f = face ∧ v = level)
  | _ => false

/-- Whether a log entry is "Missing image" for the given destination. -/
def LogEntry.is_missing_at (layer face level : Nat) : LogEntry → Bool
  | .missing_image l f v => decide (l = layer ∧ f = face ∧ v = level)
  | _ => false

/-- What the validation loop logs for one coordinate. -/
def slot_report (ts : TextureStorageTraits) (inputs : List input_)
    (images : KeyMap (Nat × ImageView)) (base_dim : ivec3) (layer face level : Nat) :
    List LogEntry :=
  match images (img_id_promoted ts layer face level) with
  | none => [LogEntry.missing_image layer face level]
  | some (idx, img) =>
    if img.dim ≠ mipmap_dim base_dim level then
      [LogEntry.image_size_mismatch ((inputs.map input_.path).getD idx "")
        img.dim (mipmap_dim base_dim level) layer face level]
    else []

/-- What the three validation loops log. -/
def validate_report (ts : TextureStorageTraits) (inputs : List input_)
    (images : KeyMap (Nat × ImageView)) (base_dim : ivec3)
    (min_layer max_layer min_face max_face min_level max_level : Nat) : List LogEntry :=
  (index_range min_layer max_layer).flatMap fun layer =>
    (index_range min_face max_face).flatMap fun face =>
      (index_range min_level max_level).flatMap fun level =>
        slot_report ts inputs images base_dim layer face level

/-- The base dimensions in effect after the scan: corrected when `min_level > 0`. -/
def final_base_dim (s : scan_state) (recorded : ivec3) : ivec3 :=
  if s.min_level > 0 then correct_base_dim recorded s.min_level else recorded

/-- The `max_level` in effect after the trimming. -/
def final_max_level (ts : TextureStorageTraits) (s : scan_state) (recorded : ivec3) : Nat :=
  (trim_levels ts fresh s.min_level s.max_level (final_base_dim s recorded)).2

/-- The keys that the validation loop computes for layers up to `max_layer`
fit an `int`. -/
def promoted_key_fits (ts : TextureStorageTraits) (max_layer : Nat) : Prop :=
  (max_layer + 1) * 2 ^ (ts.face_bits + ts.level_bits) ≤ 2 ^ 31

instance (ts : TextureStorageTraits) (max_layer : Nat) :
    Decidable (promoted_key_fits ts max_layer) :=
  inferInstanceAs (Decidable (_ ≤ _))

/-- The "Missing ..." warnings after the scan. -/
def missing_entries (s : scan_state) : List LogEntry :=
  (if s.min_layer > 0 then [LogEntry.missing_layers (s.min_layer - 1)] else []) ++
  (if s.min_face > 0 then [LogEntry.missing_faces (s.min_face - 1)] else []) ++
  (if s.min_level > 0 then [LogEntry.missing_levels (s.min_level - 1)] else [])

/-- The warning of the trimming, if any. -/
def trim_entries (ts : TextureStorageTraits) (min_level max_level : Nat) (base_dim : ivec3) :
    List LogEntry :=
  if min_level + expected_levels ts base_dim ≤ max_level then
    [LogEntry.unnecessary_levels_removed (min_level + expected_levels ts base_dim) max_level]
  else []

/-- The notices about the chosen class. -/
def class_entries (gfx : GfxTraits) (tex_class : TextureClass) (layers faces : Nat)
    (base_dim : ivec3) : List LogEntry :=
  (if layers > 1 ∧ ¬ gfx.is_array tex_class then [LogEntry.non_array_class layers] else []) ++
  (if faces ≠ gfx.faces tex_class then
    [LogEntry.face_count_conflict faces (gfx.faces tex_class)] else []) ++
  (if (base_dim.z > 1 ∧ gfx.dimensionality tex_class < 3) ∨
      (base_dim.y > 1 ∧ gfx.dimensionality tex_class < 2) then
    [LogEntry.dimensionality_conflict (gfx.dimensionality tex_class) base_dim] else [])

/-- The notices about components, block size and block span. -/
def block_entries (gfx : GfxTraits) (format : ImageFormat) (block_span : Nat) : List LogEntry :=
  (if format.components > gfx.component_count format.packing then
    [LogEntry.component_count_conflict format.components
      (gfx.component_count format.packing)] else []) ++
  (if required_block_size gfx format > format.block_size then
    [LogEntry.block_size_enlarged format.block_size (required_block_size gfx format)]
    else []) ++
  (if block_span < (if required_block_size gfx format > format.block_size then
        to_block_size gfx (required_block_size gfx format) else format.block_size) then
    [LogEntry.block_span_increased block_span
      (if required_block_size gfx format > format.block_size then
        to_block_size gfx (required_block_size gfx format) else format.block_size)]
    else [])

/-- The maxima of the scan stay below the maxima of the traits (or at 0). -/
def scan_bounded (ts : TextureStorageTraits) (s : scan_state) : Prop :=
  (s.max_layer < ts.max_layers ∨ s.max_layer = 0) ∧
  (s.max_face < ts.max_faces ∨ s.max_face = 0) ∧
  (s.max_level < ts.max_levels ∨ s.max_level = 0)

/-! ## The merged texture -/

/-- The `layers = max_layer + 1` of `make_texture_`, a `layer_index_type`. -/
def merged_layers (ts : TextureStorageTraits) (s : scan_state) : Nat :=
  (s.max_layer + 1) % 2 ^ ts.layer_bits

/-- The `faces = max_face + 1` of `make_texture_`, a `face_index_type`. -/
def merged_faces (ts : TextureStorageTraits) (s : scan_state) : Nat :=
  (s.max_face + 1) % 2 ^ ts.face_bits

/-- The `levels = max_level + 1` of `make_texture_`, a `level_index_type`, with
`max_level` after the trimming. -/
def merged_levels (ts : TextureStorageTraits) (s : scan_state) (recorded : ivec3) : Nat :=
  (final_max_level ts s recorded + 1) % 2 ^ ts.level_bits

/-- The texture class resolved for a base view. -/
def merged_class (ts : TextureStorageTraits) (gfx : GfxTraits) (cfg : settings_)
    (s : scan_state) (base_view : TextureView) : TextureClass :=
  choose_tex_class gfx cfg base_view.texture_class (merged_layers ts s)

/-- The format and the block span after `if (override_block_) ...` and the
enlargements, for a base view. -/
def fitted_block (gfx : GfxTraits) (cfg : settings_) (base_view : TextureView) :
    ImageFormat × Nat :=
  (fit_block gfx fresh (override_block gfx cfg base_view.format base_view.block_span).1
    (override_block gfx cfg base_view.format base_view.block_span).2).2

/-- The view that `make_texture_` returns for a base view when the allocation succeeds. -/
def merged_view (ts : TextureStorageTraits) (gfx : GfxTraits) (cfg : settings_)
    (s : scan_state) (recorded : ivec3) (base_view : TextureView) : TextureView :=
  { format := override_color cfg (fitted_block gfx cfg base_view).1,
    texture_class := merged_class ts gfx cfg s base_view,
    block_span := (fitted_block gfx cfg base_view).2,
    alignment := choose_alignment cfg base_view.alignment,
    base_layer := 0, layers := merged_layers ts s,
    base_face := 0, faces := merged_faces ts s,
    base_level := 0, levels := merged_levels ts s recorded,
    images := storage_images (merged_layers ts s) (merged_faces ts s)
      (merged_levels ts s recorded) (final_base_dim s recorded) }

/-- Everything that `make_texture_` logs up to the allocation, for a base view. -/
def merge_entries (ts : TextureStorageTraits) (gfx : GfxTraits) (cfg : settings_)
    (inputs : List input_) (s : scan_state) (recorded : ivec3) (base_view : TextureView) :
    List LogEntry :=
  missing_entries s ++ trim_entries ts s.min_level s.max_level (final_base_dim s recorded) ++
  validate_report ts inputs s.images (final_base_dim s recorded) s.min_layer s.max_layer
    s.min_face s.max_face s.min_level (final_max_level ts s recorded) ++
  class_entries gfx (merged_class ts gfx cfg s base_view) (merged_layers ts s)
    (merged_faces ts s) (final_base_dim s recorded) ++
  block_entries gfx (override_block gfx cfg base_view.format base_view.block_span).1
    (override_block gfx cfg base_view.format base_view.block_span).2

/-- The update of the three maxima by one accepted image, as the scan performs it. -/
def max_step (ts : TextureStorageTraits) (m : Nat × Nat × Nat)
    (e : (Nat × Nat × Nat) × Nat × ImageView) : Nat × Nat × Nat :=
  (max m.1 (e.1.1 % 2 ^ ts.layer_bits), max m.2.1 (e.1.2.1 % 2 ^ ts.face_bits),
    max m.2.2 (e.1.2.2 % 2 ^ ts.level_bits))

/-- Whether a log entry is one of the two enlargement notices. -/
def LogEntry.is_enlargement : LogEntry → Bool
  | .block_size_enlarged _ _ => true
  | .block_span_increased _ _ => true
  | _ => false

/-- Whether a log entry is "Component count conflict". -/
def LogEntry.is_component_conflict : LogEntry → Bool
  | .component_count_conflict _ _ => true
  | _ => false

/-- Whether a log entry is "Using non-array texture class for a texture with
multiple layers". -/
def LogEntry.is_non_array : LogEntry → Bool
  | .non_array_class _ => true
  | _ => false

/-- The part of the application that logs an entry: 0 `load_inputs_`, 1 the
warnings after the scan, 2 the validation of the slots, 3 the notices about
the class, 4 the notices about the block, 5 the allocation. -/
def LogEntry.stage : LogEntry → Nat
  | .missing_layers _ => 1
  | .missing_faces _ => 1
  | .missing_levels _ => 1
  | .unnecessary_levels_removed _ _ => 1
  | .missing_image _ _ _ => 2
  | .image_size_mismatch _ _ _ _ _ _ => 2
  | .non_array_class _ => 3
  | .face_count_conflict _ _ => 3
  | .dimensionality_conflict _ _ => 3
  | .component_count_conflict _ _ => 4
  | .block_size_enlarged _ _ => 4
  | .block_span_increased _ _ => 4
  | .not_enough_memory => 5
  | _ => 0

/-- Whether a log entry is "Block size enlarged to fit all block data". -/
def LogEntry.is_block_size_enlarged : LogEntry → Bool
  | .block_size_enlarged _ _ => true
  | _ => false

/-- Whether a log entry is "Block span increased to fit all block data". -/
def LogEntry.is_block_span_increased : LogEntry → Bool
  | .block_span_increased _ _ => true
  | _ => false

/-- The destination slots to which the copies write. -/
def written_slots (blits : List blit_) : List (Nat × Nat × Nat) :=
  blits.map fun b => (b.dst.layer, b.dst.face, b.dst.level)

/-- The coordinate that a request of the slicer selects: the bases of its view. -/
def write_request.coordinate (r : write_request) : Nat × Nat × Nat :=
  (r.view.base_layer, r.view.base_face, r.view.base_level)

/-- The coordinates of a selection, layer by layer, face by face, level by level. -/
def selection_coordinates (view : TextureView) : List (Nat × Nat × Nat) :=
  (List.range' view.base_layer view.layers).flatMap fun layer =>
    (List.range' view.base_face view.faces).flatMap fun face =>
      (List.range' view.base_level view.levels).map fun level => (layer, face, level)

/-- The three ranges of the view of a request: base and count of its layers,
of its faces and of its levels. -/
def write_request.ranges (r : write_request) : (Nat × Nat) × (Nat × Nat) × (Nat × Nat) :=
  ((r.view.base_layer, r.view.layers), (r.view.base_face, r.view.faces),
    (r.view.base_level, r.view.levels))

/-- The suffix that the naming convention gives to an axis of a selection:
the name of the axis and the decimal index when the selection has more than
one index on the axis, nothing otherwise. -/
def axis_suffix (count : Nat) (name : String) (index : Nat) : String :=
  if count > 1 then name ++ toString index else ""

/-- The naming convention for the file of a coordinate of a selection, in the
words of the specification: the stem, followed by `-layer<l>` if the
selection has more than one layer, then `-face<f>` if it has more than one
face, then `-level<m>` if it has more than one level; directory and
extension are kept. -/
def sliced_path (view : TextureView) (path : Path) (c : Nat × Nat × Nat) : Path :=
  { path with
    stem := path.stem ++ axis_suffix view.layers "-layer" c.1 ++
      axis_suffix view.faces "-face" c.2.1 ++ axis_suffix view.levels "-level" c.2.2 }

/-- A text that does not begin with a decimal digit. -/
def no_leading_digit (s : List Char) : Prop := ∀ c r, s = c :: r → c.isDigit = false

/-- A text that a pattern cannot run into from the text before it: it is
empty or starts with a character that is neither a digit nor a letter of the
pattern. -/
def inert_start (short long : List Char) (b : List Char) : Prop :=
  ∀ c r, b = c :: r → c.isDigit = false ∧ c.toLower ∉ short ∧ c.toLower ∉ long

/-- The name that the slicer gives to the coordinate (l, f, m) when the
selection has more than one index on every axis. -/
def generated_name (stem ext : String) (l f m : Nat) : String :=
  stem ++ "-layer" ++ toString l ++ "-face" ++ toString f ++ "-level" ++ toString m ++ ext

/-- The destination index that the specification gives for an axis: an index
given explicitly is kept; the sentinel (the maximum) is replaced by the index
found in the file name if that is in range, and by 0 if it is out of range
or if the name has no match. -/
def resolved_dest (max given : Nat) (found : Option (List Char)) : Nat :=
  if given ≠ max then given
  else
    match found with
    | none => 0
    | some index => if parse_digits index < max then parse_digits index else 0

/-- Whether the index of an axis was left unspecified and the file name gives
an index that is out of range. -/
def name_out_of_range (max given : Nat) (found : Option (List Char)) : Prop :=
  given = max ∧ ∃ index, found = some index ∧ max ≤ parse_digits index

instance (max given : Nat) (found : Option (List Char)) :
    Decidable (name_out_of_range max given found) := by
  unfold name_out_of_range
  cases found with
  | none => exact isFalse (fun h => by obtain ⟨_, _, h, _⟩ := h; cases h)
  | some index =>
    exact decidable_of_iff (given = max ∧ max ≤ parse_digits index)
      ⟨fun h => ⟨h.1, index, rfl, h.2⟩,
        fun h => by
          obtain ⟨h1, i, h2, h3⟩ := h
          cases h2
          exact ⟨h1, h3⟩⟩

/-- Whether a call of `operator()` returned: it did not stop at the assertion
of `make_texture_`. -/
def run_result.returned (r : run_result) : Bool :=
  match r.made with
  | some m => m.texture.isSome
  | none => true

/-- The status after a sequence of calls of `set_status_`, and the codes
passed to it: `b` arises from `a` by reporting codes. -/
def raised (a b : AppState) : Prop :=
  ∃ codes : List status_code_,
    b.reported = a.reported ++ codes ∧ b.status_ = codes.foldl set_status_ a.status_

/-! ## Concrete inputs -/

/-- A four-component format with one-byte words, blocks of one pixel. -/
def rgba_format : ImageFormat :=
  { packing := 0, block_dim := { x := 1, y := 1, z := 1 }, block_size := 4, components := 4,
    component_types := [1, 1, 1, 1], swizzles := [0, 1, 2, 3], colorspace := 0,
    premultiplied := false }

/-- A planar view of the given images, its counts one more than the largest
index of an image. -/
def planar_view (images : List ImageView) : TextureView :=
  { format := rgba_format, texture_class := TextureClass.planar, block_span := 4,
    alignment := { line_bits := 2, plane_bits := 0, level_bits := 0, face_bits := 0,
                   layer_bits := 0 },
    base_layer := 0, layers := (images.map ImageView.layer).foldl max 0 + 1,
    base_face := 0, faces := (images.map ImageView.face).foldl max 0 + 1,
    base_level := 0, levels := (images.map ImageView.level).foldl max 0 + 1,
    images := images }

/-- A two-dimensional image of a view. -/
def image_2d (layer face level : Nat) (width height : Int) : ImageView :=
  { layer := layer, face := face, level := level, dim := { x := width, y := height, z := 1 } }

/-- A loaded input with a planar view. -/
def planar_input (path : String) (dest_layer dest_face dest_level : Nat)
    (images : List ImageView) : input_ :=
  { path := path, texture := { view := some (planar_view images) },
    dest_layer := dest_layer, dest_face := dest_face, dest_level := dest_level }

/-- An input file given with explicit destination indices and the default
selection of byte-sized indices, without overrides. -/
def plain_file (path : String) (layer face level : Nat) : input_file_ :=
  { path := path, layer := layer, first_layer := 0, last_layer := 254,
    face := face, first_face := 0, last_face := 254,
    level := level, first_level := 0, last_level := 254,
    override_components := false, component_types := [], swizzles := [0, 1, 2, 3],
    override_colorspace := false, colorspace := 0,
    override_premultiplied := false, premultiplied := false }

/-- An entry of `input_files_` with one matched path, loaded without any report. -/
def one_path (input : input_) : globbed_ :=
  { file := plain_file input.path input.dest_layer input.dest_face input.dest_level,
    paths := [{ input := input, reported := [] }] }

/-- A sample of the library functions: four classes are arrays, only the
directional classes have six faces, every packing has four one-byte words. -/
def sample_gfx : GfxTraits :=
  { is_array := fun c =>
      match c with
      | .lineal_array | .planar_array | .volumetric_array | .directional_array => true
      | _ => false,
    faces := fun c =>
      match c with
      | .directional | .directional_array => 6
      | _ => 1,
    dimensionality := fun c =>
      match c with
      | .lineal | .lineal_array => 1
      | .volumetric | .volumetric_array => 3
      | _ => 2,
    component_count := fun _ => 4,
    block_word_size := fun _ => 1,
    block_word_count := fun _ => 4,
    sizeof_block_size_type := 1 }

/-- The settings of an `AtexApp` constructed without output options. -/
def default_settings : settings_ :=
  { override_block_ := false, packing_ := 0, components_ := 4, component_types_ := [],
    swizzles_ := [0, 1, 2, 3], block_span_ := 0,
    override_colorspace_ := false, colorspace_ := 1,
    override_premultiplied_ := false, premultiplied_ := false,
    override_alignment_ := false, line_alignment_bits_ := 2, plane_alignment_bits_ := 0,
    level_alignment_bits_ := 0, face_alignment_bits_ := 0, layer_alignment_bits_ := 0,
    override_tex_class_ := false, tex_class_ := TextureClass.planar }

/-- Two files contributing an 8×8 image each to the slot (0, 0, 1). -/
def colliding_files : List globbed_ :=
  [one_path (planar_input "a.png" 0 0 0 [image_2d 0 0 0 16 16, image_2d 0 0 1 8 8]),
   one_path (planar_input "b-level1.png" 0 0 1 [image_2d 0 0 0 8 8])]

/-- An input whose second layer lands on layer 255 of byte-sized traits. -/
def overflowing_input : input_ :=
  planar_input "c-layer254.png" 254 0 0 [image_2d 0 0 0 4 4, image_2d 1 0 0 4 4]

/-- Inputs for the levels 2, 3 and 4 of a texture whose level 2 is 16×16. -/
def levels_2_3_4 : List input_ :=
  [planar_input "t-level2.png" 0 0 2
    [image_2d 0 0 0 16 16, image_2d 0 0 1 8 8, image_2d 0 0 2 4 4]]

/-- The inputs `levels_2_3_4` and a 1×1 image for level 7. -/
def levels_2_3_4_7 : List input_ :=
  levels_2_3_4 ++ [planar_input "t-level7.png" 0 0 7 [image_2d 0 0 0 1 1]]

/-- A 2×2 image for level 30. -/
def level_30 : List input_ := [planar_input "u-level30.png" 0 0 30 [image_2d 0 0 0 2 2]]

/-- A 16×16 level 0 with a 7×7 image where level 1 should be 8×8. -/
def mismatched_levels : List input_ :=
  [planar_input "m.ktx" 0 0 0 [image_2d 0 0 0 16 16, image_2d 0 0 1 7 7]]

/-- An input with two layers of 4×4. -/
def two_layers : List input_ :=
  [planar_input "l.ktx" 0 0 0 [image_2d 0 0 0 4 4, image_2d 1 0 0 4 4]]

/-- The settings after the output option `--texture-class planar`. -/
def planar_override : settings_ :=
  { default_settings with override_tex_class_ := true, tex_class_ := TextureClass.planar }

/-- A view of one 16×16 image in blocks of 8×8 pixels, sixteen bytes a block. -/
def blocks_8x8_view : TextureView :=
  { planar_view [image_2d 0 0 0 16 16] with
    format := { rgba_format with block_dim := { x := 8, y := 8, z := 1 }, block_size := 16 },
    block_span := 16 }

/-- An input with the view `blocks_8x8_view`. -/
def blocks_8x8 : List input_ :=
  [{ path := "c.ktx", texture := { view := some blocks_8x8_view },
     dest_layer := 0, dest_face := 0, dest_level := 0 }]

/-- The library functions of `sample_gfx` with four-byte words: every packing
has four words of four bytes, sixteen bytes a block. -/
def four_byte_words : GfxTraits := { sample_gfx with block_word_size := fun _ => 4 }

/-- The settings after the output options of a custom block format with the
default four components and `--block-span 8`. -/
def custom_block_span_8 : settings_ :=
  { default_settings with override_block_ := true, block_span_ := 8 }

/-- The library functions of `sample_gfx` with a packing, 1, that holds a
single component. -/
def one_component_packing : GfxTraits :=
  { sample_gfx with component_count := fun p => if p = 1 then 1 else 4 }

/-- The settings after the output option `--packing` with the packing 1; the
component count keeps its default, four. -/
def custom_packing_1 : settings_ :=
  { default_settings with override_block_ := true, packing_ := 1, block_span_ := 4 }

/-- An output file `out/tex.png` with the default ranges, for byte-sized indices. -/
def png_output : output_file_ :=
  { path := { parent_path := "out", stem := "tex", extension := ".png" },
    file_format := TextureFileFormat.png,
    force_layers := false, base_layer := 0, layers := 255,
    force_faces := false, base_face := 0, faces := 255,
    force_levels := false, base_level := 0, levels := 255,
    byte_order := 0, payload_compression := false }

/-- A view of two layers with two levels each. -/
def two_by_two_view : TextureView :=
  planar_view [image_2d 0 0 0 4 4, image_2d 0 0 1 2 2, image_2d 1 0 0 4 4, image_2d 1 0 1 2 2]

/-- A view of three layers, one face and one level, starting at layer 0. -/
def three_layers_view : TextureView :=
  planar_view [image_2d 0 0 0 4 4, image_2d 1 0 0 4 4, image_2d 2 0 0 4 4]

/-- An input file `dir/tex-L12-face300.png` with all destination indices left
unspecified, for byte-sized indices. -/
def named_file : input_file_ := plain_file "dir/tex-L12-face300.png" 255 255 255

/-- Surroundings in which no output file exists, paths are taken as they are,
the selection is the merged view with the ranges asked for, and the beTx
writer succeeds. -/
def plain_env : output_env :=
  { absolute := fun p => p, file_exists := fun _ => false, overwrite_output_files_ := false,
    view_of := fun v _ base_layer layers base_face faces base_level levels =>
      v.window base_layer layers base_face faces base_level levels,
    betx_written := fun _ => true }

/-- An output file `out/tex.ktx` with the default ranges, for byte-sized indices. -/
def ktx_output : output_file_ :=
  { png_output with
    path := { parent_path := "out", stem := "tex", extension := ".ktx" },
    file_format := TextureFileFormat.unknown }

/-- An output file `out/tex.betx` with the default ranges, for byte-sized indices. -/
def betx_output : output_file_ :=
  { png_output with
    path := { parent_path := "out", stem := "tex", extension := ".betx" },
    file_format := TextureFileFormat.betx }

/-! # Theorems -/

/-! ### Arithmetic of the key -/

/-- The three index widths together fit the 64 bits of `std::size_t`. -/
theorem TextureStorageTraits.WellFormed.key_fits {ts : TextureStorageTraits} (hw : ts.WellFormed) :
    ts.layer_bits + ts.face_bits + ts.level_bits ≤ 64 := by
  have h1 := hw.layer_size_le
  have h2 := hw.face_size_le
  have h3 := hw.level_size_le
  unfold TextureStorageTraits.layer_bits TextureStorageTraits.face_bits
    TextureStorageTraits.level_bits
  omega

theorem two_pow_le_two_pow_64 {a : Nat} (h : a ≤ 64) : 2 ^ a ≤ 2 ^ 64 :=
  Nat.pow_le_pow_right (by decide) h

/-- Within the legal ranges the key is the positional number
`layer * 2^(face_bits+level_bits) + face * 2^level_bits + level`. -/
theorem img_id_eq_add (ts : TextureStorageTraits) (hw : ts.WellFormed) {layer face level : Nat}
    (hl : layer < ts.max_layers) (hf : face < ts.max_faces) (hv : level < ts.max_levels) :
    img_id ts layer face level
      = (layer * 2 ^ ts.face_bits + face) * 2 ^ ts.level_bits + level := by
  have hl2 : layer < 2 ^ ts.layer_bits := lt_trans hl hw.max_layers_lt
  have hf2 : face < 2 ^ ts.face_bits := lt_trans hf hw.max_faces_lt
  have hv2 : level < 2 ^ ts.level_bits := lt_trans hv hw.max_levels_lt
  have hfit := hw.key_fits
  have h1 : layer * 2 ^ (ts.face_bits + ts.level_bits) < 2 ^ 64 := by
    calc layer * 2 ^ (ts.face_bits + ts.level_bits)
        < 2 ^ ts.layer_bits * 2 ^ (ts.face_bits + ts.level_bits) :=
          Nat.mul_lt_mul_of_pos_right hl2 (Nat.two_pow_pos _)
      _ = 2 ^ (ts.layer_bits + (ts.face_bits + ts.level_bits)) := (Nat.pow_add _ _ _).symm
      _ ≤ 2 ^ 64 := two_pow_le_two_pow_64 (by omega)
  have h2 : face * 2 ^ ts.level_bits < 2 ^ 64 := by
    calc face * 2 ^ ts.level_bits
        < 2 ^ ts.face_bits * 2 ^ ts.level_bits :=
          Nat.mul_lt_mul_of_pos_right hf2 (Nat.two_pow_pos _)
      _ = 2 ^ (ts.face_bits + ts.level_bits) := (Nat.pow_add _ _ _).symm
      _ ≤ 2 ^ 64 := two_pow_le_two_pow_64 (by omega)
  have h3 : face * 2 ^ ts.level_bits + level < 2 ^ (ts.face_bits + ts.level_bits) := by
    have : (face + 1) * 2 ^ ts.level_bits ≤ 2 ^ ts.face_bits * 2 ^ ts.level_bits :=
      Nat.mul_le_mul_right _ hf2
    rw [Nat.pow_add]
    nlinarith
  unfold img_id shl_size_t
  rw [Nat.shiftLeft_eq, Nat.shiftLeft_eq, Nat.mod_eq_of_lt h1, Nat.mod_eq_of_lt h2]
  have e1 : face * 2 ^ ts.level_bits ||| level = face * 2 ^ ts.level_bits + level := by
    rw [Nat.mul_comm face, ← Nat.mul_add_lt_is_or hv2]
  have e2 : layer * 2 ^ (ts.face_bits + ts.level_bits) ||| (face * 2 ^ ts.level_bits + level)
      = layer * 2 ^ (ts.face_bits + ts.level_bits) + (face * 2 ^ ts.level_bits + level) := by
    rw [Nat.mul_comm layer, ← Nat.mul_add_lt_is_or h3]
  rw [Nat.lor_assoc, e1, e2, Nat.pow_add]
  ring

/-- The three decoding expressions recover the triple. -/
theorem img_id_decode (ts : TextureStorageTraits) (hw : ts.WellFormed) {layer face level : Nat}
    (hl : layer < ts.max_layers) (hf : face < ts.max_faces) (hv : level < ts.max_levels) :
    img_id ts layer face level % 2 ^ ts.level_bits = level ∧
    (img_id ts layer face level >>> ts.level_bits) % 2 ^ ts.face_bits = face ∧
    img_id ts layer face level >>> (ts.face_bits + ts.level_bits) = layer := by
  have hf2 : face < 2 ^ ts.face_bits := lt_trans hf hw.max_faces_lt
  have hv2 : level < 2 ^ ts.level_bits := lt_trans hv hw.max_levels_lt
  have pv : 0 < 2 ^ ts.level_bits := Nat.two_pow_pos _
  have pf : 0 < 2 ^ ts.face_bits := Nat.two_pow_pos _
  rw [img_id_eq_add ts hw hl hf hv]
  have d1 : ((layer * 2 ^ ts.face_bits + face) * 2 ^ ts.level_bits + level) / 2 ^ ts.level_bits
      = layer * 2 ^ ts.face_bits + face := by
    rw [Nat.add_comm, Nat.add_mul_div_right _ _ pv, Nat.div_eq_of_lt hv2, Nat.zero_add]
  refine ⟨?_, ?_, ?_⟩
  · rw [Nat.add_comm, Nat.add_mul_mod_self_right, Nat.mod_eq_of_lt hv2]
  · rw [Nat.shiftRight_eq_div_pow, d1, Nat.add_comm, Nat.add_mul_mod_self_right,
      Nat.mod_eq_of_lt hf2]
  · rw [Nat.shiftRight_eq_div_pow, Nat.add_comm ts.face_bits, Nat.pow_add,
      ← Nat.div_div_eq_div_mul, d1, Nat.add_comm, Nat.add_mul_div_right _ _ pf,
      Nat.div_eq_of_lt hf2, Nat.zero_add]

/-- The key is injective on the legal ranges. -/
theorem img_id_inj (ts : TextureStorageTraits) (hw : ts.WellFormed)
    {layer face level layer' face' level' : Nat}
    (hl : layer < ts.max_layers) (hf : face < ts.max_faces) (hv : level < ts.max_levels)
    (hl' : layer' < ts.max_layers) (hf' : face' < ts.max_faces) (hv' : level' < ts.max_levels)
    (h : img_id ts layer face level = img_id ts layer' face' level') :
    layer = layer' ∧ face = face' ∧ level = level' := by
  obtain ⟨a1, a2, a3⟩ := img_id_decode ts hw hl hf hv
  obtain ⟨b1, b2, b3⟩ := img_id_decode ts hw hl' hf' hv'
  rw [h] at a1 a2 a3
  exact ⟨a3.symm.trans b3, a2.symm.trans b2, a1.symm.trans b1⟩

theorem byte_traits_wellFormed : byte_traits.WellFormed := by decide

/-! ### The table built by the scan -/

theorem scan_visit_rejected (ts : TextureStorageTraits) (idx : Nat) (input : input_)
    (s : scan_state) (img : ImageView) (h : accepted ts input img = false) :
    scan_visit ts idx input s img = s := by
  unfold scan_visit
  simp only [accepted, decide_eq_false_iff_not] at h
  simp only []
  rw [if_pos]
  omega

theorem scan_visit_accepted_images (ts : TextureStorageTraits) (idx : Nat) (input : input_)
    (s : scan_state) (img : ImageView) (h : accepted ts input img = true) :
    (scan_visit ts idx input s img).images
      = assign_entry ts s.images (destination input img, idx, img) := by
  unfold scan_visit
  simp only [accepted, decide_eq_true_eq] at h
  simp only []
  rw [if_neg (by omega)]
  rfl

theorem scan_visit_foldl_images (ts : TextureStorageTraits) (idx : Nat) (input : input_)
    (imgs : List ImageView) (s : scan_state) :
    (imgs.foldl (scan_visit ts idx input) s).images
      = ((imgs.filter (accepted ts input)).map
          fun img => (destination input img, idx, img)).foldl (assign_entry ts) s.images := by
  induction imgs generalizing s with
  | nil => rfl
  | cons img rest ih =>
    rw [List.foldl_cons, ih]
    cases h : accepted ts input img
    · rw [scan_visit_rejected ts idx input s img h, List.filter_cons_of_neg (by simp [h])]
    · rw [scan_visit_accepted_images ts idx input s img h, List.filter_cons_of_pos h]
      rfl

/-- The table after the scan is the table obtained by assigning the accepted
images in encounter order. -/
theorem scan_from_images (ts : TextureStorageTraits) (idx : Nat) (inputs : List input_)
    (s : scan_state) :
    (scan_from ts idx inputs s).images
      = (encounter_from ts idx inputs).foldl (assign_entry ts) s.images := by
  induction inputs generalizing idx s with
  | nil => rfl
  | cons input rest ih =>
    rw [scan_from, ih, scan_visit_foldl_images, encounter_from, List.foldl_append]

theorem foldl_assign_entry_other (ts : TextureStorageTraits)
    (l : List ((Nat × Nat × Nat) × Nat × ImageView)) (m : KeyMap (Nat × ImageView)) (k : Nat)
    (h : ∀ e ∈ l, key_of ts e.1 ≠ k) :
    (l.foldl (assign_entry ts) m) k = m k := by
  induction l generalizing m with
  | nil => rfl
  | cons e rest ih =>
    rw [List.foldl_cons, ih _ (fun e' he' => h e' (List.mem_cons_of_mem _ he'))]
    unfold assign_entry KeyMap.assign
    rw [if_neg (fun hk => h e (List.mem_cons_self _ _) hk.symm)]

/-- After assigning a list of entries, a key holds the value of the last entry
with that key. -/
theorem foldl_assign_entry_last (ts : TextureStorageTraits)
    (l1 l3 : List ((Nat × Nat × Nat) × Nat × ImageView)) (e : (Nat × Nat × Nat) × Nat × ImageView)
    (m : KeyMap (Nat × ImageView)) (h : ∀ e' ∈ l3, key_of ts e'.1 ≠ key_of ts e.1) :
    ((l1 ++ e :: l3).foldl (assign_entry ts) m) (key_of ts e.1) = some e.2 := by
  rw [List.foldl_append, List.foldl_cons, foldl_assign_entry_other ts l3 _ _ h]
  unfold assign_entry KeyMap.assign
  rw [if_pos rfl]

/-! ### Status and log of `load_inputs_` -/

theorem set_status_ge (st : Int) (c : status_code_) : st ≤ set_status_ st c := by
  unfold set_status_
  split <;> omega

theorem set_status_warning_ge (st : Int) : 1 ≤ set_status_ st status_code_.status_warning := by
  unfold set_status_
  simp only [status_code_.value]
  split <;> omega

theorem foldl_set_status_ge (cs : List status_code_) (st : Int) :
    st ≤ cs.foldl set_status_ st := by
  induction cs generalizing st with
  | nil => exact le_refl _
  | cons c rest ih => exact le_trans (set_status_ge st c) (ih _)

theorem count_replacing_append (l : List LogEntry) (e : LogEntry) :
    count_replacing (l ++ [e]) = count_replacing l + (if e.is_replacing then 1 else 0) := by
  unfold count_replacing
  rw [List.filter_append, List.length_append]
  cases h : e.is_replacing <;> simp [List.filter, h]

theorem load_progress_refl (a : AppState) : load_progress a a := ⟨le_refl _, Or.inl rfl⟩

theorem load_progress_trans {a b c : AppState} (h1 : load_progress a b)
    (h2 : load_progress b c) : load_progress a c := by
  refine ⟨le_trans h1.1 h2.1, ?_⟩
  rcases h2.2 with h | h
  · rcases h1.2 with h' | h'
    · exact Or.inl (h.trans h')
    · exact Or.inr (le_trans h' h2.1)
  · exact Or.inr h

theorem load_progress_warn (a : AppState) (e : LogEntry) : load_progress a (a.warn e) :=
  ⟨set_status_ge _ _, Or.inr (set_status_warning_ge _)⟩

theorem load_inputs_visit_rejected (ts : TextureStorageTraits) (file : input_file_)
    (input : input_) (s : load_state) (img : ImageView) (h : accepted ts input img = false) :
    (load_inputs_visit ts file input s img).inputs = s.inputs ∧
    (load_inputs_visit ts file input s img).images = s.images ∧
    ∃ e : LogEntry, e.is_overflow = true ∧ e.is_replacing = false ∧
      (load_inputs_visit ts file input s img).app = s.app.warn e := by
  simp only [accepted, decide_eq_false_iff_not] at h
  unfold load_inputs_visit
  simp only []
  by_cases h1 : input.dest_layer + img.layer ≥ ts.max_layers
  · rw [if_pos h1]
    exact ⟨rfl, rfl, LogEntry.too_many_layers _ _ _, rfl, rfl, rfl⟩
  · rw [if_neg h1]
    by_cases h2 : input.dest_face + img.face ≥ ts.max_faces
    · rw [if_pos h2]
      exact ⟨rfl, rfl, LogEntry.too_many_faces _ _ _, rfl, rfl, rfl⟩
    · rw [if_neg h2, if_pos (by omega)]
      exact ⟨rfl, rfl, LogEntry.too_many_levels _ _ _, rfl, rfl, rfl⟩

theorem load_inputs_visit_accepted (ts : TextureStorageTraits) (file : input_file_)
    (input : input_) (s : load_state) (img : ImageView) (h : accepted ts input img = true) :
    (load_inputs_visit ts file input s img).inputs = s.inputs ∧
    (load_inputs_visit ts file input s img).images
      = s.images.assign (key_of ts (destination input img)) s.inputs.length ∧
    ((s.images (key_of ts (destination input img)) = none ∧
        (load_inputs_visit ts file input s img).app = s.app) ∨
      ((s.images (key_of ts (destination input img))).isSome = true ∧
        ∃ e : LogEntry, e.is_replacing = true ∧
          (load_inputs_visit ts file input s img).app = s.app.warn e)) := by
  simp only [accepted, decide_eq_true_eq] at h
  unfold load_inputs_visit
  simp only []
  rw [if_neg (by omega), if_neg (by omega), if_neg (by omega)]
  simp only [key_of, destination]
  cases hk : s.images (img_id ts (input.dest_layer + img.layer) (input.dest_face + img.face)
      (input.dest_level + img.level)) with
  | none => exact ⟨rfl, rfl, Or.inl ⟨rfl, rfl⟩⟩
  | some old => exact ⟨rfl, rfl, Or.inr ⟨rfl, LogEntry.replacing_image _ _ _ _ _, rfl, rfl⟩⟩

theorem count_replacing_warn (a : AppState) (e : LogEntry) :
    count_replacing (a.warn e).log
      = count_replacing a.log + (if e.is_replacing then 1 else 0) :=
  count_replacing_append a.log e

/-- The visits of the images of one input: the table gets the keys of the
accepted images, and one "Replacing" warning is logged for each key met that
was in the table already. -/
theorem load_inputs_visit_foldl (ts : TextureStorageTraits) (file : input_file_)
    (input : input_) (imgs : List ImageView) (s : load_state) (seen : List Nat)
    (hseen : ∀ k, (s.images k).isSome = true ↔ k ∈ seen) :
    (imgs.foldl (load_inputs_visit ts file input) s).inputs = s.inputs ∧
    (∀ k, ((imgs.foldl (load_inputs_visit ts file input) s).images k).isSome = true ↔
      k ∈ ((imgs.filter (accepted ts input)).map
            fun img => key_of ts (destination input img)).reverse ++ seen) ∧
    count_replacing (imgs.foldl (load_inputs_visit ts file input) s).app.log
      = count_replacing s.app.log + dup_count seen ((imgs.filter (accepted ts input)).map
            fun img => key_of ts (destination input img)) ∧
    load_progress s.app (imgs.foldl (load_inputs_visit ts file input) s).app := by
  induction imgs generalizing s seen with
  | nil => exact ⟨rfl, by simpa using hseen, by simp [dup_count], load_progress_refl _⟩
  | cons img rest ih =>
    rw [List.foldl_cons]
    cases h : accepted ts input img
    · obtain ⟨hi, hm, e, _, he, ha⟩ := load_inputs_visit_rejected ts file input s img h
      obtain ⟨r1, r2, r3, r4⟩ := ih (load_inputs_visit ts file input s img) seen
        (by intro k; rw [hm]; exact hseen k)
      rw [List.filter_cons_of_neg (by simp [h])]
      refine ⟨r1.trans hi, r2, ?_, ?_⟩
      · rw [r3, ha, count_replacing_warn, he]
        simp
      · exact load_progress_trans (ha ▸ load_progress_warn s.app e) r4
    · obtain ⟨hi, hm, hc⟩ := load_inputs_visit_accepted ts file input s img h
      have hseen' : ∀ k, ((load_inputs_visit ts file input s img).images k).isSome = true ↔
          k ∈ key_of ts (destination input img) :: seen := by
        intro k
        rw [hm]
        unfold KeyMap.assign
        by_cases hk : k = key_of ts (destination input img)
        · simp [hk]
        · simp [hk, hseen k]
      obtain ⟨r1, r2, r3, r4⟩ := ih (load_inputs_visit ts file input s img) _ hseen'
      rw [List.filter_cons_of_pos h, List.map_cons, dup_count]
      refine ⟨r1.trans hi, ?_, ?_, ?_⟩
      · intro k
        rw [r2 k]
        simp only [List.reverse_cons, List.mem_append, List.mem_reverse, List.mem_cons,
          List.mem_singleton, List.not_mem_nil, or_false]
        tauto
      · rcases hc with ⟨hn, ha⟩ | ⟨hs, e, he, ha⟩
        · have : key_of ts (destination input img) ∉ seen := by
            intro hin
            have := (hseen _).2 hin
            rw [hn] at this
            simp at this
          rw [r3, ha, if_neg this]
          omega
        · have : key_of ts (destination input img) ∈ seen := (hseen _).1 hs
          rw [r3, ha, count_replacing_warn, he, if_pos this]
          simp only [if_true]
          omega
      · rcases hc with ⟨_, ha⟩ | ⟨_, e, _, ha⟩
        · exact ha ▸ r4
        · exact load_progress_trans (ha ▸ load_progress_warn s.app e) r4

theorem dup_count_append (seen a b : List Nat) :
    dup_count seen (a ++ b) = dup_count seen a + dup_count (a.reverse ++ seen) b := by
  induction a generalizing seen with
  | nil => simp [dup_count]
  | cons k rest ih =>
    rw [List.cons_append, dup_count, dup_count, ih, List.reverse_cons, List.append_assoc,
      List.singleton_append]
    omega

theorem encounter_from_append (ts : TextureStorageTraits) (idx : Nat) (a b : List input_) :
    encounter_from ts idx (a ++ b)
      = encounter_from ts idx a ++ encounter_from ts (idx + a.length) b := by
  induction a generalizing idx with
  | nil => simp [encounter_from]
  | cons input rest ih =>
    rw [List.cons_append, encounter_from, encounter_from, ih, List.append_assoc,
      List.length_cons, Nat.add_assoc, Nat.add_comm 1]

theorem encounter_from_singleton (ts : TextureStorageTraits) (idx : Nat) (input : input_) :
    encounter_from ts idx [input]
      = (input.texture.images.filter (accepted ts input)).map
          fun img => (destination input img, idx, img) := by
  simp [encounter_from]

/-- The keys of a list of encounter entries. -/
theorem map_key_encounter_singleton (ts : TextureStorageTraits) (idx : Nat) (input : input_) :
    (encounter_from ts idx [input]).map (fun e => key_of ts e.1)
      = (input.texture.images.filter (accepted ts input)).map
          fun img => key_of ts (destination input img) := by
  rw [encounter_from_singleton, List.map_map]
  rfl

theorem kept_inputs_cons (p : loaded_) (rest : List loaded_) :
    kept_inputs (p :: rest) = kept_inputs [p] ++ kept_inputs rest := by
  unfold kept_inputs
  rw [← List.map_append, ← List.filter_append]
  rfl

/-- One matched path: the input is appended when it has a view, and its
accepted images are entered into the table. -/
theorem load_inputs_path_spec (ts : TextureStorageTraits) (file : input_file_)
    (p : loaded_) (s : load_state) (seen : List Nat)
    (hseen : ∀ k, (s.images k).isSome = true ↔ k ∈ seen) :
    (load_inputs_path ts file s p).inputs = s.inputs ++ kept_inputs [p] ∧
    (∀ k, ((load_inputs_path ts file s p).images k).isSome = true ↔
      k ∈ ((encounter_from ts s.inputs.length (kept_inputs [p])).map
            fun e => key_of ts e.1).reverse ++ seen) ∧
    count_replacing (load_inputs_path ts file s p).app.log
      = count_replacing s.app.log +
          dup_count seen ((encounter_from ts s.inputs.length (kept_inputs [p])).map
            fun e => key_of ts e.1) ∧
    load_progress s.app (load_inputs_path ts file s p).app := by
  unfold load_inputs_path
  generalize hs1 : ({ s with app := { s.app with
      status_ := p.reported.foldl set_status_ s.app.status_,
      reported := s.app.reported ++ p.reported } } : load_state) = s1
  have e1 : s1.inputs = s.inputs := by rw [← hs1]
  have e2 : s1.images = s.images := by rw [← hs1]
  have e3 : s1.app.log = s.app.log := by rw [← hs1]
  have e4 : load_progress s.app s1.app := by
    rw [← hs1]
    exact ⟨foldl_set_status_ge _ _, Or.inl rfl⟩
  simp only []
  cases hv : p.input.texture.view with
  | none =>
    have hk : kept_inputs [p] = [] := by
      unfold kept_inputs
      rw [List.filter_cons_of_neg (by simp [hv])]
      rfl
    simp only [hk, encounter_from, List.map_nil, List.reverse_nil, List.nil_append,
      List.append_nil, dup_count, Nat.add_zero]
    exact ⟨e1, fun k => by rw [e2]; exact hseen k, by rw [e3], e4⟩
  | some v =>
    have himgs : p.input.texture.images = v.images := by
      unfold Texture.images
      rw [hv]
    have hk : kept_inputs [p] = [p.input] := by
      unfold kept_inputs
      rw [List.filter_cons_of_pos (by simp [hv])]
      rfl
    obtain ⟨v1, v2, v3, v4⟩ := load_inputs_visit_foldl ts file p.input v.images s1 seen
      (fun k => by rw [e2]; exact hseen k)
    simp only [hk, map_key_encounter_singleton, himgs]
    exact ⟨by rw [v1, e1], v2, by rw [v3, e3], load_progress_trans e4 v4⟩

/-- The loop over the matched paths of one file. -/
theorem load_inputs_path_foldl (ts : TextureStorageTraits) (file : input_file_)
    (paths : List loaded_) (s : load_state) (seen : List Nat)
    (hseen : ∀ k, (s.images k).isSome = true ↔ k ∈ seen) :
    (paths.foldl (load_inputs_path ts file) s).inputs = s.inputs ++ kept_inputs paths ∧
    (∀ k, ((paths.foldl (load_inputs_path ts file) s).images k).isSome = true ↔
      k ∈ ((encounter_from ts s.inputs.length (kept_inputs paths)).map
            fun e => key_of ts e.1).reverse ++ seen) ∧
    count_replacing (paths.foldl (load_inputs_path ts file) s).app.log
      = count_replacing s.app.log +
          dup_count seen ((encounter_from ts s.inputs.length (kept_inputs paths)).map
            fun e => key_of ts e.1) ∧
    load_progress s.app (paths.foldl (load_inputs_path ts file) s).app := by
  induction paths generalizing s seen with
  | nil =>
    exact ⟨by simp [kept_inputs], by simpa [kept_inputs, encounter_from] using hseen,
      by simp [kept_inputs, encounter_from, dup_count], load_progress_refl _⟩
  | cons p rest ih =>
    rw [List.foldl_cons, kept_inputs_cons]
    obtain ⟨p1, p2, p3, p4⟩ := load_inputs_path_spec ts file p s seen hseen
    obtain ⟨r1, r2, r3, r4⟩ := ih _ _ p2
    simp only [p1, List.length_append] at r1 r2 r3
    rw [encounter_from_append, List.map_append]
    refine ⟨?_, ?_, ?_, load_progress_trans p4 r4⟩
    · rw [r1, List.append_assoc]
    · intro k
      rw [r2 k, List.reverse_append, List.append_assoc]
    · rw [r3, p3, dup_count_append]
      omega

/-- One entry of `input_files_`. -/
theorem load_inputs_file_spec (ts : TextureStorageTraits) (g : globbed_) (s : load_state)
    (seen : List Nat) (hseen : ∀ k, (s.images k).isSome = true ↔ k ∈ seen) :
    (load_inputs_file ts s g).inputs = s.inputs ++ kept_inputs g.paths ∧
    (∀ k, ((load_inputs_file ts s g).images k).isSome = true ↔
      k ∈ ((encounter_from ts s.inputs.length (kept_inputs g.paths)).map
            fun e => key_of ts e.1).reverse ++ seen) ∧
    count_replacing (load_inputs_file ts s g).app.log
      = count_replacing s.app.log +
          dup_count seen ((encounter_from ts s.inputs.length (kept_inputs g.paths)).map
            fun e => key_of ts e.1) ∧
    load_progress s.app (load_inputs_file ts s g).app := by
  unfold load_inputs_file
  cases hp : g.paths with
  | nil =>
    simp only [List.isEmpty_nil, if_true, kept_inputs, List.filter_nil, List.map_nil,
      encounter_from, List.reverse_nil, List.nil_append, List.append_nil, dup_count,
      Nat.add_zero]
    refine ⟨trivial, hseen, ?_, load_progress_warn _ _⟩
    rw [count_replacing_warn]
    rfl
  | cons p rest =>
    simp only [List.isEmpty_cons, Bool.false_eq_true, if_false]
    exact load_inputs_path_foldl ts g.file (p :: rest) s seen hseen

/-- The loop over `input_files_`. -/
theorem load_inputs_file_foldl (ts : TextureStorageTraits) (files : List globbed_)
    (s : load_state) (seen : List Nat)
    (hseen : ∀ k, (s.images k).isSome = true ↔ k ∈ seen) :
    (files.foldl (load_inputs_file ts) s).inputs = s.inputs ++ all_kept files ∧
    count_replacing (files.foldl (load_inputs_file ts) s).app.log
      = count_replacing s.app.log +
          dup_count seen ((encounter_from ts s.inputs.length (all_kept files)).map
            fun e => key_of ts e.1) ∧
    load_progress s.app (files.foldl (load_inputs_file ts) s).app := by
  induction files generalizing s seen with
  | nil => exact ⟨by simp [all_kept], by simp [all_kept, encounter_from, dup_count],
      load_progress_refl _⟩
  | cons g rest ih =>
    rw [List.foldl_cons, all_kept]
    obtain ⟨p1, p2, p3, p4⟩ := load_inputs_file_spec ts g s seen hseen
    obtain ⟨r1, r3, r4⟩ := ih _ _ p2
    simp only [p1, List.length_append] at r1 r3
    rw [encounter_from_append, List.map_append]
    refine ⟨?_, ?_, load_progress_trans p4 r4⟩
    · rw [r1, List.append_assoc]
    · rw [r3, p3, dup_count_append]
      omega

/-- What `load_inputs_` returns and logs, in terms of the accepted images in
encounter order. -/
theorem load_inputs_spec (ts : TextureStorageTraits) (app : AppState) (files : List globbed_) :
    (load_inputs_ ts app files).inputs = all_kept files ∧
    count_replacing (load_inputs_ ts app files).app.log
      = count_replacing app.log +
          dup_count [] ((encounter ts (load_inputs_ ts app files).inputs).map
            fun e => key_of ts e.1) ∧
    load_progress app (load_inputs_ ts app files).app := by
  obtain ⟨r1, r3, r4⟩ := load_inputs_file_foldl ts files
    { app := app, inputs := [], images := KeyMap.empty } [] (by simp [KeyMap.empty])
  simp only [List.nil_append, List.length_nil] at r1 r3
  unfold load_inputs_ encounter
  rw [r1]
  exact ⟨rfl, r3, r4⟩

theorem dup_count_eq_zero (seen ks : List Nat) (hn : ks.Nodup) (hd : ∀ k ∈ ks, k ∉ seen) :
    dup_count seen ks = 0 := by
  induction ks generalizing seen with
  | nil => rfl
  | cons k rest ih =>
    rw [dup_count, if_neg (hd k (List.mem_cons_self _ _)), Nat.zero_add]
    rw [List.nodup_cons] at hn
    apply ih _ hn.2
    intro k' hk' hmem
    rcases List.mem_cons.1 hmem with h | h
    · exact hn.1 (h ▸ hk')
    · exact hd k' (List.mem_cons_of_mem _ hk') h

/-- Exactly one key of the list is met when already seen, if one key occurs
twice and the others once. -/
theorem dup_count_one_collision (k : Nat) (k1 k2 k3 : List Nat)
    (hn : (k1 ++ k2 ++ k3).Nodup) (hk : k ∉ k1 ++ k2 ++ k3) :
    dup_count [] (k1 ++ k :: k2 ++ k :: k3) = 1 := by
  have hn12 := (List.nodup_append.1 hn).1
  have hn3 := (List.nodup_append.1 hn).2.1
  have hd3 := (List.nodup_append.1 hn).2.2
  have hn1 := (List.nodup_append.1 hn12).1
  have hn2 := (List.nodup_append.1 hn12).2.1
  have hd12 := (List.nodup_append.1 hn12).2.2
  have hk1 : k ∉ k1 := fun h => hk (by simp [h])
  have hk2 : k ∉ k2 := fun h => hk (by simp [h])
  have hk3 : k ∉ k3 := fun h => hk (by simp [h])
  rw [List.append_assoc, dup_count_append, dup_count_eq_zero [] k1 hn1 (by simp),
    List.cons_append, dup_count, if_neg (by simpa using hk1), dup_count_append,
    dup_count_eq_zero _ k2 hn2, dup_count, if_pos (by simp), dup_count_eq_zero _ k3 hn3]
  · intro k' hk' hmem
    simp only [List.append_nil, List.mem_cons, List.mem_append, List.mem_reverse] at hmem
    rcases hmem with h | h | h | h
    · exact hk3 (h ▸ hk')
    · exact hd3 (List.mem_append_right _ h) hk'
    · exact hk3 (h ▸ hk')
    · exact hd3 (List.mem_append_left _ h) hk'
  · intro k' hk' hmem
    simp only [List.append_nil, List.mem_cons, List.mem_reverse] at hmem
    rcases hmem with h | h
    · exact hk2 (h ▸ hk')
    · exact hd12 h hk'

theorem encounter_from_legal (ts : TextureStorageTraits) (idx : Nat) (inputs : List input_) :
    ∀ e ∈ encounter_from ts idx inputs, legal ts e.1 := by
  induction inputs generalizing idx with
  | nil => intro e he; simp [encounter_from] at he
  | cons input rest ih =>
    intro e he
    rw [encounter_from, List.mem_append] at he
    rcases he with he | he
    · obtain ⟨img, himg, rfl⟩ := List.mem_map.1 he
      have := (List.mem_filter.1 himg).2
      simpa [accepted, legal, destination] using this
    · exact ih _ e he

theorem key_of_inj (ts : TextureStorageTraits) (hw : ts.WellFormed) {d d' : Nat × Nat × Nat}
    (h : legal ts d) (h' : legal ts d') (hk : key_of ts d = key_of ts d') : d = d' := by
  obtain ⟨a, b, c⟩ := img_id_inj ts hw h.1 h.2.1 h.2.2 h'.1 h'.2.1 h'.2.2 hk
  exact Prod.ext a (Prod.ext b c)

/-! ### Rejected images leave no trace in the tables -/

theorem accepted_without_rejected (ts : TextureStorageTraits) (input : input_)
    (img : ImageView) :
    accepted ts (without_rejected ts input) img = accepted ts input img := rfl

theorem destination_without_rejected (ts : TextureStorageTraits) (input : input_)
    (img : ImageView) :
    destination (without_rejected ts input) img = destination input img := rfl

theorem images_without_rejected (ts : TextureStorageTraits) (input : input_) :
    (without_rejected ts input).texture.images
      = input.texture.images.filter (accepted ts input) := by
  unfold without_rejected Texture.images
  cases input.texture.view <;> rfl

theorem scan_visit_without_rejected (ts : TextureStorageTraits) (idx : Nat) (input : input_)
    (s : scan_state) (img : ImageView) :
    scan_visit ts idx (without_rejected ts input) s img = scan_visit ts idx input s img := rfl

theorem scan_visit_foldl_filter (ts : TextureStorageTraits) (idx : Nat) (input : input_)
    (imgs : List ImageView) (s : scan_state) :
    (imgs.filter (accepted ts input)).foldl (scan_visit ts idx input) s
      = imgs.foldl (scan_visit ts idx input) s := by
  induction imgs generalizing s with
  | nil => rfl
  | cons img rest ih =>
    cases h : accepted ts input img
    · rw [List.filter_cons_of_neg (by simp [h]), List.foldl_cons,
        scan_visit_rejected ts idx input s img h, ih]
    · rw [List.filter_cons_of_pos h, List.foldl_cons, List.foldl_cons, ih]

/-- The scan does not depend on the rejected images. -/
theorem scan_from_without_rejected (ts : TextureStorageTraits) (idx : Nat)
    (inputs : List input_) (s : scan_state) :
    scan_from ts idx (inputs.map (without_rejected ts)) s = scan_from ts idx inputs s := by
  induction inputs generalizing idx s with
  | nil => rfl
  | cons input rest ih =>
    rw [List.map_cons, scan_from, scan_from, ih, images_without_rejected]
    have : (fun st img => scan_visit ts idx (without_rejected ts input) st img)
        = scan_visit ts idx input := by
      funext st img
      rfl
    rw [show scan_visit ts idx (without_rejected ts input) = scan_visit ts idx input from this,
      scan_visit_foldl_filter]

theorem load_inputs_visit_same_table (ts : TextureStorageTraits) (file file' : input_file_)
    (input input' : input_) (hd : ∀ img, destination input' img = destination input img)
    (ha : ∀ img, accepted ts input' img = accepted ts input img)
    (imgs : List ImageView) (s s' : load_state) (h : same_table s s') :
    same_table (imgs.foldl (load_inputs_visit ts file input) s)
      ((imgs.filter (accepted ts input)).foldl (load_inputs_visit ts file' input') s') := by
  induction imgs generalizing s s' with
  | nil => exact h
  | cons img rest ih =>
    rw [List.foldl_cons]
    cases hacc : accepted ts input img
    · rw [List.filter_cons_of_neg (by simp [hacc])]
      obtain ⟨hi, hm, _⟩ := load_inputs_visit_rejected ts file input s img hacc
      exact ih _ _ ⟨hm.trans h.1, (congrArg List.length hi).trans h.2⟩
    · rw [List.filter_cons_of_pos hacc, List.foldl_cons]
      obtain ⟨hi, hm, _⟩ := load_inputs_visit_accepted ts file input s img hacc
      obtain ⟨hi', hm', _⟩ := load_inputs_visit_accepted ts file' input' s' img
        ((ha img).trans hacc)
      apply ih
      refine ⟨?_, (congrArg List.length hi).trans (h.2.trans (congrArg List.length hi').symm)⟩
      rw [hm, hm', hd img, h.1, h.2]

theorem load_inputs_path_same_table (ts : TextureStorageTraits) (file : input_file_)
    (p : loaded_) (s s' : load_state) (h : same_table s s') :
    same_table (load_inputs_path ts file s p)
      (load_inputs_path ts file s' (p.without_rejected ts)) := by
  unfold load_inputs_path
  cases hv : p.input.texture.view with
  | none =>
    have hv' : (p.without_rejected ts).input.texture.view = none := by
      simp [loaded_.without_rejected, without_rejected, hv]
    simp only [hv']
    exact h
  | some v =>
    have hv' : (p.without_rejected ts).input.texture.view
        = some { v with images := v.images.filter (accepted ts p.input) } := by
      simp [loaded_.without_rejected, without_rejected, hv]
    simp only [hv']
    have := load_inputs_visit_same_table ts file file p.input (p.without_rejected ts).input
      (fun _ => rfl) (fun _ => rfl) v.images
      { s with app := { s.app with
          status_ := p.reported.foldl set_status_ s.app.status_,
          reported := s.app.reported ++ p.reported } }
      { s' with app := { s'.app with
          status_ := (p.without_rejected ts).reported.foldl set_status_ s'.app.status_,
          reported := s'.app.reported ++ (p.without_rejected ts).reported } } h
    exact ⟨this.1, by simp only [List.length_append, List.length_singleton]; rw [this.2]⟩

theorem load_inputs_file_same_table (ts : TextureStorageTraits) (g : globbed_)
    (s s' : load_state) (h : same_table s s') :
    same_table (load_inputs_file ts s g) (load_inputs_file ts s' (g.without_rejected ts)) := by
  unfold load_inputs_file
  cases hp : g.paths with
  | nil =>
    simp only [globbed_.without_rejected, hp, List.map_nil, List.isEmpty_nil, if_true]
    exact h
  | cons p rest =>
    simp only [globbed_.without_rejected, hp, List.map_cons, List.isEmpty_cons,
      Bool.false_eq_true, if_false]
    have key : ∀ (l : List loaded_) (s s' : load_state), same_table s s' →
        same_table (l.foldl (load_inputs_path ts g.file) s)
          ((l.map (loaded_.without_rejected ts)).foldl (load_inputs_path ts g.file) s') := by
      intro l
      induction l with
      | nil => intro s s' h; exact h
      | cons q l ih =>
        intro s s' h
        rw [List.map_cons, List.foldl_cons, List.foldl_cons]
        exact ih _ _ (load_inputs_path_same_table ts g.file q s s' h)
    exact key (p :: rest) s s' h

/-- The table of `load_inputs_` does not depend on the rejected images. -/
theorem load_inputs_same_table (ts : TextureStorageTraits) (app : AppState)
    (files : List globbed_) :
    (load_inputs_ ts app (files.map (globbed_.without_rejected ts))).images
      = (load_inputs_ ts app files).images := by
  have key : ∀ (l : List globbed_) (s s' : load_state), same_table s s' →
      same_table (l.foldl (load_inputs_file ts) s)
        ((l.map (globbed_.without_rejected ts)).foldl (load_inputs_file ts) s') := by
    intro l
    induction l with
    | nil => intro s s' h; exact h
    | cons g l ih =>
      intro s s' h
      rw [List.map_cons, List.foldl_cons, List.foldl_cons]
      exact ih _ _ (load_inputs_file_same_table ts g s s' h)
  exact (key files _ _ ⟨rfl, rfl⟩).1.symm

/-! ### The base image -/

theorem scan_visit_accepted_base (ts : TextureStorageTraits) (idx : Nat) (input : input_)
    (s : scan_state) (img : ImageView) (h : accepted ts input img = true) :
    ((scan_visit ts idx input s img).min_level, (scan_visit ts idx input s img).base)
      = base_step ts (s.min_level, s.base) (destination input img, idx, img) := by
  unfold scan_visit
  simp only [accepted, decide_eq_true_eq] at h
  simp only []
  rw [if_neg (by omega)]
  rfl

theorem scan_visit_foldl_base (ts : TextureStorageTraits) (idx : Nat) (input : input_)
    (imgs : List ImageView) (s : scan_state) :
    ((imgs.foldl (scan_visit ts idx input) s).min_level,
        (imgs.foldl (scan_visit ts idx input) s).base)
      = ((imgs.filter (accepted ts input)).map
          fun img => (destination input img, idx, img)).foldl (base_step ts)
            (s.min_level, s.base) := by
  induction imgs generalizing s with
  | nil => rfl
  | cons img rest ih =>
    rw [List.foldl_cons, ih]
    cases h : accepted ts input img
    · rw [scan_visit_rejected ts idx input s img h, List.filter_cons_of_neg (by simp [h])]
    · rw [scan_visit_accepted_base ts idx input s img h, List.filter_cons_of_pos h]
      rfl

/-- The minimum level and the base after the scan, as a fold over the accepted
images in encounter order. -/
theorem scan_from_base (ts : TextureStorageTraits) (idx : Nat) (inputs : List input_)
    (s : scan_state) :
    ((scan_from ts idx inputs s).min_level, (scan_from ts idx inputs s).base)
      = (encounter_from ts idx inputs).foldl (base_step ts) (s.min_level, s.base) := by
  induction inputs generalizing idx s with
  | nil => rfl
  | cons input rest ih =>
    rw [scan_from, ih, scan_visit_foldl_base, encounter_from, List.foldl_append]

/-- Folding `base_step` over entries with representable levels either changes
nothing (no level below the start) or ends at the first entry of least level. -/
theorem foldl_base_step (ts : TextureStorageTraits)
    (l : List ((Nat × Nat × Nat) × Nat × ImageView))
    (hl : ∀ a ∈ l, a.1.2.2 < 2 ^ ts.level_bits) (mb : Nat × Option (Nat × ivec3)) :
    ((∀ a ∈ l, mb.1 ≤ a.1.2.2) ∧ l.foldl (base_step ts) mb = mb) ∨
    ∃ l1 e l2, l = l1 ++ e :: l2 ∧ e.1.2.2 < mb.1 ∧ (∀ a ∈ l1, e.1.2.2 < a.1.2.2) ∧
      (∀ a ∈ l2, e.1.2.2 ≤ a.1.2.2) ∧
      l.foldl (base_step ts) mb = (e.1.2.2, some (e.2.1, e.2.2.dim)) := by
  induction l generalizing mb with
  | nil => exact Or.inl ⟨by simp, rfl⟩
  | cons a rest ih =>
    have ha : a.1.2.2 < 2 ^ ts.level_bits := hl a (List.mem_cons_self _ _)
    have hrest : ∀ x ∈ rest, x.1.2.2 < 2 ^ ts.level_bits :=
      fun x hx => hl x (List.mem_cons_of_mem _ hx)
    rw [List.foldl_cons]
    by_cases hlt : a.1.2.2 < mb.1
    · have hstep : base_step ts mb a = (a.1.2.2, some (a.2.1, a.2.2.dim)) := by
        unfold base_step
        rw [Nat.mod_eq_of_lt ha, if_pos hlt, Nat.min_eq_right (Nat.le_of_lt hlt)]
      rw [hstep]
      rcases ih hrest (a.1.2.2, some (a.2.1, a.2.2.dim)) with ⟨hall, hfold⟩ | ⟨l1, e, l2, hdec, hlt', h1, h2, hfold⟩
      · exact Or.inr ⟨[], a, rest, rfl, hlt, by simp, hall, hfold⟩
      · refine Or.inr ⟨a :: l1, e, l2, by rw [hdec]; rfl, lt_trans hlt' hlt, ?_, h2, hfold⟩
        intro x hx
        rcases List.mem_cons.1 hx with rfl | hx
        · exact hlt'
        · exact h1 x hx
    · have hstep : base_step ts mb a = mb := by
        unfold base_step
        rw [Nat.mod_eq_of_lt ha, if_neg hlt, Nat.min_eq_left (Nat.le_of_not_lt hlt)]
      rw [hstep]
      rcases ih hrest mb with ⟨hall, hfold⟩ | ⟨l1, e, l2, hdec, hlt', h1, h2, hfold⟩
      · refine Or.inl ⟨?_, hfold⟩
        intro x hx
        rcases List.mem_cons.1 hx with rfl | hx
        · exact Nat.le_of_not_lt hlt
        · exact hall x hx
      · refine Or.inr ⟨a :: l1, e, l2, by rw [hdec]; rfl, hlt', ?_, h2, hfold⟩
        intro x hx
        rcases List.mem_cons.1 hx with rfl | hx
        · exact lt_of_lt_of_le hlt' (Nat.le_of_not_lt hlt)
        · exact h1 x hx

/-! ### Base dimensions and chain length -/

theorem wrap_int_of_fits (v : Int) (h0 : 0 ≤ v) (h1 : v < 2 ^ 31) : wrap_int v = v := by
  unfold wrap_int
  rw [Int.emod_eq_of_lt (by omega) (by omega)]
  omega

theorem correct_component_of_fits (c : Int) (n : Nat) (h : 1 < c → c * 2 ^ n < 2 ^ 31) :
    correct_component c n = if c > 1 then c * 2 ^ n else c := by
  unfold correct_component shl_int
  by_cases hc : c > 1
  · rw [if_pos hc, if_pos hc, wrap_int_of_fits _ _ (h hc)]
    have : (0 : Int) < 2 ^ n := by positivity
    nlinarith
  · rw [if_neg hc, if_neg hc]

theorem mipmap_levels_upto_pos (fuel : Nat) (d : ivec3) : 1 ≤ mipmap_levels_upto fuel d := by
  cases fuel with
  | zero => exact le_refl _
  | succ n =>
    unfold mipmap_levels_upto
    split <;> omega

theorem mipmap_levels_upto_le (fuel : Nat) (d : ivec3) :
    mipmap_levels_upto fuel d ≤ fuel + 1 := by
  induction fuel generalizing d with
  | zero => exact le_refl _
  | succ n ih =>
    unfold mipmap_levels_upto
    split
    · have := ih (mipmap_step d)
      omega
    · omega

theorem mipmap_half_le (c : Int) (k : Nat) (h : c ≤ 2 ^ (k + 1)) : mipmap_half c ≤ 2 ^ k := by
  unfold mipmap_half
  have hp : (1 : Int) ≤ 2 ^ k := by
    have : (0 : Int) < 2 ^ k := by positivity
    omega
  split
  · rw [pow_succ] at h
    omega
  · omega

/-- More reductions than the bit length of the components do not change the
count: for `int` components 31 reductions are enough. -/
theorem mipmap_levels_upto_enough (k n : Nat) (d : ivec3)
    (hx : d.x ≤ 2 ^ k) (hy : d.y ≤ 2 ^ k) (hz : d.z ≤ 2 ^ k) :
    mipmap_levels_upto (k + n) d = mipmap_levels_upto k d := by
  induction k generalizing d with
  | zero =>
    have hno : ¬ (d.x > 1 ∨ d.y > 1 ∨ d.z > 1) := by
      simp only [pow_zero] at hx hy hz
      omega
    cases n with
    | zero => rfl
    | succ m =>
      rw [Nat.zero_add]
      unfold mipmap_levels_upto
      rw [if_neg hno]
  | succ k ih =>
    rw [Nat.add_right_comm]
    unfold mipmap_levels_upto
    rw [ih (mipmap_step d) (mipmap_half_le _ _ hx) (mipmap_half_le _ _ hy)
      (mipmap_half_le _ _ hz)]

theorem mipmap_levels_enough (n : Nat) (d : ivec3)
    (hx : d.x < 2 ^ 31) (hy : d.y < 2 ^ 31) (hz : d.z < 2 ^ 31) :
    mipmap_levels_upto (31 + n) d = mipmap_levels d :=
  mipmap_levels_upto_enough 31 n d (le_of_lt hx) (le_of_lt hy) (le_of_lt hz)

theorem two_pow_level_bits_ge (ts : TextureStorageTraits) (hw : ts.WellFormed) :
    256 ≤ 2 ^ ts.level_bits := by
  have h := hw.level_size_pos
  unfold TextureStorageTraits.level_bits
  calc 256 = 2 ^ 8 := by norm_num
    _ ≤ 2 ^ (8 * ts.sizeof_level_index_type) := Nat.pow_le_pow_right (by decide) (by omega)

theorem expected_levels_eq (ts : TextureStorageTraits) (hw : ts.WellFormed) (d : ivec3) :
    expected_levels ts d = mipmap_levels d := by
  unfold expected_levels
  apply Nat.mod_eq_of_lt
  have h1 : mipmap_levels d ≤ 32 := mipmap_levels_upto_le 31 d
  have h2 := two_pow_level_bits_ge ts hw
  omega

theorem expected_levels_pos (ts : TextureStorageTraits) (hw : ts.WellFormed) (d : ivec3) :
    1 ≤ expected_levels ts d := by
  rw [expected_levels_eq ts hw]
  exact mipmap_levels_upto_pos 31 d

/-! ### Warnings of the merge -/

theorem warn_all_append (app : AppState) (xs ys : List LogEntry) :
    warn_all (warn_all app xs) ys = warn_all app (xs ++ ys) := by
  unfold warn_all
  rw [List.foldl_append]

theorem warn_all_log (app : AppState) (es : List LogEntry) :
    (warn_all app es).log = app.log ++ es := by
  induction es generalizing app with
  | nil => simp [warn_all]
  | cons e rest ih =>
    have : warn_all app (e :: rest) = warn_all (app.warn e) rest := rfl
    rw [this, ih]
    simp [AppState.warn]

theorem set_status_idem (st : Int) (c : status_code_) :
    set_status_ (set_status_ st c) c = set_status_ st c := by
  unfold set_status_
  split_ifs <;> omega

theorem warn_all_status (app : AppState) (es : List LogEntry) :
    (warn_all app es).status_
      = if es = [] then app.status_ else set_status_ app.status_ status_code_.status_warning := by
  induction es generalizing app with
  | nil => simp [warn_all]
  | cons e rest ih =>
    have : warn_all app (e :: rest) = warn_all (app.warn e) rest := rfl
    rw [this, ih, if_neg (List.cons_ne_nil _ _)]
    split
    · rfl
    · exact set_status_idem _ _

theorem foldl_warn_all {α : Type} (f : AppState → α → AppState) (g : α → List LogEntry)
    (h : ∀ a x, f a x = warn_all a (g x)) (l : List α) (app : AppState) :
    l.foldl f app = warn_all app (l.flatMap g) := by
  induction l generalizing app with
  | nil => rfl
  | cons x rest ih =>
    rw [List.foldl_cons, ih, h, warn_all_append, List.flatMap_cons]

theorem validate_slot_eq (ts : TextureStorageTraits) (inputs : List input_)
    (images : KeyMap (Nat × ImageView)) (base_dim : ivec3) (layer face : Nat)
    (app : AppState) (level : Nat) :
    validate_slot ts inputs images base_dim layer face app level
      = warn_all app (slot_report ts inputs images base_dim layer face level) := by
  unfold validate_slot slot_report
  cases images (img_id_promoted ts layer face level) with
  | none => rfl
  | some v =>
    obtain ⟨idx, img⟩ := v
    simp only []
    split <;> rfl

/-- The validation loops log the reports of the coordinates in loop order. -/
theorem validate_eq (ts : TextureStorageTraits) (inputs : List input_)
    (images : KeyMap (Nat × ImageView)) (base_dim : ivec3)
    (min_layer max_layer min_face max_face min_level max_level : Nat) (app : AppState) :
    validate ts inputs images base_dim min_layer max_layer min_face max_face
        min_level max_level app
      = warn_all app (validate_report ts inputs images base_dim min_layer max_layer
          min_face max_face min_level max_level) := by
  unfold validate validate_report
  apply foldl_warn_all
  intro a layer
  apply foldl_warn_all
  intro a face
  apply foldl_warn_all
  intro a level
  exact validate_slot_eq ts inputs images base_dim layer face a level

theorem mem_ite_singleton {c : Prop} [Decidable c] {x e : LogEntry}
    (h : e ∈ (if c then [x] else [])) : e = x := by
  split at h <;> simp at h
  exact h

theorem report_missing_eq (app : AppState) (s : scan_state) (recorded : ivec3) :
    report_missing app s recorded
      = (warn_all app (missing_entries s), final_base_dim s recorded) := by
  unfold report_missing final_base_dim missing_entries
  by_cases h1 : s.min_layer > 0 <;> by_cases h2 : s.min_face > 0 <;>
    by_cases h3 : s.min_level > 0 <;> simp only [h1, h2, h3, if_true, if_false] <;> rfl

theorem missing_entries_kind (s : scan_state) :
    ∀ e ∈ missing_entries s, e.is_slot_report = false := by
  intro e he
  unfold missing_entries at he
  simp only [List.mem_append] at he
  rcases he with (he | he) | he <;> rw [mem_ite_singleton he] <;> rfl

theorem trim_levels_snd (ts : TextureStorageTraits) (app app' : AppState)
    (min_level max_level : Nat) (base_dim : ivec3) :
    (trim_levels ts app min_level max_level base_dim).2
      = (trim_levels ts app' min_level max_level base_dim).2 := by
  unfold trim_levels
  split <;> rfl

theorem trim_levels_eq (ts : TextureStorageTraits) (app : AppState) (s : scan_state)
    (recorded : ivec3) :
    trim_levels ts app s.min_level s.max_level (final_base_dim s recorded)
      = (warn_all app (trim_entries ts s.min_level s.max_level (final_base_dim s recorded)),
          final_max_level ts s recorded) := by
  have hsnd := trim_levels_snd ts app fresh s.min_level s.max_level (final_base_dim s recorded)
  unfold final_max_level
  rw [← hsnd]
  unfold trim_levels trim_entries
  split <;> rfl

theorem trim_entries_kind (ts : TextureStorageTraits) (min_level max_level : Nat)
    (base_dim : ivec3) :
    ∀ e ∈ trim_entries ts min_level max_level base_dim, e.is_slot_report = false := by
  intro e he
  unfold trim_entries at he
  split at he <;> simp at he
  rw [he]
  rfl

theorem check_tex_class_eq (gfx : GfxTraits) (app : AppState) (tex_class : TextureClass)
    (layers faces : Nat) (base_dim : ivec3) :
    check_tex_class gfx app tex_class layers faces base_dim
      = warn_all app (class_entries gfx tex_class layers faces base_dim) := by
  unfold check_tex_class class_entries
  simp only []
  split <;> split <;> split <;> rfl

theorem class_entries_kind (gfx : GfxTraits) (tex_class : TextureClass) (layers faces : Nat)
    (base_dim : ivec3) :
    ∀ e ∈ class_entries gfx tex_class layers faces base_dim, e.is_slot_report = false := by
  intro e he
  unfold class_entries at he
  simp only [List.mem_append] at he
  rcases he with (he | he) | he <;> rw [mem_ite_singleton he] <;> rfl

theorem fit_block_eq (gfx : GfxTraits) (app : AppState) (format : ImageFormat)
    (block_span : Nat) :
    (fit_block gfx app format block_span).1
      = warn_all app (block_entries gfx format block_span) := by
  unfold fit_block block_entries
  simp only []
  split <;> split <;> split <;> rfl

theorem block_entries_kind (gfx : GfxTraits) (format : ImageFormat) (block_span : Nat) :
    ∀ e ∈ block_entries gfx format block_span, e.is_slot_report = false := by
  intro e he
  unfold block_entries at he
  simp only [List.mem_append] at he
  rcases he with (he | he) | he <;> rw [mem_ite_singleton he] <;> rfl

/-- The log and the status that `make_texture_` leaves, when an image was
accepted: warnings before the validation, the reports of the validation,
notices after it; none but the reports are about a slot. -/
theorem make_texture_app (ts : TextureStorageTraits) (gfx : GfxTraits) (cfg : settings_)
    (alloc_ok : Bool) (app : AppState) (inputs : List input_) (base_idx : Nat)
    (recorded : ivec3) (hbase : (scan ts inputs).base = some (base_idx, recorded)) :
    ∃ pre post : List LogEntry, (∀ e ∈ pre, e.is_slot_report = false) ∧
      (∀ e ∈ post, e.is_slot_report = false) ∧
      (make_texture_ ts gfx cfg alloc_ok app inputs).app.log
        = app.log ++ (pre ++ validate_report ts inputs (scan ts inputs).images
            (final_base_dim (scan ts inputs) recorded)
            (scan ts inputs).min_layer (scan ts inputs).max_layer
            (scan ts inputs).min_face (scan ts inputs).max_face
            (scan ts inputs).min_level (final_max_level ts (scan ts inputs) recorded) ++ post) ∧
      (alloc_ok = true → (make_texture_ ts gfx cfg alloc_ok app inputs).app
        = warn_all app (pre ++ validate_report ts inputs (scan ts inputs).images
            (final_base_dim (scan ts inputs) recorded)
            (scan ts inputs).min_layer (scan ts inputs).max_layer
            (scan ts inputs).min_face (scan ts inputs).max_face
            (scan ts inputs).min_level (final_max_level ts (scan ts inputs) recorded)
            ++ post)) := by
  have hpre : ∀ e ∈ missing_entries (scan ts inputs) ++
      trim_entries ts (scan ts inputs).min_level (scan ts inputs).max_level
        (final_base_dim (scan ts inputs) recorded), e.is_slot_report = false := by
    intro e he
    rcases List.mem_append.1 he with h | h
    · exact missing_entries_kind _ e h
    · exact trim_entries_kind _ _ _ _ e h
  unfold make_texture_
  simp only [hbase, report_missing_eq, trim_levels_eq, validate_eq, check_tex_class_eq,
    fit_block_eq, warn_all_append]
  split
  · exact ⟨_, [], hpre, by simp, by simp only [warn_all_log, List.append_nil],
      fun _ => by simp only [List.append_nil]⟩
  · rename_i base_view hview
    generalize hce : class_entries gfx _ _ _ _ = ce
    generalize hbe : block_entries gfx _ _ = be
    have hc : ∀ e ∈ ce, e.is_slot_report = false := by
      rw [← hce]
      exact class_entries_kind _ _ _ _ _
    have hb : ∀ e ∈ be, e.is_slot_report = false := by
      rw [← hbe]
      exact block_entries_kind _ _ _
    cases alloc_ok with
    | true =>
      simp only [if_true]
      refine ⟨_, ce ++ be, hpre, ?_, by rw [warn_all_log]; simp only [List.append_assoc],
        fun _ => by simp only [List.append_assoc]⟩
      intro e he
      rcases List.mem_append.1 he with h | h
      · exact hc e h
      · exact hb e h
    | false =>
      simp only [Bool.false_eq_true, if_false]
      refine ⟨_, ce ++ (be ++ [LogEntry.not_enough_memory]), hpre, ?_,
        by simp only [AppState.fail]; rw [warn_all_log]; simp only [List.append_assoc],
        fun h => by simp at h⟩
      intro e he
      rcases List.mem_append.1 he with h | h
      · exact hc e h
      · rcases List.mem_append.1 h with h | h
        · exact hb e h
        · rw [List.mem_singleton.1 h]
          rfl

/-! ### The key of the validation loop -/

theorem raw_key_eq_add (ts : TextureStorageTraits) {layer face level : Nat}
    (hf2 : face < 2 ^ ts.face_bits) (hv2 : level < 2 ^ ts.level_bits) :
    layer <<< (ts.face_bits + ts.level_bits) ||| face <<< ts.level_bits ||| level
      = (layer * 2 ^ ts.face_bits + face) * 2 ^ ts.level_bits + level := by
  have h3 : face * 2 ^ ts.level_bits + level < 2 ^ (ts.face_bits + ts.level_bits) := by
    have : (face + 1) * 2 ^ ts.level_bits ≤ 2 ^ ts.face_bits * 2 ^ ts.level_bits :=
      Nat.mul_le_mul_right _ hf2
    rw [Nat.pow_add]
    nlinarith
  rw [Nat.shiftLeft_eq, Nat.shiftLeft_eq]
  have e1 : face * 2 ^ ts.level_bits ||| level = face * 2 ^ ts.level_bits + level := by
    rw [Nat.mul_comm face, ← Nat.mul_add_lt_is_or hv2]
  have e2 : layer * 2 ^ (ts.face_bits + ts.level_bits) ||| (face * 2 ^ ts.level_bits + level)
      = layer * 2 ^ (ts.face_bits + ts.level_bits) + (face * 2 ^ ts.level_bits + level) := by
    rw [Nat.mul_comm layer, ← Nat.mul_add_lt_is_or h3]
  rw [Nat.lor_assoc, e1, e2, Nat.pow_add]
  ring

/-- Where the key fits an `int`, the validation loop computes the same key as
the scan. -/
theorem img_id_promoted_eq (ts : TextureStorageTraits) (hw : ts.WellFormed)
    {layer face level max_layer : Nat} (hd : legal ts (layer, face, level))
    (hle : layer ≤ max_layer) (hfit : promoted_key_fits ts max_layer) :
    img_id_promoted ts layer face level = img_id ts layer face level := by
  have hf2 : face < 2 ^ ts.face_bits := lt_trans hd.2.1 hw.max_faces_lt
  have hv2 : level < 2 ^ ts.level_bits := lt_trans hd.2.2 hw.max_levels_lt
  rw [img_id_eq_add ts hw hd.1 hd.2.1 hd.2.2]
  unfold img_id_promoted
  rw [raw_key_eq_add ts hf2 hv2]
  have hlt : (layer * 2 ^ ts.face_bits + face) * 2 ^ ts.level_bits + level < 2 ^ 31 := by
    have h1 : (layer * 2 ^ ts.face_bits + face) * 2 ^ ts.level_bits + level
        < (layer + 1) * 2 ^ (ts.face_bits + ts.level_bits) := by
      have : (layer * 2 ^ ts.face_bits + face + 1) * 2 ^ ts.level_bits
          ≤ ((layer + 1) * 2 ^ ts.face_bits) * 2 ^ ts.level_bits :=
        Nat.mul_le_mul_right _ (by nlinarith)
      rw [Nat.pow_add, ← Nat.mul_assoc]
      nlinarith
    have h2 : (layer + 1) * 2 ^ (ts.face_bits + ts.level_bits)
        ≤ (max_layer + 1) * 2 ^ (ts.face_bits + ts.level_bits) :=
      Nat.mul_le_mul_right _ (by omega)
    unfold promoted_key_fits at hfit
    omega
  unfold int_to_size_t
  rw [Nat.mod_eq_of_lt (by omega), if_pos hlt]

/-! ### Reports of single coordinates -/

theorem filter_flatMap_nil {α : Type} (l : List α) (g : α → List LogEntry)
    (p : LogEntry → Bool) (h : ∀ b ∈ l, (g b).filter p = []) :
    (l.flatMap g).filter p = [] := by
  induction l with
  | nil => rfl
  | cons b rest ih =>
    rw [List.flatMap_cons, List.filter_append, h b (List.mem_cons_self _ _),
      ih (fun c hc => h c (List.mem_cons_of_mem _ hc))]
    rfl

theorem filter_flatMap_unique {α : Type} (l : List α) (hl : l.Nodup) (g : α → List LogEntry)
    (p : LogEntry → Bool) (a : α) (ha : a ∈ l)
    (h : ∀ b ∈ l, b ≠ a → (g b).filter p = []) :
    (l.flatMap g).filter p = (g a).filter p := by
  induction l with
  | nil => simp at ha
  | cons b rest ih =>
    rw [List.nodup_cons] at hl
    rw [List.flatMap_cons, List.filter_append]
    by_cases hb : b = a
    · subst hb
      rw [filter_flatMap_nil rest g p, List.append_nil]
      intro c hc
      exact h c (List.mem_cons_of_mem _ hc) (fun hca => hl.1 (hca ▸ hc))
    · rw [h b (List.mem_cons_self _ _) hb, List.nil_append]
      rcases List.mem_cons.1 ha with hab | har
      · exact absurd hab.symm hb
      · exact ih hl.2 har (fun c hc => h c (List.mem_cons_of_mem _ hc))

theorem mem_index_range {lo hi i : Nat} (h : lo ≤ i ∧ i ≤ hi) : i ∈ index_range lo hi := by
  unfold index_range
  rw [List.mem_range'_1]
  omega

theorem nodup_index_range (lo hi : Nat) : (index_range lo hi).Nodup :=
  List.nodup_range' _ _

/-- Among the reports of the validation, those selected by a predicate that
only holds for reports of one coordinate in the range are the selected
reports of that coordinate. -/
theorem validate_report_filter (ts : TextureStorageTraits) (inputs : List input_)
    (images : KeyMap (Nat × ImageView)) (base_dim : ivec3)
    (min_layer max_layer min_face max_face min_level max_level : Nat)
    (p : LogEntry → Bool) (layer face level : Nat)
    (hp : ∀ l f v, (l, f, v) ≠ (layer, face, level) →
      (slot_report ts inputs images base_dim l f v).filter p = [])
    (hl : min_layer ≤ layer ∧ layer ≤ max_layer) (hf : min_face ≤ face ∧ face ≤ max_face)
    (hv : min_level ≤ level ∧ level ≤ max_level) :
    (validate_report ts inputs images base_dim min_layer max_layer min_face max_face
        min_level max_level).filter p
      = (slot_report ts inputs images base_dim layer face level).filter p := by
  unfold validate_report
  rw [filter_flatMap_unique _ (nodup_index_range _ _) _ p layer (mem_index_range hl),
    filter_flatMap_unique _ (nodup_index_range _ _) _ p face (mem_index_range hf),
    filter_flatMap_unique _ (nodup_index_range _ _) _ p level (mem_index_range hv)]
  · intro v _ hne
    exact hp layer face v (fun h => hne (by injection h with _ h; injection h))
  · intro f _ hne
    apply filter_flatMap_nil
    intro v _
    exact hp layer f v (fun h => hne (by injection h with _ h; injection h))
  · intro l _ hne
    apply filter_flatMap_nil
    intro f _
    apply filter_flatMap_nil
    intro v _
    exact hp l f v (fun h => hne (by injection h))

theorem slot_report_mismatch_other (ts : TextureStorageTraits) (inputs : List input_)
    (images : KeyMap (Nat × ImageView)) (base_dim : ivec3) (layer face level l f v : Nat)
    (hne : (l, f, v) ≠ (layer, face, level)) :
    (slot_report ts inputs images base_dim l f v).filter
      (LogEntry.is_mismatch_at layer face level) = [] := by
  have hd : decide (l = layer ∧ f = face ∧ v = level) = false := by
    rw [decide_eq_false_iff_not]
    rintro ⟨rfl, rfl, rfl⟩
    exact hne rfl
  unfold slot_report
  split
  · rfl
  · split
    · simp [LogEntry.is_mismatch_at, hd]
    · rfl

theorem slot_report_missing_other (ts : TextureStorageTraits) (inputs : List input_)
    (images : KeyMap (Nat × ImageView)) (base_dim : ivec3) (layer face level l f v : Nat)
    (hne : (l, f, v) ≠ (layer, face, level)) :
    (slot_report ts inputs images base_dim l f v).filter
      (LogEntry.is_missing_at layer face level) = [] := by
  have hd : decide (l = layer ∧ f = face ∧ v = level) = false := by
    rw [decide_eq_false_iff_not]
    rintro ⟨rfl, rfl, rfl⟩
    exact hne rfl
  unfold slot_report
  split
  · simp [LogEntry.is_missing_at, hd]
  · split <;> rfl

theorem filter_of_kind (es : List LogEntry) (p : LogEntry → Bool)
    (hp : ∀ e, p e = true → e.is_slot_report = true)
    (h : ∀ e ∈ es, e.is_slot_report = false) : es.filter p = [] := by
  rw [List.filter_eq_nil_iff]
  intro e he hpe
  have := hp e hpe
  rw [h e he] at this
  exact Bool.false_ne_true this

theorem is_mismatch_at_kind (layer face level : Nat) (e : LogEntry)
    (h : LogEntry.is_mismatch_at layer face level e = true) : e.is_slot_report = true := by
  cases e <;> simp [LogEntry.is_mismatch_at] at h
  rfl

theorem is_missing_at_kind (layer face level : Nat) (e : LogEntry)
    (h : LogEntry.is_missing_at layer face level e = true) : e.is_slot_report = true := by
  cases e <;> simp [LogEntry.is_missing_at] at h
  rfl

/-! ### Bounds and presence after the scan -/

theorem scan_visit_bounded (ts : TextureStorageTraits) (idx : Nat) (input : input_)
    (s : scan_state) (img : ImageView) (h : scan_bounded ts s) :
    scan_bounded ts (scan_visit ts idx input s img) := by
  cases hacc : accepted ts input img
  · rw [scan_visit_rejected ts idx input s img hacc]
    exact h
  · simp only [accepted, decide_eq_true_eq] at hacc
    unfold scan_visit
    simp only []
    rw [if_neg (by omega)]
    obtain ⟨h1, h2, h3⟩ := h
    have m1 := Nat.mod_le (input.dest_layer + img.layer) (2 ^ ts.layer_bits)
    have m2 := Nat.mod_le (input.dest_face + img.face) (2 ^ ts.face_bits)
    have m3 := Nat.mod_le (input.dest_level + img.level) (2 ^ ts.level_bits)
    refine ⟨Or.inl ?_, Or.inl ?_, Or.inl ?_⟩ <;> simp only [] <;> omega

theorem scan_from_bounded (ts : TextureStorageTraits) (idx : Nat) (inputs : List input_)
    (s : scan_state) (h : scan_bounded ts s) : scan_bounded ts (scan_from ts idx inputs s) := by
  induction inputs generalizing idx s with
  | nil => exact h
  | cons input rest ih =>
    rw [scan_from]
    apply ih
    generalize input.texture.images = imgs
    induction imgs generalizing s with
    | nil => exact h
    | cons img more ih2 =>
      rw [List.foldl_cons]
      exact ih2 _ (scan_visit_bounded ts idx input s img h)

theorem scan_bounded_scan (ts : TextureStorageTraits) (inputs : List input_) :
    scan_bounded ts (scan ts inputs) :=
  scan_from_bounded ts 0 inputs _ ⟨Or.inr rfl, Or.inr rfl, Or.inr rfl⟩

theorem foldl_assign_entry_none (ts : TextureStorageTraits)
    (l : List ((Nat × Nat × Nat) × Nat × ImageView)) (m : KeyMap (Nat × ImageView)) (k : Nat) :
    (l.foldl (assign_entry ts) m) k = none ↔ m k = none ∧ ∀ e ∈ l, key_of ts e.1 ≠ k := by
  induction l generalizing m with
  | nil => simp
  | cons e rest ih =>
    rw [List.foldl_cons, ih]
    unfold assign_entry KeyMap.assign
    by_cases hk : k = key_of ts e.1
    · subst hk
      simp
    · simp only [if_neg hk, List.mem_cons, forall_eq_or_imp]
      constructor
      · rintro ⟨h1, h2⟩
        exact ⟨h1, fun h => hk h.symm, h2⟩
      · rintro ⟨h1, _, h2⟩
        exact ⟨h1, h2⟩

/-- A legal slot is empty after the scan exactly when no accepted image has it
as its destination. -/
theorem scan_images_none_iff (ts : TextureStorageTraits) (hw : ts.WellFormed)
    (inputs : List input_) (d : Nat × Nat × Nat) (hd : legal ts d) :
    (scan ts inputs).images (img_id ts d.1 d.2.1 d.2.2) = none ↔
      ∀ e ∈ encounter ts inputs, e.1 ≠ d := by
  unfold scan
  rw [scan_from_images]
  change (List.foldl (assign_entry ts) (scan_init ts).images (encounter ts inputs))
    (key_of ts d) = none ↔ _
  rw [foldl_assign_entry_none]
  constructor
  · rintro ⟨_, h⟩ e he heq
    exact h e he (by rw [heq])
  · intro h
    refine ⟨rfl, fun e he hk => h e he ?_⟩
    exact key_of_inj ts hw (encounter_from_legal ts 0 inputs e he) hd hk

/-- The content of the base after the scan, when an image was accepted. -/
theorem scan_base_spec (ts : TextureStorageTraits) (hw : ts.WellFormed)
    (inputs : List input_) (hne : encounter ts inputs ≠ []) :
    ∃ l1 e l2, encounter ts inputs = l1 ++ e :: l2 ∧
      (∀ a ∈ l1, e.1.2.2 < a.1.2.2) ∧ (∀ a ∈ l2, e.1.2.2 ≤ a.1.2.2) ∧
      (scan ts inputs).min_level = e.1.2.2 ∧
      (scan ts inputs).base = some (e.2.1, e.2.2.dim) := by
  have hlegal : ∀ a ∈ encounter ts inputs, legal ts a.1 := encounter_from_legal ts 0 inputs
  have hfold := scan_from_base ts 0 inputs (scan_init ts)
  rcases foldl_base_step ts (encounter ts inputs)
      (fun a ha => lt_trans (hlegal a ha).2.2 hw.max_levels_lt)
      ((scan_init ts).min_level, (scan_init ts).base) with
    ⟨hall, _⟩ | ⟨l1, e, l2, hdec, _, h1, h2, hres⟩
  · exfalso
    cases henc : encounter ts inputs with
    | nil => exact hne henc
    | cons a rest =>
      have h1 := hall a (by rw [henc]; exact List.mem_cons_self _ _)
      have h2 := (hlegal a (by rw [henc]; exact List.mem_cons_self _ _)).2.2
      simp only [scan_init] at h1
      omega
  · exact ⟨l1, e, l2, hdec, h1, h2, congrArg Prod.fst (hfold.trans hres),
      congrArg Prod.snd (hfold.trans hres)⟩

theorem encounter_ne_nil_of_base (ts : TextureStorageTraits) (inputs : List input_)
    (b : Nat × ivec3) (hbase : (scan ts inputs).base = some b) : encounter ts inputs ≠ [] := by
  intro h
  have hfold := congrArg Prod.snd (scan_from_base ts 0 inputs (scan_init ts))
  change (scan ts inputs).base = (List.foldl (base_step ts)
    ((scan_init ts).min_level, (scan_init ts).base) (encounter ts inputs)).2 at hfold
  rw [h, hbase] at hfold
  exact Option.noConfusion hfold

/-- When an image was accepted the maxima of the scan are legal indices. -/
theorem scan_max_legal (ts : TextureStorageTraits) (inputs : List input_)
    (hne : encounter ts inputs ≠ []) :
    legal ts ((scan ts inputs).max_layer, (scan ts inputs).max_face,
      (scan ts inputs).max_level) := by
  obtain ⟨h1, h2, h3⟩ := scan_bounded_scan ts inputs
  cases henc : encounter ts inputs with
  | nil => exact absurd henc hne
  | cons a rest =>
    have hl := encounter_from_legal ts 0 inputs a (by
      change a ∈ encounter ts inputs
      rw [henc]
      exact List.mem_cons_self _ _)
    obtain ⟨l1, l2, l3⟩ := hl
    refine ⟨?_, ?_, ?_⟩ <;> simp only [] <;> omega

theorem encounter_from_source (ts : TextureStorageTraits) (idx : Nat) (inputs : List input_) :
    ∀ e ∈ encounter_from ts idx inputs, idx ≤ e.2.1 ∧
      ∃ input, inputs[e.2.1 - idx]? = some input ∧ e.2.2 ∈ input.texture.images := by
  induction inputs generalizing idx with
  | nil => intro e he; simp [encounter_from] at he
  | cons input rest ih =>
    intro e he
    rw [encounter_from, List.mem_append] at he
    rcases he with he | he
    · obtain ⟨img, himg, rfl⟩ := List.mem_map.1 he
      exact ⟨le_refl _, input, by simp, (List.mem_filter.1 himg).1⟩
    · obtain ⟨hle, inp, hget, hmem⟩ := ih (idx + 1) e he
      refine ⟨by omega, inp, ?_, hmem⟩
      have : e.2.1 - idx = (e.2.1 - (idx + 1)) + 1 := by omega
      rw [this, List.getElem?_cons_succ]
      exact hget

/-- The base input has a view. -/
theorem base_view_exists (ts : TextureStorageTraits) (hw : ts.WellFormed)
    (inputs : List input_) (base_idx : Nat) (recorded : ivec3)
    (hbase : (scan ts inputs).base = some (base_idx, recorded)) :
    ∃ v : TextureView,
      (inputs.map input_.texture).getD base_idx { view := none } = { view := some v } := by
  obtain ⟨l1, e, l2, hdec, _, _, _, hb⟩ :=
    scan_base_spec ts hw inputs (encounter_ne_nil_of_base ts inputs _ hbase)
  rw [hbase] at hb
  have hidx : base_idx = e.2.1 := congrArg Prod.fst (Option.some.inj hb)
  obtain ⟨_, input, hget, hmem⟩ := encounter_from_source ts 0 inputs e (by
    change e ∈ encounter ts inputs
    rw [hdec]
    simp)
  rw [Nat.sub_zero, ← hidx] at hget
  rw [List.getD_eq_getElem?_getD, List.getElem?_map, hget]
  cases hv : input.texture.view with
  | none =>
    exfalso
    unfold Texture.images at hmem
    rw [hv] at hmem
    simp at hmem
  | some v =>
    refine ⟨v, ?_⟩
    simp only [Option.map_some', Option.getD_some]
    cases ht : input.texture with
    | mk view =>
      rw [ht] at hv
      simp only at hv
      rw [hv]

/-- With an accepted image and a successful allocation `make_texture_` returns
a texture with a view. -/
theorem make_texture_returns (ts : TextureStorageTraits) (hw : ts.WellFormed) (gfx : GfxTraits)
    (cfg : settings_) (app : AppState) (inputs : List input_) (base_idx : Nat)
    (recorded : ivec3) (hbase : (scan ts inputs).base = some (base_idx, recorded)) :
    ∃ view : TextureView,
      (make_texture_ ts gfx cfg true app inputs).texture = some { view := some view } := by
  obtain ⟨v, hv⟩ := base_view_exists ts hw inputs base_idx recorded hbase
  unfold make_texture_
  simp only [hbase, hv, if_true]
  exact ⟨_, rfl⟩


/-! ### The result of `make_texture_` -/

theorem fit_block_snd (gfx : GfxTraits) (app app' : AppState) (format : ImageFormat)
    (block_span : Nat) :
    (fit_block gfx app format block_span).2 = (fit_block gfx app' format block_span).2 := by
  unfold fit_block
  simp only []
  split <;> split <;> split <;> rfl

/-- With an accepted image and a successful allocation: what `make_texture_`
returns, logs and copies. -/
theorem make_texture_ok (ts : TextureStorageTraits) (gfx : GfxTraits) (cfg : settings_)
    (app : AppState) (inputs : List input_) (base_idx : Nat) (recorded : ivec3)
    (base_view : TextureView)
    (hbase : (scan ts inputs).base = some (base_idx, recorded))
    (hview : (inputs.map input_.texture).getD base_idx { view := none }
      = { view := some base_view }) :
    make_texture_ ts gfx cfg true app inputs
      = { app := warn_all app
            (merge_entries ts gfx cfg inputs (scan ts inputs) recorded base_view),
          texture := some
            { view := some (merged_view ts gfx cfg (scan ts inputs) recorded base_view) },
          blits := (merged_view ts gfx cfg (scan ts inputs) recorded base_view).images.flatMap
            (composite_visit ts (scan ts inputs).images) } := by
  unfold make_texture_
  simp only [hbase, hview, report_missing_eq, trim_levels_eq, validate_eq, check_tex_class_eq,
    fit_block_eq, warn_all_append, if_true]
  rw [fit_block_snd gfx _ fresh]
  rfl

/-- With an accepted image and a failing allocation: what `make_texture_`
returns and logs. -/
theorem make_texture_alloc_failed (ts : TextureStorageTraits) (gfx : GfxTraits)
    (cfg : settings_) (app : AppState) (inputs : List input_) (base_idx : Nat)
    (recorded : ivec3) (base_view : TextureView)
    (hbase : (scan ts inputs).base = some (base_idx, recorded))
    (hview : (inputs.map input_.texture).getD base_idx { view := none }
      = { view := some base_view }) :
    make_texture_ ts gfx cfg false app inputs
      = { app :=
            (warn_all app (merge_entries ts gfx cfg inputs (scan ts inputs) recorded
              base_view)).fail status_code_.status_conversion_error LogEntry.not_enough_memory,
          texture := some { view := none },
          blits := [] } := by
  unfold make_texture_
  simp only [hbase, hview, report_missing_eq, trim_levels_eq, validate_eq, check_tex_class_eq,
    fit_block_eq, warn_all_append, Bool.false_eq_true, if_false]
  rfl

/-! ### The maxima of the scan -/

theorem scan_visit_accepted_max (ts : TextureStorageTraits) (idx : Nat) (input : input_)
    (s : scan_state) (img : ImageView) (h : accepted ts input img = true) :
    ((scan_visit ts idx input s img).max_layer, (scan_visit ts idx input s img).max_face,
        (scan_visit ts idx input s img).max_level)
      = max_step ts (s.max_layer, s.max_face, s.max_level) (destination input img, idx, img) := by
  unfold scan_visit
  simp only [accepted, decide_eq_true_eq] at h
  simp only []
  rw [if_neg (by omega)]
  rfl

theorem scan_visit_foldl_max (ts : TextureStorageTraits) (idx : Nat) (input : input_)
    (imgs : List ImageView) (s : scan_state) :
    ((imgs.foldl (scan_visit ts idx input) s).max_layer,
        (imgs.foldl (scan_visit ts idx input) s).max_face,
        (imgs.foldl (scan_visit ts idx input) s).max_level)
      = ((imgs.filter (accepted ts input)).map
          fun img => (destination input img, idx, img)).foldl (max_step ts)
            (s.max_layer, s.max_face, s.max_level) := by
  induction imgs generalizing s with
  | nil => rfl
  | cons img rest ih =>
    rw [List.foldl_cons, ih]
    cases h : accepted ts input img
    · rw [scan_visit_rejected ts idx input s img h, List.filter_cons_of_neg (by simp [h])]
    · rw [scan_visit_accepted_max ts idx input s img h, List.filter_cons_of_pos h]
      rfl

/-- The maxima after the scan, as a fold over the accepted images in encounter order. -/
theorem scan_from_max (ts : TextureStorageTraits) (idx : Nat) (inputs : List input_)
    (s : scan_state) :
    ((scan_from ts idx inputs s).max_layer, (scan_from ts idx inputs s).max_face,
        (scan_from ts idx inputs s).max_level)
      = (encounter_from ts idx inputs).foldl (max_step ts)
          (s.max_layer, s.max_face, s.max_level) := by
  induction inputs generalizing idx s with
  | nil => rfl
  | cons input rest ih =>
    rw [scan_from, ih, scan_visit_foldl_max, encounter_from, List.foldl_append]

/-- Folding `max_step` over entries with representable indices gives, on each
axis, an upper bound of the indices that is the start value or one of them. -/
theorem foldl_max_step (ts : TextureStorageTraits)
    (l : List ((Nat × Nat × Nat) × Nat × ImageView))
    (hl : ∀ a ∈ l, a.1.1 < 2 ^ ts.layer_bits ∧ a.1.2.1 < 2 ^ ts.face_bits ∧
      a.1.2.2 < 2 ^ ts.level_bits) (m : Nat × Nat × Nat) :
    (∀ a ∈ l, a.1.1 ≤ (l.foldl (max_step ts) m).1 ∧ a.1.2.1 ≤ (l.foldl (max_step ts) m).2.1 ∧
      a.1.2.2 ≤ (l.foldl (max_step ts) m).2.2) ∧
    (m.1 ≤ (l.foldl (max_step ts) m).1 ∧ m.2.1 ≤ (l.foldl (max_step ts) m).2.1 ∧
      m.2.2 ≤ (l.foldl (max_step ts) m).2.2) ∧
    ((l.foldl (max_step ts) m).1 = m.1 ∨ ∃ a ∈ l, a.1.1 = (l.foldl (max_step ts) m).1) ∧
    ((l.foldl (max_step ts) m).2.1 = m.2.1 ∨
      ∃ a ∈ l, a.1.2.1 = (l.foldl (max_step ts) m).2.1) ∧
    ((l.foldl (max_step ts) m).2.2 = m.2.2 ∨
      ∃ a ∈ l, a.1.2.2 = (l.foldl (max_step ts) m).2.2) := by
  induction l generalizing m with
  | nil => simp
  | cons a rest ih =>
    obtain ⟨h1, h2, h3⟩ := hl a (List.mem_cons_self _ _)
    have hstep : max_step ts m a = (max m.1 a.1.1, max m.2.1 a.1.2.1, max m.2.2 a.1.2.2) := by
      unfold max_step
      rw [Nat.mod_eq_of_lt h1, Nat.mod_eq_of_lt h2, Nat.mod_eq_of_lt h3]
    rw [List.foldl_cons, hstep]
    obtain ⟨i1, i2, i3, i4, i5⟩ := ih (fun x hx => hl x (List.mem_cons_of_mem _ hx))
      (max m.1 a.1.1, max m.2.1 a.1.2.1, max m.2.2 a.1.2.2)
    simp only [] at i2 i3 i4 i5
    refine ⟨?_, ⟨le_trans (le_max_left _ _) i2.1, le_trans (le_max_left _ _) i2.2.1,
      le_trans (le_max_left _ _) i2.2.2⟩, ?_, ?_, ?_⟩
    · intro x hx
      rcases List.mem_cons.1 hx with rfl | hx
      · exact ⟨le_trans (le_max_right _ _) i2.1, le_trans (le_max_right _ _) i2.2.1,
          le_trans (le_max_right _ _) i2.2.2⟩
      · exact i1 x hx
    · rcases i3 with h | ⟨x, hx, h⟩
      · rcases Nat.le_total m.1 a.1.1 with hle | hle
        · exact Or.inr ⟨a, List.mem_cons_self _ _, (h.trans (Nat.max_eq_right hle)).symm⟩
        · exact Or.inl (h.trans (Nat.max_eq_left hle))
      · exact Or.inr ⟨x, List.mem_cons_of_mem _ hx, h⟩
    · rcases i4 with h | ⟨x, hx, h⟩
      · rcases Nat.le_total m.2.1 a.1.2.1 with hle | hle
        · exact Or.inr ⟨a, List.mem_cons_self _ _, (h.trans (Nat.max_eq_right hle)).symm⟩
        · exact Or.inl (h.trans (Nat.max_eq_left hle))
      · exact Or.inr ⟨x, List.mem_cons_of_mem _ hx, h⟩
    · rcases i5 with h | ⟨x, hx, h⟩
      · rcases Nat.le_total m.2.2 a.1.2.2 with hle | hle
        · exact Or.inr ⟨a, List.mem_cons_self _ _, (h.trans (Nat.max_eq_right hle)).symm⟩
        · exact Or.inl (h.trans (Nat.max_eq_left hle))
      · exact Or.inr ⟨x, List.mem_cons_of_mem _ hx, h⟩

/-- When an image was accepted, each maximum of the scan is the greatest
destination index of the accepted images on its axis. -/
theorem scan_max_spec (ts : TextureStorageTraits) (hw : ts.WellFormed) (inputs : List input_)
    (hne : encounter ts inputs ≠ []) :
    ((∃ e ∈ encounter ts inputs, e.1.1 = (scan ts inputs).max_layer) ∧
      ∀ e ∈ encounter ts inputs, e.1.1 ≤ (scan ts inputs).max_layer) ∧
    ((∃ e ∈ encounter ts inputs, e.1.2.1 = (scan ts inputs).max_face) ∧
      ∀ e ∈ encounter ts inputs, e.1.2.1 ≤ (scan ts inputs).max_face) ∧
    ((∃ e ∈ encounter ts inputs, e.1.2.2 = (scan ts inputs).max_level) ∧
      ∀ e ∈ encounter ts inputs, e.1.2.2 ≤ (scan ts inputs).max_level) := by
  have hlegal : ∀ a ∈ encounter ts inputs, legal ts a.1 := encounter_from_legal ts 0 inputs
  have hfold := scan_from_max ts 0 inputs (scan_init ts)
  change ((scan ts inputs).max_layer, (scan ts inputs).max_face, (scan ts inputs).max_level)
    = List.foldl (max_step ts) (0, 0, 0) (encounter ts inputs) at hfold
  obtain ⟨i1, _, i3, i4, i5⟩ := foldl_max_step ts (encounter ts inputs)
    (fun a ha => ⟨lt_trans (hlegal a ha).1 hw.max_layers_lt,
      lt_trans (hlegal a ha).2.1 hw.max_faces_lt, lt_trans (hlegal a ha).2.2 hw.max_levels_lt⟩)
    (0, 0, 0)
  rw [← hfold] at i1 i3 i4 i5
  simp only [] at i1 i3 i4 i5
  obtain ⟨e0, he0⟩ := List.exists_mem_of_ne_nil _ hne
  refine ⟨⟨?_, fun e he => (i1 e he).1⟩, ⟨?_, fun e he => (i1 e he).2.1⟩,
    ⟨?_, fun e he => (i1 e he).2.2⟩⟩
  · rcases i3 with h | h
    · exact ⟨e0, he0, by have := (i1 e0 he0).1; omega⟩
    · exact h
  · rcases i4 with h | h
    · exact ⟨e0, he0, by have := (i1 e0 he0).2.1; omega⟩
    · exact h
  · rcases i5 with h | h
    · exact ⟨e0, he0, by have := (i1 e0 he0).2.2; omega⟩
    · exact h

theorem final_max_level_le (ts : TextureStorageTraits) (hw : ts.WellFormed) (s : scan_state)
    (recorded : ivec3) : final_max_level ts s recorded ≤ s.max_level := by
  unfold final_max_level trim_levels
  split
  · have h1 := expected_levels_pos ts hw (final_base_dim s recorded)
    have h2 := Nat.mod_le (s.min_level + expected_levels ts (final_base_dim s recorded) - 1)
      (2 ^ ts.level_bits)
    simp only []
    omega
  · exact le_refl _

/-- The merged counts do not wrap: they are the maxima plus one and lie
between 1 and the maxima of the traits. -/
theorem merged_counts_spec (ts : TextureStorageTraits) (hw : ts.WellFormed)
    (inputs : List input_) (recorded : ivec3) (hne : encounter ts inputs ≠ []) :
    (merged_layers ts (scan ts inputs) = (scan ts inputs).max_layer + 1 ∧
      merged_layers ts (scan ts inputs) ≤ ts.max_layers) ∧
    (merged_faces ts (scan ts inputs) = (scan ts inputs).max_face + 1 ∧
      merged_faces ts (scan ts inputs) ≤ ts.max_faces) ∧
    (merged_levels ts (scan ts inputs) recorded
        = final_max_level ts (scan ts inputs) recorded + 1 ∧
      merged_levels ts (scan ts inputs) recorded ≤ ts.max_levels) := by
  obtain ⟨h1, h2, h3⟩ := scan_max_legal ts inputs hne
  simp only [] at h1 h2 h3
  have h4 := final_max_level_le ts hw (scan ts inputs) recorded
  have b1 := hw.max_layers_lt
  have b2 := hw.max_faces_lt
  have b3 := hw.max_levels_lt
  unfold merged_layers merged_faces merged_levels
  rw [Nat.mod_eq_of_lt (by omega), Nat.mod_eq_of_lt (by omega), Nat.mod_eq_of_lt (by omega)]
  exact ⟨⟨rfl, by omega⟩, ⟨rfl, by omega⟩, ⟨rfl, by omega⟩⟩

/-! ### Entries of the merge by stage -/

theorem length_filter_ite (c : Prop) [Decidable c] (x : LogEntry) (p : LogEntry → Bool) :
    ((if c then [x] else []).filter p).length = if c ∧ p x = true then 1 else 0 := by
  by_cases hc : c <;> cases hp : p x <;> simp [hc, hp]



theorem filter_stage_ne (l : List LogEntry) (p : LogEntry → Bool) (k j : Nat)
    (hl : ∀ e ∈ l, e.stage = k) (hp : ∀ e, p e = true → e.stage = j) (hne : k ≠ j) :
    l.filter p = [] := by
  rw [List.filter_eq_nil_iff]
  intro e he hpe
  exact hne ((hl e he).symm.trans (hp e hpe))

theorem missing_entries_stage (s : scan_state) : ∀ e ∈ missing_entries s, e.stage = 1 := by
  intro e he
  unfold missing_entries at he
  simp only [List.mem_append] at he
  rcases he with (he | he) | he <;> rw [mem_ite_singleton he] <;> rfl

theorem trim_entries_stage (ts : TextureStorageTraits) (min_level max_level : Nat)
    (base_dim : ivec3) : ∀ e ∈ trim_entries ts min_level max_level base_dim, e.stage = 1 := by
  intro e he
  unfold trim_entries at he
  rw [mem_ite_singleton he]
  rfl

theorem slot_report_stage (ts : TextureStorageTraits) (inputs : List input_)
    (images : KeyMap (Nat × ImageView)) (base_dim : ivec3) (layer face level : Nat) :
    ∀ e ∈ slot_report ts inputs images base_dim layer face level, e.stage = 2 := by
  intro e he
  unfold slot_report at he
  split at he
  · rw [List.mem_singleton.1 he]
    rfl
  · rw [mem_ite_singleton he]
    rfl

theorem validate_report_stage (ts : TextureStorageTraits) (inputs : List input_)
    (images : KeyMap (Nat × ImageView)) (base_dim : ivec3)
    (min_layer max_layer min_face max_face min_level max_level : Nat) :
    ∀ e ∈ validate_report ts inputs images base_dim min_layer max_layer min_face max_face
      min_level max_level, e.stage = 2 := by
  intro e he
  unfold validate_report at he
  obtain ⟨layer, _, he⟩ := List.mem_flatMap.1 he
  obtain ⟨face, _, he⟩ := List.mem_flatMap.1 he
  obtain ⟨level, _, he⟩ := List.mem_flatMap.1 he
  exact slot_report_stage ts inputs images base_dim layer face level e he

theorem class_entries_stage (gfx : GfxTraits) (tex_class : TextureClass) (layers faces : Nat)
    (base_dim : ivec3) :
    ∀ e ∈ class_entries gfx tex_class layers faces base_dim, e.stage = 3 := by
  intro e he
  unfold class_entries at he
  simp only [List.mem_append] at he
  rcases he with (he | he) | he <;> rw [mem_ite_singleton he] <;> rfl

theorem block_entries_stage (gfx : GfxTraits) (format : ImageFormat) (block_span : Nat) :
    ∀ e ∈ block_entries gfx format block_span, e.stage = 4 := by
  intro e he
  unfold block_entries at he
  simp only [List.mem_append] at he
  rcases he with (he | he) | he <;> rw [mem_ite_singleton he] <;> rfl

/-- Of the entries of the merge, a predicate that only holds for notices about
the class selects notices about the class. -/
theorem merge_entries_filter_class (ts : TextureStorageTraits) (gfx : GfxTraits)
    (cfg : settings_) (inputs : List input_) (s : scan_state) (recorded : ivec3)
    (base_view : TextureView) (p : LogEntry → Bool) (hp : ∀ e, p e = true → e.stage = 3) :
    (merge_entries ts gfx cfg inputs s recorded base_view).filter p
      = (class_entries gfx (merged_class ts gfx cfg s base_view) (merged_layers ts s)
          (merged_faces ts s) (final_base_dim s recorded)).filter p := by
  unfold merge_entries
  rw [List.filter_append, List.filter_append, List.filter_append, List.filter_append,
    filter_stage_ne _ p 1 3 (missing_entries_stage s) hp (by decide),
    filter_stage_ne _ p 1 3 (trim_entries_stage ts _ _ _) hp (by decide),
    filter_stage_ne _ p 2 3 (validate_report_stage ts _ _ _ _ _ _ _ _ _) hp (by decide),
    filter_stage_ne _ p 4 3 (block_entries_stage gfx _ _) hp (by decide)]
  simp

/-- Of the entries of the merge, a predicate that only holds for notices about
the block selects notices about the block. -/
theorem merge_entries_filter_block (ts : TextureStorageTraits) (gfx : GfxTraits)
    (cfg : settings_) (inputs : List input_) (s : scan_state) (recorded : ivec3)
    (base_view : TextureView) (p : LogEntry → Bool) (hp : ∀ e, p e = true → e.stage = 4) :
    (merge_entries ts gfx cfg inputs s recorded base_view).filter p
      = (block_entries gfx (override_block gfx cfg base_view.format base_view.block_span).1
          (override_block gfx cfg base_view.format base_view.block_span).2).filter p := by
  unfold merge_entries
  rw [List.filter_append, List.filter_append, List.filter_append, List.filter_append,
    filter_stage_ne _ p 1 4 (missing_entries_stage s) hp (by decide),
    filter_stage_ne _ p 1 4 (trim_entries_stage ts _ _ _) hp (by decide),
    filter_stage_ne _ p 2 4 (validate_report_stage ts _ _ _ _ _ _ _ _ _) hp (by decide),
    filter_stage_ne _ p 3 4 (class_entries_stage gfx _ _ _ _) hp (by decide)]
  simp

theorem is_non_array_stage (e : LogEntry) (h : e.is_non_array = true) : e.stage = 3 := by
  cases e <;> simp [LogEntry.is_non_array] at h
  rfl

theorem is_enlargement_stage (e : LogEntry) (h : e.is_enlargement = true) : e.stage = 4 := by
  cases e <;> simp [LogEntry.is_enlargement] at h <;> rfl

theorem is_component_conflict_stage (e : LogEntry) (h : e.is_component_conflict = true) :
    e.stage = 4 := by
  cases e <;> simp [LogEntry.is_component_conflict] at h
  rfl

/-! ### The reconciled block -/

theorem override_color_fields (cfg : settings_) (f : ImageFormat) :
    (override_color cfg f).block_size = f.block_size ∧
    (override_color cfg f).packing = f.packing ∧
    (override_color cfg f).block_dim = f.block_dim ∧
    (override_color cfg f).components = f.components := by
  unfold override_color
  simp only []
  split <;> split <;> exact ⟨rfl, rfl, rfl, rfl⟩

theorem fitted_block_fst (gfx : GfxTraits) (cfg : settings_) (base_view : TextureView) :
    (fitted_block gfx cfg base_view).1
      = if required_block_size gfx
            (override_block gfx cfg base_view.format base_view.block_span).1
          > (override_block gfx cfg base_view.format base_view.block_span).1.block_size then
          { (override_block gfx cfg base_view.format base_view.block_span).1 with
            block_size := to_block_size gfx (required_block_size gfx
              (override_block gfx cfg base_view.format base_view.block_span).1) }
        else (override_block gfx cfg base_view.format base_view.block_span).1 := by
  unfold fitted_block fit_block
  simp only []
  split <;> split <;> split <;> rfl

theorem fitted_block_snd (gfx : GfxTraits) (cfg : settings_) (base_view : TextureView) :
    (fitted_block gfx cfg base_view).2
      = if (override_block gfx cfg base_view.format base_view.block_span).2
            < (fitted_block gfx cfg base_view).1.block_size then
          (fitted_block gfx cfg base_view).1.block_size % 2 ^ 8
        else (override_block gfx cfg base_view.format base_view.block_span).2 := by
  rw [fitted_block_fst]
  unfold fitted_block fit_block
  simp only []
  split <;> split <;> split <;> rfl

theorem fitted_block_fields (gfx : GfxTraits) (cfg : settings_) (base_view : TextureView) :
    (fitted_block gfx cfg base_view).1.packing
      = (override_block gfx cfg base_view.format base_view.block_span).1.packing ∧
    (fitted_block gfx cfg base_view).1.block_dim
      = (override_block gfx cfg base_view.format base_view.block_span).1.block_dim ∧
    (fitted_block gfx cfg base_view).1.components
      = (override_block gfx cfg base_view.format base_view.block_span).1.components ∧
    (fitted_block gfx cfg base_view).1.colorspace
      = (override_block gfx cfg base_view.format base_view.block_span).1.colorspace := by
  rw [fitted_block_fst]
  split <;> exact ⟨rfl, rfl, rfl, rfl⟩

theorem override_block_size_lt (gfx : GfxTraits) (cfg : settings_) (base_view : TextureView)
    (hsize : base_view.format.block_size < 2 ^ (8 * gfx.sizeof_block_size_type)) :
    (override_block gfx cfg base_view.format base_view.block_span).1.block_size
      < 2 ^ (8 * gfx.sizeof_block_size_type) := by
  unfold override_block
  split
  · exact Nat.mod_lt _ (Nat.two_pow_pos _)
  · exact hsize

theorem block_entries_filter_size (gfx : GfxTraits) (format : ImageFormat) (block_span : Nat) :
    ((block_entries gfx format block_span).filter LogEntry.is_block_size_enlarged).length
      = if required_block_size gfx format > format.block_size then 1 else 0 := by
  unfold block_entries
  simp only [List.filter_append, List.length_append, length_filter_ite,
    LogEntry.is_block_size_enlarged, Bool.false_eq_true, and_false, if_false, and_true,
    Nat.add_zero, Nat.zero_add]

theorem block_entries_filter_span (gfx : GfxTraits) (format : ImageFormat) (block_span : Nat) :
    ((block_entries gfx format block_span).filter LogEntry.is_block_span_increased).length
      = if block_span < (if required_block_size gfx format > format.block_size then
            to_block_size gfx (required_block_size gfx format) else format.block_size)
        then 1 else 0 := by
  unfold block_entries
  simp only [List.filter_append, List.length_append, length_filter_ite,
    LogEntry.is_block_span_increased, Bool.false_eq_true, and_false, if_false, and_true,
    Nat.add_zero, Nat.zero_add]

theorem block_entries_filter_components (gfx : GfxTraits) (format : ImageFormat)
    (block_span : Nat) :
    ((block_entries gfx format block_span).filter LogEntry.is_component_conflict).length
      = if format.components > gfx.component_count format.packing then 1 else 0 := by
  unfold block_entries
  simp only [List.filter_append, List.length_append, length_filter_ite,
    LogEntry.is_component_conflict, Bool.false_eq_true, and_false, if_false, and_true,
    Nat.add_zero, Nat.zero_add]

theorem is_block_size_enlarged_stage (e : LogEntry) (h : e.is_block_size_enlarged = true) :
    e.stage = 4 := by
  cases e <;> simp [LogEntry.is_block_size_enlarged] at h
  rfl

theorem is_block_span_increased_stage (e : LogEntry) (h : e.is_block_span_increased = true) :
    e.stage = 4 := by
  cases e <;> simp [LogEntry.is_block_span_increased] at h
  rfl

/-! ### Allocation failure -/

theorem make_texture_no_view (ts : TextureStorageTraits) (gfx : GfxTraits) (cfg : settings_)
    (app : AppState) (inputs : List input_) (tex : Texture)
    (h : (make_texture_ ts gfx cfg false app inputs).texture = some tex) : tex.view = none := by
  unfold make_texture_ at h
  simp only [] at h
  split at h
  · simp at h
  · split at h
    · simp at h
    · simp only [Bool.false_eq_true, if_false, Option.some.injEq] at h
      rw [← h]

theorem make_texture_no_blits (ts : TextureStorageTraits) (gfx : GfxTraits) (cfg : settings_)
    (app : AppState) (inputs : List input_) :
    (make_texture_ ts gfx cfg false app inputs).blits = [] := by
  unfold make_texture_
  simp only []
  split
  · rfl
  · split
    · rfl
    · simp only [Bool.false_eq_true, if_false]

theorem operator_call_alloc_failed (ts : TextureStorageTraits) (gfx : GfxTraits)
    (cfg : settings_) (write_outputs_ : AppState → TextureView → AppState) (app : AppState)
    (output_files_ : List output_file_) (files : List globbed_) :
    operator_call ts gfx cfg false write_outputs_ app output_files_ files
      = operator_call ts gfx cfg false (fun a _ => a) app output_files_ files := by
  unfold operator_call
  simp only []
  generalize load_inputs_ ts _ files = l
  generalize hm : make_texture_ ts gfx cfg false l.app l.inputs = m
  have hv : ∀ tex, m.texture = some tex → tex.view = none := by
    intro tex h
    rw [← hm] at h
    exact make_texture_no_view ts gfx cfg _ _ tex h
  rcases m with ⟨mapp, mtex, mblits⟩
  cases mtex with
  | none => rfl
  | some tex =>
    have h := hv tex rfl
    rcases tex with ⟨v⟩
    simp only at h
    subst h
    rfl

theorem operator_call_not_written (ts : TextureStorageTraits) (gfx : GfxTraits)
    (cfg : settings_) (write_outputs_ : AppState → TextureView → AppState) (app : AppState)
    (output_files_ : List output_file_) (files : List globbed_) :
    (operator_call ts gfx cfg false write_outputs_ app output_files_ files).written = none := by
  unfold operator_call
  simp only []
  generalize load_inputs_ ts _ files = l
  generalize hm : make_texture_ ts gfx cfg false l.app l.inputs = m
  have hv : ∀ tex, m.texture = some tex → tex.view = none := by
    intro tex h
    rw [← hm] at h
    exact make_texture_no_view ts gfx cfg _ _ tex h
  rcases m with ⟨mapp, mtex, mblits⟩
  cases mtex with
  | none => split_ifs <;> rfl
  | some tex =>
    have h := hv tex rfl
    rcases tex with ⟨v⟩
    simp only at h
    subst h
    split_ifs <;> rfl

/-! ### The copies -/

theorem mem_storage_images (layers faces levels : Nat) (base_dim : ivec3) (img : ImageView) :
    img ∈ storage_images layers faces levels base_dim ↔
      img.layer < layers ∧ img.face < faces ∧ img.level < levels ∧
        img.dim = mipmap_dim base_dim img.level := by
  unfold storage_images
  simp only [List.mem_flatMap, List.mem_map, List.mem_range]
  constructor
  · rintro ⟨l, hl, f, hf, v, hv, rfl⟩
    exact ⟨hl, hf, hv, rfl⟩
  · rintro ⟨hl, hf, hv, hd⟩
    refine ⟨img.layer, hl, img.face, hf, img.level, hv, ?_⟩
    rw [← hd]

theorem mem_composite_visit (ts : TextureStorageTraits) (images : KeyMap (Nat × ImageView))
    (img : ImageView) (b : blit_) :
    b ∈ composite_visit ts images img ↔
      ∃ idx src, images (img_id ts img.layer img.face img.level) = some (idx, src) ∧
        b = { src := src, src_region := region_intersection src.dim img.dim, dst := img,
              dst_region := region_intersection src.dim img.dim } := by
  unfold composite_visit
  cases h : images (img_id ts img.layer img.face img.level) with
  | none => simp
  | some e =>
    obtain ⟨idx, src⟩ := e
    simp only [List.mem_singleton, Option.some.injEq, Prod.mk.injEq]
    constructor
    · intro hb
      exact ⟨idx, src, ⟨rfl, rfl⟩, hb⟩
    · rintro ⟨_, _, ⟨rfl, rfl⟩, hb⟩
      exact hb

theorem region_intersection_le (a b : ivec3) :
    ((region_intersection a b).x ≤ a.x ∧ (region_intersection a b).y ≤ a.y ∧
      (region_intersection a b).z ≤ a.z) ∧
    ((region_intersection a b).x ≤ b.x ∧ (region_intersection a b).y ≤ b.y ∧
      (region_intersection a b).z ≤ b.z) :=
  ⟨⟨min_le_left _ _, min_le_left _ _, min_le_left _ _⟩,
    ⟨min_le_right _ _, min_le_right _ _, min_le_right _ _⟩⟩

theorem mem_written_slots (ts : TextureStorageTraits) (images : KeyMap (Nat × ImageView))
    (dsts : List ImageView) (l f v : Nat) :
    (l, f, v) ∈ written_slots (dsts.flatMap (composite_visit ts images)) ↔
      ∃ img ∈ dsts, img.layer = l ∧ img.face = f ∧ img.level = v ∧
        ∃ e, images (img_id ts l f v) = some e := by
  unfold written_slots
  simp only [List.mem_map, List.mem_flatMap, mem_composite_visit]
  constructor
  · rintro ⟨b, ⟨img, himg, idx, src, htab, rfl⟩, hb⟩
    simp only [Prod.mk.injEq] at hb
    obtain ⟨rfl, rfl, rfl⟩ := hb
    exact ⟨img, himg, rfl, rfl, rfl, _, htab⟩
  · rintro ⟨img, himg, rfl, rfl, rfl, ⟨idx, src⟩, htab⟩
    exact ⟨_, ⟨img, himg, idx, src, htab, rfl⟩, rfl⟩

theorem table_entry_iff (ts : TextureStorageTraits) (hw : ts.WellFormed) (inputs : List input_)
    (d : Nat × Nat × Nat) (hd : legal ts d) :
    (∃ e, (scan ts inputs).images (key_of ts d) = some e) ↔
      ∃ a ∈ encounter ts inputs, a.1 = d := by
  have himg : (scan ts inputs).images
      = (encounter ts inputs).foldl (assign_entry ts) KeyMap.empty :=
    scan_from_images ts 0 inputs (scan_init ts)
  have hnone := foldl_assign_entry_none ts (encounter ts inputs) KeyMap.empty (key_of ts d)
  rw [← himg] at hnone
  constructor
  · rintro ⟨e, he⟩
    by_contra hno
    have : (scan ts inputs).images (key_of ts d) = none := by
      rw [hnone]
      refine ⟨rfl, fun a ha hk => hno ⟨a, ha, ?_⟩⟩
      exact key_of_inj ts hw (encounter_from_legal ts 0 inputs a ha) hd hk
    rw [this] at he
    cases he
  · rintro ⟨a, ha, rfl⟩
    cases h : (scan ts inputs).images (key_of ts a.1) with
    | some e => exact ⟨e, rfl⟩
    | none =>
      exfalso
      exact (hnone.1 h).2 a ha rfl

/-! ### The slicer -/

theorem map_flatMap_eq {α β γ : Type} (l : List α) (f : α → List β) (g : β → γ)
    (h : α → List γ) (hfg : ∀ x ∈ l, (f x).map g = h x) :
    (l.flatMap f).map g = l.flatMap h := by
  induction l with
  | nil => rfl
  | cons a rest ih =>
    rw [List.flatMap_cons, List.map_append, List.flatMap_cons, hfg a (List.mem_cons_self _ _),
      ih (fun x hx => hfg x (List.mem_cons_of_mem _ hx))]

theorem length_flatMap_const {α β : Type} (l : List α) (f : α → List β) (n : Nat)
    (h : ∀ x ∈ l, (f x).length = n) : (l.flatMap f).length = l.length * n := by
  induction l with
  | nil => simp
  | cons a rest ih =>
    rw [List.flatMap_cons, List.length_append, h a (List.mem_cons_self _ _),
      ih (fun x hx => h x (List.mem_cons_of_mem _ hx)), List.length_cons, Nat.succ_mul,
      Nat.add_comm]

theorem selection_coordinates_nodup (view : TextureView) :
    (selection_coordinates view).Nodup := by
  unfold selection_coordinates
  rw [List.nodup_flatMap]
  refine ⟨fun layer _ => ?_, ?_⟩
  · rw [List.nodup_flatMap]
    refine ⟨fun face _ => ?_, ?_⟩
    · refine (List.nodup_range' _ _).map ?_
      intro a b h
      simpa using h
    · refine List.Pairwise.imp ?_ (List.nodup_range' view.base_face view.faces)
      intro a b hne x hx hy
      obtain ⟨_, _, rfl⟩ := List.mem_map.1 hx
      obtain ⟨_, _, h⟩ := List.mem_map.1 hy
      simp only [Prod.mk.injEq] at h
      exact hne h.2.1.symm
  · refine List.Pairwise.imp ?_ (List.nodup_range' view.base_layer view.layers)
    intro a b hne x hx hy
    obtain ⟨_, _, hx2⟩ := List.mem_flatMap.1 hx
    obtain ⟨_, _, rfl⟩ := List.mem_map.1 hx2
    obtain ⟨_, _, hy2⟩ := List.mem_flatMap.1 hy
    obtain ⟨_, _, h⟩ := List.mem_map.1 hy2
    simp only [Prod.mk.injEq] at h
    exact hne h.1.symm

theorem selection_coordinates_length (view : TextureView) :
    (selection_coordinates view).length = view.layers * view.faces * view.levels := by
  unfold selection_coordinates
  rw [length_flatMap_const _ _ (view.faces * view.levels), List.length_range', Nat.mul_assoc]
  intro layer _
  rw [length_flatMap_const _ _ view.levels, List.length_range']
  intro face _
  rw [List.length_map, List.length_range']

theorem write_level_images_ranges (view : TextureView) (file : output_file_)
    (hm : 1 ≤ view.levels) :
    (write_level_images_ view file).map write_request.ranges
      = (List.range' view.base_level view.levels).map fun level =>
          ((view.base_layer, view.layers), (view.base_face, view.faces), (level, 1)) := by
  unfold write_level_images_
  split
  · have h1 : view.levels = 1 := by omega
    simp only [List.map_cons, List.map_nil, write_request.ranges, output_file_.request, h1,
      List.range'_one]
  · rw [List.map_map]
    rfl

theorem write_face_images_ranges (view : TextureView) (file : output_file_)
    (hf : 1 ≤ view.faces) (hm : 1 ≤ view.levels) :
    (write_face_images_ view file).map write_request.ranges
      = (List.range' view.base_face view.faces).flatMap fun face =>
          (List.range' view.base_level view.levels).map fun level =>
            ((view.base_layer, view.layers), (face, 1), (level, 1)) := by
  unfold write_face_images_
  split
  · have h1 : view.faces = 1 := by omega
    rw [write_level_images_ranges view file hm, h1, List.range'_one, List.flatMap_singleton]
  · exact map_flatMap_eq _ _ _ _ fun face _ => write_level_images_ranges _ _ hm

theorem write_layer_images_ranges (view : TextureView) (file : output_file_)
    (hl : 1 ≤ view.layers) (hf : 1 ≤ view.faces) (hm : 1 ≤ view.levels) :
    (write_layer_images_ view file).map write_request.ranges
      = (List.range' view.base_layer view.layers).flatMap fun layer =>
          (List.range' view.base_face view.faces).flatMap fun face =>
            (List.range' view.base_level view.levels).map fun level =>
              ((layer, 1), (face, 1), (level, 1)) := by
  unfold write_layer_images_
  split
  · have h1 : view.layers = 1 := by omega
    rw [write_face_images_ranges view file hf hm, h1, List.range'_one, List.flatMap_singleton]
  · exact map_flatMap_eq _ _ _ _ fun layer _ => write_face_images_ranges _ _ hf hm

theorem ranges_eq_of_coordinates (view : TextureView) :
    ((List.range' view.base_layer view.layers).flatMap fun layer =>
      (List.range' view.base_face view.faces).flatMap fun face =>
        (List.range' view.base_level view.levels).map fun level =>
          (((layer, 1), (face, 1), (level, 1)) : (Nat × Nat) × (Nat × Nat) × (Nat × Nat)))
      = (selection_coordinates view).map fun c => ((c.1, 1), (c.2.1, 1), (c.2.2, 1)) := by
  unfold selection_coordinates
  symm
  refine map_flatMap_eq _ _ _ _ fun layer _ => ?_
  refine map_flatMap_eq _ _ _ _ fun face _ => ?_
  rw [List.map_map]
  rfl

/-! ### The minima of the scan -/

theorem scan_visit_min_le (ts : TextureStorageTraits) (idx : Nat) (input : input_)
    (s : scan_state) (img : ImageView) :
    (scan_visit ts idx input s img).min_layer ≤ s.min_layer ∧
    (scan_visit ts idx input s img).min_face ≤ s.min_face ∧
    (scan_visit ts idx input s img).min_level ≤ s.min_level := by
  unfold scan_visit
  simp only []
  split
  · exact ⟨le_refl _, le_refl _, le_refl _⟩
  · exact ⟨min_le_left _ _, min_le_left _ _, min_le_left _ _⟩

theorem scan_visit_min_accepted (ts : TextureStorageTraits) (idx : Nat) (input : input_)
    (s : scan_state) (img : ImageView) (h : accepted ts input img = true) :
    (scan_visit ts idx input s img).min_layer ≤ input.dest_layer + img.layer ∧
    (scan_visit ts idx input s img).min_face ≤ input.dest_face + img.face ∧
    (scan_visit ts idx input s img).min_level ≤ input.dest_level + img.level := by
  unfold scan_visit
  simp only [accepted, decide_eq_true_eq] at h
  simp only []
  rw [if_neg (by omega)]
  exact ⟨le_trans (min_le_right _ _) (Nat.mod_le _ _),
    le_trans (min_le_right _ _) (Nat.mod_le _ _), le_trans (min_le_right _ _) (Nat.mod_le _ _)⟩

theorem scan_visit_foldl_min (ts : TextureStorageTraits) (idx : Nat) (input : input_)
    (imgs : List ImageView) (s : scan_state) :
    ((imgs.foldl (scan_visit ts idx input) s).min_layer ≤ s.min_layer ∧
      (imgs.foldl (scan_visit ts idx input) s).min_face ≤ s.min_face ∧
      (imgs.foldl (scan_visit ts idx input) s).min_level ≤ s.min_level) ∧
    ∀ img ∈ imgs, accepted ts input img = true →
      (imgs.foldl (scan_visit ts idx input) s).min_layer ≤ input.dest_layer + img.layer ∧
      (imgs.foldl (scan_visit ts idx input) s).min_face ≤ input.dest_face + img.face ∧
      (imgs.foldl (scan_visit ts idx input) s).min_level ≤ input.dest_level + img.level := by
  induction imgs generalizing s with
  | nil => exact ⟨⟨le_refl _, le_refl _, le_refl _⟩, fun img h => absurd h (List.not_mem_nil _)⟩
  | cons img rest ih =>
    rw [List.foldl_cons]
    obtain ⟨⟨a1, a2, a3⟩, hall⟩ := ih (scan_visit ts idx input s img)
    obtain ⟨b1, b2, b3⟩ := scan_visit_min_le ts idx input s img
    refine ⟨⟨le_trans a1 b1, le_trans a2 b2, le_trans a3 b3⟩, ?_⟩
    intro img' hmem hacc
    rcases List.mem_cons.1 hmem with rfl | hrest
    · obtain ⟨c1, c2, c3⟩ := scan_visit_min_accepted ts idx input s img' hacc
      exact ⟨le_trans a1 c1, le_trans a2 c2, le_trans a3 c3⟩
    · exact hall img' hrest hacc

/-- The minima after the scan are lower bounds of the destinations of the
accepted images, and do not exceed the minima before. -/
theorem scan_from_min (ts : TextureStorageTraits) (idx : Nat) (inputs : List input_)
    (s : scan_state) :
    ((scan_from ts idx inputs s).min_layer ≤ s.min_layer ∧
      (scan_from ts idx inputs s).min_face ≤ s.min_face ∧
      (scan_from ts idx inputs s).min_level ≤ s.min_level) ∧
    ∀ e ∈ encounter_from ts idx inputs,
      (scan_from ts idx inputs s).min_layer ≤ e.1.1 ∧
      (scan_from ts idx inputs s).min_face ≤ e.1.2.1 ∧
      (scan_from ts idx inputs s).min_level ≤ e.1.2.2 := by
  induction inputs generalizing idx s with
  | nil => exact ⟨⟨le_refl _, le_refl _, le_refl _⟩, fun e h => absurd h (List.not_mem_nil _)⟩
  | cons input rest ih =>
    rw [scan_from, encounter_from]
    obtain ⟨⟨a1, a2, a3⟩, hall⟩ :=
      ih (idx + 1) (input.texture.images.foldl (scan_visit ts idx input) s)
    obtain ⟨⟨b1, b2, b3⟩, hfirst⟩ := scan_visit_foldl_min ts idx input input.texture.images s
    refine ⟨⟨le_trans a1 b1, le_trans a2 b2, le_trans a3 b3⟩, ?_⟩
    intro e he
    rcases List.mem_append.1 he with h | h
    · obtain ⟨img, himg, rfl⟩ := List.mem_map.1 h
      obtain ⟨hmem, hacc⟩ := List.mem_filter.1 himg
      obtain ⟨c1, c2, c3⟩ := hfirst img hmem hacc
      exact ⟨le_trans a1 c1, le_trans a2 c2, le_trans a3 c3⟩
    · exact hall e h

theorem scan_min_le_max (ts : TextureStorageTraits) (hw : ts.WellFormed)
    (inputs : List input_) (hne : encounter ts inputs ≠ []) :
    (scan ts inputs).min_layer ≤ (scan ts inputs).max_layer ∧
    (scan ts inputs).min_face ≤ (scan ts inputs).max_face ∧
    (scan ts inputs).min_level ≤ (scan ts inputs).max_level := by
  obtain ⟨⟨_, m1⟩, ⟨_, m2⟩, ⟨_, m3⟩⟩ := scan_max_spec ts hw inputs hne
  cases henc : encounter ts inputs with
  | nil => exact absurd henc hne
  | cons a rest =>
    have ha : a ∈ encounter ts inputs := by
      rw [henc]
      exact List.mem_cons_self _ _
    obtain ⟨n1, n2, n3⟩ := (scan_from_min ts 0 inputs (scan_init ts)).2 a ha
    exact ⟨le_trans n1 (m1 a ha), le_trans n2 (m2 a ha), le_trans n3 (m3 a ha)⟩

theorem min_level_le_final (ts : TextureStorageTraits) (hw : ts.WellFormed)
    (inputs : List input_) (recorded : ivec3) (hne : encounter ts inputs ≠ []) :
    (scan ts inputs).min_level ≤ final_max_level ts (scan ts inputs) recorded := by
  have h3 := (scan_min_le_max ts hw inputs hne).2.2
  have hmax := (scan_max_legal ts inputs hne).2.2
  have hb := hw.max_levels_lt
  simp only [] at hmax
  unfold final_max_level trim_levels
  split
  · have h1 := expected_levels_pos ts hw (final_base_dim (scan ts inputs) recorded)
    simp only []
    rw [Nat.mod_eq_of_lt (by omega)]
    omega
  · exact h3

theorem encounter_from_ne_nil_iff (ts : TextureStorageTraits) (idx : Nat)
    (inputs : List input_) :
    encounter_from ts idx inputs ≠ [] ↔
      ∃ input ∈ inputs, ∃ img ∈ input.texture.images, accepted ts input img = true := by
  induction inputs generalizing idx with
  | nil => simp [encounter_from]
  | cons input rest ih =>
    rw [encounter_from, Ne, List.append_eq_nil, not_and_or, List.map_eq_nil_iff,
      List.filter_eq_nil_iff]
    constructor
    · rintro (h | h)
      · push_neg at h
        obtain ⟨img, himg, hacc⟩ := h
        exact ⟨input, List.mem_cons_self _ _, img, himg, hacc⟩
      · obtain ⟨i, hi, img, himg, hacc⟩ := (ih (idx + 1)).1 h
        exact ⟨i, List.mem_cons_of_mem _ hi, img, himg, hacc⟩
    · rintro ⟨i, hi, img, himg, hacc⟩
      rcases List.mem_cons.1 hi with rfl | hrest
      · left
        push_neg
        exact ⟨img, himg, hacc⟩
      · right
        exact (ih (idx + 1)).2 ⟨i, hrest, img, himg, hacc⟩

theorem make_texture_no_base (ts : TextureStorageTraits) (gfx : GfxTraits) (cfg : settings_)
    (alloc_ok : Bool) (app : AppState) (inputs : List input_)
    (h : (scan ts inputs).base = none) :
    (make_texture_ ts gfx cfg alloc_ok app inputs).texture = none := by
  unfold make_texture_
  simp only [h]

/-! ### The correction of the base dimensions undone by the reduction -/

theorem mipmap_half_scaled (c : Int) (k : Nat) (hc : 1 ≤ c) :
    mipmap_half (if c > 1 then c * 2 ^ (k + 1) else c) = if c > 1 then c * 2 ^ k else c := by
  unfold mipmap_half
  by_cases h : c > 1
  · rw [if_pos h, if_pos h]
    have hp : (0 : Int) < 2 ^ k := by positivity
    have hbig : c * 2 ^ (k + 1) > 1 := by
      rw [pow_succ]
      nlinarith
    rw [if_pos hbig, pow_succ, ← mul_assoc]
    exact Int.mul_ediv_cancel _ (by norm_num)
  · have h1 : c = 1 := by omega
    rw [if_neg h, if_neg h, if_neg (by omega)]

theorem mipmap_dim_scaled (d : ivec3) (k : Nat) (hx : 1 ≤ d.x) (hy : 1 ≤ d.y) (hz : 1 ≤ d.z) :
    mipmap_dim { x := if d.x > 1 then d.x * 2 ^ k else d.x,
                 y := if d.y > 1 then d.y * 2 ^ k else d.y,
                 z := if d.z > 1 then d.z * 2 ^ k else d.z } k = d := by
  induction k with
  | zero =>
    simp only [pow_zero, mul_one, ite_self]
    rfl
  | succ k ih =>
    rw [mipmap_dim]
    unfold mipmap_step
    simp only []
    rw [mipmap_half_scaled d.x k hx, mipmap_half_scaled d.y k hy, mipmap_half_scaled d.z k hz]
    exact ih

theorem mipmap_dim_correct_base_dim (d : ivec3) (k : Nat)
    (hd : 1 ≤ d.x ∧ 1 ≤ d.y ∧ 1 ≤ d.z)
    (hfit : (1 < d.x → d.x * 2 ^ k < 2 ^ 31) ∧ (1 < d.y → d.y * 2 ^ k < 2 ^ 31) ∧
      (1 < d.z → d.z * 2 ^ k < 2 ^ 31)) :
    mipmap_dim (correct_base_dim d k) k = d := by
  unfold correct_base_dim
  rw [correct_component_of_fits d.x k hfit.1, correct_component_of_fits d.y k hfit.2.1,
    correct_component_of_fits d.z k hfit.2.2]
  exact mipmap_dim_scaled d k hd.1 hd.2.1 hd.2.2

/-! ### The names given by the slicer -/

theorem write_level_images_paths (view : TextureView) (file : output_file_)
    (hm : 1 ≤ view.levels) :
    (write_level_images_ view file).map write_request.path
      = (List.range' view.base_level view.levels).map fun level =>
          { file.path with
            stem := file.path.stem ++ axis_suffix view.levels "-level" level } := by
  unfold write_level_images_ axis_suffix
  split
  · rename_i h
    have h1 : view.levels = 1 := by omega
    rw [h1, List.range'_one]
    simp only [List.map_cons, List.map_nil, output_file_.request, gt_iff_lt,
      lt_self_iff_false, if_false, String.append_empty]
  · rename_i h
    have hgt : view.levels > 1 := by omega
    simp only [List.map_map, hgt, if_true, output_file_.request,
      output_file_.with_suffix, String.append_assoc]
    rfl

theorem write_face_images_paths (view : TextureView) (file : output_file_)
    (hf : 1 ≤ view.faces) (hm : 1 ≤ view.levels) :
    (write_face_images_ view file).map write_request.path
      = (List.range' view.base_face view.faces).flatMap fun face =>
          (List.range' view.base_level view.levels).map fun level =>
            { file.path with
              stem := file.path.stem ++ axis_suffix view.faces "-face" face ++
                axis_suffix view.levels "-level" level } := by
  unfold write_face_images_
  split
  · rename_i h
    have h1 : view.faces = 1 := by omega
    rw [write_level_images_paths view file hm, h1, List.range'_one, List.flatMap_singleton]
    simp only [axis_suffix, gt_iff_lt, lt_self_iff_false, if_false, String.append_empty]
  · rename_i h
    have hgt : view.faces > 1 := by omega
    refine map_flatMap_eq _ _ _ _ fun face _ => ?_
    rw [write_level_images_paths
      (view.window view.base_layer view.layers face 1 view.base_level view.levels)
      (file.with_suffix "-face" face) hm]
    simp only [TextureView.window, output_file_.with_suffix, axis_suffix, hgt, if_true,
      String.append_assoc]

theorem sliced_paths_eq (view : TextureView) (path : Path) :
    (selection_coordinates view).map (sliced_path view path)
      = (List.range' view.base_layer view.layers).flatMap fun layer =>
          (List.range' view.base_face view.faces).flatMap fun face =>
            (List.range' view.base_level view.levels).map fun level =>
              sliced_path view path (layer, face, level) := by
  unfold selection_coordinates
  refine map_flatMap_eq _ _ _ _ fun layer _ => ?_
  refine map_flatMap_eq _ _ _ _ fun face _ => ?_
  rw [List.map_map]
  rfl

theorem write_layer_images_paths (view : TextureView) (file : output_file_)
    (hl : 1 ≤ view.layers) (hf : 1 ≤ view.faces) (hm : 1 ≤ view.levels) :
    (write_layer_images_ view file).map write_request.path
      = (selection_coordinates view).map (sliced_path view file.path) := by
  rw [sliced_paths_eq]
  unfold write_layer_images_
  split
  · rename_i h
    have h1 : view.layers = 1 := by omega
    rw [write_face_images_paths view file hf hm, h1, List.range'_one, List.flatMap_singleton]
    simp only [sliced_path, axis_suffix, h1, gt_iff_lt, lt_self_iff_false, if_false,
      String.append_empty]
  · rename_i h
    have hgt : view.layers > 1 := by omega
    refine map_flatMap_eq _ _ _ _ fun layer _ => ?_
    rw [write_face_images_paths
      (view.window layer 1 view.base_face view.faces view.base_level view.levels)
      (file.with_suffix "-layer" layer) hf hm]
    simp only [sliced_path, TextureView.window, output_file_.with_suffix, axis_suffix, hgt,
      if_true, String.append_assoc]

/-! ### Decimal digits -/

theorem digitChar_isDigit (d : Nat) (h : d < 10) : (Nat.digitChar d).isDigit = true := by
  interval_cases d <;> decide

theorem digitChar_value (d : Nat) (h : d < 10) : (Nat.digitChar d).toNat - 48 = d := by
  interval_cases d <;> decide

theorem toDigitsCore_append (fuel n : Nat) (ds : List Char) :
    Nat.toDigitsCore 10 fuel n ds = Nat.toDigitsCore 10 fuel n [] ++ ds := by
  induction fuel generalizing n ds with
  | zero => simp [Nat.toDigitsCore]
  | succ f ih =>
    simp only [Nat.toDigitsCore]
    split
    · simp
    · rw [ih (n / 10) (_ :: ds), ih (n / 10) [_]]
      simp

theorem toDigitsCore_all_digits (fuel n : Nat) (ds : List Char)
    (h : ∀ c ∈ ds, c.isDigit = true) :
    ∀ c ∈ Nat.toDigitsCore 10 fuel n ds, c.isDigit = true := by
  induction fuel generalizing n ds with
  | zero => simpa [Nat.toDigitsCore] using h
  | succ f ih =>
    have hd : ∀ c ∈ Nat.digitChar (n % 10) :: ds, c.isDigit = true := by
      intro c hc
      rcases List.mem_cons.1 hc with rfl | hc
      · exact digitChar_isDigit _ (Nat.mod_lt _ (by norm_num))
      · exact h c hc
    simp only [Nat.toDigitsCore]
    split
    · exact hd
    · exact ih _ _ hd

theorem toDigits_all_digits (n : Nat) : ∀ c ∈ Nat.toDigits 10 n, c.isDigit = true :=
  toDigitsCore_all_digits _ _ [] (fun _ h => absurd h (List.not_mem_nil _))

theorem toDigitsCore_ne_nil (fuel n : Nat) : Nat.toDigitsCore 10 (fuel + 1) n [] ≠ [] := by
  simp only [Nat.toDigitsCore]
  split
  · simp
  · rw [toDigitsCore_append]
    simp

theorem toDigits_ne_nil (n : Nat) : Nat.toDigits 10 n ≠ [] := toDigitsCore_ne_nil n n

theorem parse_digits_append_singleton (xs : List Char) (c : Char) :
    parse_digits (xs ++ [c]) = 10 * parse_digits xs + (c.toNat - 48) := by
  unfold parse_digits
  rw [List.foldl_append]
  rfl

theorem parse_toDigitsCore (fuel n : Nat) (h : n < fuel) :
    parse_digits (Nat.toDigitsCore 10 fuel n []) = n := by
  induction fuel generalizing n with
  | zero => omega
  | succ f ih =>
    simp only [Nat.toDigitsCore]
    split
    · rename_i h0
      have : n % 10 = n := Nat.mod_eq_of_lt (by omega)
      rw [this]
      show 10 * 0 + ((Nat.digitChar n).toNat - 48) = n
      rw [digitChar_value n (by omega)]
      omega
    · rename_i h0
      rw [toDigitsCore_append, parse_digits_append_singleton, ih (n / 10) (by omega),
        digitChar_value _ (Nat.mod_lt _ (by norm_num))]
      omega

/-- Reading the decimal digits written for a number gives the number back. -/
theorem parse_toDigits (n : Nat) : parse_digits (Nat.toDigits 10 n) = n :=
  parse_toDigitsCore (n + 1) n (by omega)

theorem toDigits_inj (a b : Nat) (h : Nat.toDigits 10 a = Nat.toDigits 10 b) : a = b := by
  rw [← parse_toDigits a, ← parse_toDigits b, h]

theorem toString_data (n : Nat) : (toString n).data = Nat.toDigits 10 n := rfl

/-- Two texts made of digits followed by something that does not begin with
a digit are equal only when the digits and the rests are. -/
theorem digits_then_rest (ds ds' rest rest' : List Char)
    (hd : ∀ c ∈ ds, c.isDigit = true) (hd' : ∀ c ∈ ds', c.isDigit = true)
    (hr : no_leading_digit rest) (hr' : no_leading_digit rest')
    (h : ds ++ rest = ds' ++ rest') : ds = ds' ∧ rest = rest' := by
  induction ds generalizing ds' with
  | nil =>
    cases ds' with
    | nil => exact ⟨rfl, h⟩
    | cons c t =>
      exfalso
      have h1 := hr c (t ++ rest') h
      rw [hd' c (List.mem_cons_self _ _)] at h1
      exact Bool.noConfusion h1
  | cons c t ih =>
    cases ds' with
    | nil =>
      exfalso
      have h1 := hr' c (t ++ rest) h.symm
      rw [hd c (List.mem_cons_self _ _)] at h1
      exact Bool.noConfusion h1
    | cons c' t' =>
      rw [List.cons_append, List.cons_append] at h
      injection h with hc ht
      obtain ⟨e1, e2⟩ := ih t' (fun x hx => hd x (List.mem_cons_of_mem _ hx))
        (fun x hx => hd' x (List.mem_cons_of_mem _ hx)) ht
      exact ⟨by rw [hc, e1], e2⟩

theorem axis_suffix_data (count : Nat) (name : String) (index : Nat) :
    (axis_suffix count name index).data
      = if count > 1 then name.data ++ Nat.toDigits 10 index else [] := by
  unfold axis_suffix
  split
  · rw [String.data_append]
    rfl
  · rfl

theorem axis_suffix_no_leading_digit (count : Nat) (name : String) (index : Nat)
    (rest w : List Char) (hname : name.data = '-' :: w) (hr : no_leading_digit rest) :
    no_leading_digit ((axis_suffix count name index).data ++ rest) := by
  rw [axis_suffix_data]
  split
  · intro c r h
    rw [hname] at h
    injection h with hc _
    rw [← hc]
    decide
  · exact hr

/-- The suffix of an axis can be read back from a name: equal names have equal
indices on the axis and equal continuations. -/
theorem axis_suffix_cancel (count : Nat) (name : String) (i j : Nat)
    (rest rest' : List Char)
    (hr : no_leading_digit rest) (hr' : no_leading_digit rest')
    (hone : count ≤ 1 → i = j)
    (h : (axis_suffix count name i).data ++ rest = (axis_suffix count name j).data ++ rest') :
    i = j ∧ rest = rest' := by
  rw [axis_suffix_data, axis_suffix_data] at h
  by_cases hc : count > 1
  · rw [if_pos hc, if_pos hc, List.append_assoc, List.append_assoc] at h
    obtain ⟨e1, e2⟩ := digits_then_rest _ _ _ _ (toDigits_all_digits i) (toDigits_all_digits j)
      hr hr' (List.append_cancel_left h)
    exact ⟨toDigits_inj i j e1, e2⟩
  · rw [if_neg hc, if_neg hc] at h
    exact ⟨hone (by omega), h⟩

theorem mem_selection_coordinates (view : TextureView) (c : Nat × Nat × Nat) :
    c ∈ selection_coordinates view ↔
      c.1 ∈ List.range' view.base_layer view.layers ∧
      c.2.1 ∈ List.range' view.base_face view.faces ∧
      c.2.2 ∈ List.range' view.base_level view.levels := by
  unfold selection_coordinates
  simp only [List.mem_flatMap, List.mem_map]
  constructor
  · rintro ⟨l, hl, f, hf, v, hv, rfl⟩
    exact ⟨hl, hf, hv⟩
  · rintro ⟨hl, hf, hv⟩
    exact ⟨c.1, hl, c.2.1, hf, c.2.2, hv, rfl⟩

theorem mem_range'_one_count (b n x : Nat) (h : x ∈ List.range' b n) (hn : n ≤ 1) : x = b := by
  rw [List.mem_range'_1] at h
  omega

/-- Two coordinates of a selection with the same name are the same. -/
theorem sliced_path_inj (view : TextureView) (path : Path) (c c' : Nat × Nat × Nat)
    (hc : c ∈ selection_coordinates view) (hc' : c' ∈ selection_coordinates view)
    (h : sliced_path view path c = sliced_path view path c') : c = c' := by
  obtain ⟨a1, a2, a3⟩ := (mem_selection_coordinates view c).1 hc
  obtain ⟨b1, b2, b3⟩ := (mem_selection_coordinates view c').1 hc'
  have hs := congrArg (fun p => p.stem.data) h
  simp only [sliced_path, String.data_append, List.append_assoc] at hs
  have hnil : no_leading_digit [] := fun c r h => by cases h
  have h3 : no_leading_digit ((axis_suffix view.levels "-level" c.2.2).data ++ []) :=
    axis_suffix_no_leading_digit _ _ _ _ _ rfl hnil
  have h3' : no_leading_digit ((axis_suffix view.levels "-level" c'.2.2).data ++ []) :=
    axis_suffix_no_leading_digit _ _ _ _ _ rfl hnil
  rw [List.append_nil] at h3 h3'
  have h2 := axis_suffix_no_leading_digit view.faces "-face" c.2.1 _ _ rfl h3
  have h2' := axis_suffix_no_leading_digit view.faces "-face" c'.2.1 _ _ rfl h3'
  obtain ⟨e1, r1⟩ := axis_suffix_cancel view.layers "-layer" c.1 c'.1 _ _ h2 h2'
    (fun hle => by
      rw [mem_range'_one_count _ _ _ a1 hle, mem_range'_one_count _ _ _ b1 hle])
    (List.append_cancel_left hs)
  obtain ⟨e2, r2⟩ := axis_suffix_cancel view.faces "-face" c.2.1 c'.2.1 _ _ h3 h3'
    (fun hle => by
      rw [mem_range'_one_count _ _ _ a2 hle, mem_range'_one_count _ _ _ b2 hle])
    r1
  obtain ⟨e3, _⟩ := axis_suffix_cancel view.levels "-level" c.2.2 c'.2.2 [] [] hnil hnil
    (fun hle => by
      rw [mem_range'_one_count _ _ _ a3 hle, mem_range'_one_count _ _ _ b3 hle])
    (by rw [List.append_nil, List.append_nil]; exact r2)
  exact Prod.ext e1 (Prod.ext e2 e3)

theorem write_layer_images_coordinates (view : TextureView) (file : output_file_)
    (hl : 1 ≤ view.layers) (hf : 1 ≤ view.faces) (hm : 1 ≤ view.levels) :
    (write_layer_images_ view file).map write_request.coordinate
      = selection_coordinates view := by
  have hr := write_layer_images_ranges view file hl hf hm
  rw [ranges_eq_of_coordinates] at hr
  have h := congrArg (List.map fun (t : (Nat × Nat) × (Nat × Nat) × (Nat × Nat)) =>
    (t.1.1, t.2.1.1, t.2.2.1)) hr
  rw [List.map_map, List.map_map] at h
  have h2 : (selection_coordinates view).map
      ((fun (t : (Nat × Nat) × (Nat × Nat) × (Nat × Nat)) => (t.1.1, t.2.1.1, t.2.2.1)) ∘
        fun c => ((c.1, 1), (c.2.1, 1), (c.2.2, 1))) = selection_coordinates view :=
    List.map_id _
  rw [h2] at h
  exact h

theorem write_layer_images_single (view : TextureView) (file : output_file_)
    (hl : 1 ≤ view.layers) (hf : 1 ≤ view.faces) (hm : 1 ≤ view.levels) :
    ∀ r ∈ write_layer_images_ view file,
      r.view.layers = 1 ∧ r.view.faces = 1 ∧ r.view.levels = 1 := by
  intro r hmem
  have hmem2 : r.ranges ∈ (write_layer_images_ view file).map write_request.ranges :=
    List.mem_map_of_mem _ hmem
  rw [write_layer_images_ranges view file hl hf hm, ranges_eq_of_coordinates] at hmem2
  obtain ⟨c, _, hcr⟩ := List.mem_map.1 hmem2
  have e1 := congrArg (fun t => t.1.2) hcr
  have e2 := congrArg (fun t => t.2.1.2) hcr
  have e3 := congrArg (fun t => t.2.2.2) hcr
  exact ⟨e1.symm, e2.symm, e3.symm⟩

/-! ### The search for an index in a file name -/

theorem takeWhile_digit_append_nil (a b : List Char) (ha : a.takeWhile Char.isDigit = [])
    (hb : no_leading_digit b) : (a ++ b).takeWhile Char.isDigit = [] := by
  cases a with
  | nil =>
    cases b with
    | nil => rfl
    | cons c r =>
      rw [List.nil_append, List.takeWhile_cons, hb c r rfl]
      rfl
  | cons c r =>
    rw [List.takeWhile_cons] at ha
    rw [List.cons_append, List.takeWhile_cons]
    cases hc : c.isDigit
    · rfl
    · rw [hc] at ha
      simp at ha

theorem capture_digits_append_none (a b : List Char) (ha : capture_digits a = none)
    (hb : no_leading_digit b) : capture_digits (a ++ b) = none := by
  unfold capture_digits at ha ⊢
  split at ha
  · rename_i h
    rw [if_pos (takeWhile_digit_append_nil a b h hb)]
  · cases ha

theorem skip_literal_append_none (lit a b : List Char)
    (ha : (skip_literal lit a).bind capture_digits = none)
    (hb : ∀ c r, b = c :: r → c.isDigit = false ∧ c.toLower ∉ lit) :
    (skip_literal lit (a ++ b)).bind capture_digits = none := by
  induction lit generalizing a with
  | nil =>
    simp only [skip_literal, Option.bind_some] at ha ⊢
    exact capture_digits_append_none a b ha (fun c r h => (hb c r h).1)
  | cons p ps ih =>
    cases a with
    | nil =>
      cases b with
      | nil => rfl
      | cons c r =>
        have := (hb c r rfl).2
        simp only [List.nil_append, skip_literal]
        rw [if_neg (fun h => this (by rw [h]; exact List.mem_cons_self _ _))]
        rfl
    | cons c cs =>
      simp only [List.cons_append, skip_literal] at ha ⊢
      split
      · rename_i h
        rw [if_pos h] at ha
        exact ih cs ha (fun c r h => ⟨(hb c r h).1, fun hm => (hb c r h).2 (List.mem_cons_of_mem _ hm)⟩)
      · rfl

theorem match_here_append_none (short long a b : List Char) (hne : a ≠ [])
    (ha : match_here short long a = none) (hb : inert_start short long b) :
    match_here short long (a ++ b) = none := by
  cases a with
  | nil => exact absurd rfl hne
  | cons c rest =>
    simp only [List.cons_append, match_here] at ha ⊢
    split
    · rename_i hc
      rw [if_pos hc] at ha
      have h1 : (skip_literal short rest).bind capture_digits = none := by
        cases h : (skip_literal short rest).bind capture_digits with
        | none => rfl
        | some d => rw [h] at ha; cases ha
      have h2 : (skip_literal long rest).bind capture_digits = none := by
        rw [h1] at ha
        exact ha
      rw [skip_literal_append_none short rest b h1 (fun c r h => ⟨(hb c r h).1, (hb c r h).2.1⟩),
        skip_literal_append_none long rest b h2 (fun c r h => ⟨(hb c r h).1, (hb c r h).2.2⟩)]
    · rfl

theorem match_here_dash (short long b : List Char) (h : match_here short long b ≠ none) :
    ∃ r, b = '-' :: r := by
  cases b with
  | nil => exact absurd rfl h
  | cons c r =>
    by_cases hc : c = '-'
    · exact ⟨r, by rw [hc]⟩
    · simp [match_here, hc] at h

/-- A name without a match followed by a text the pattern cannot run into has
its first match in that text. -/
theorem regex_search_append (short long a b : List Char)
    (ha : regex_search short long a = none) (hb : inert_start short long b) :
    regex_search short long (a ++ b) = regex_search short long b := by
  induction a with
  | nil => rfl
  | cons c rest ih =>
    rw [regex_search] at ha
    have hm : match_here short long (c :: rest) = none := by
      cases h : match_here short long (c :: rest) with
      | none => rfl
      | some d => rw [h] at ha; cases ha
    rw [hm] at ha
    rw [List.cons_append, regex_search, ← List.cons_append,
      match_here_append_none short long (c :: rest) b (List.cons_ne_nil _ _) hm hb]
    exact ih ha

theorem regex_search_skip (short long a b : List Char) (ha : ∀ c ∈ a, c ≠ '-') :
    regex_search short long (a ++ b) = regex_search short long b := by
  induction a with
  | nil => rfl
  | cons c rest ih =>
    rw [List.cons_append, regex_search]
    have : match_here short long (c :: (rest ++ b)) = none := by
      simp [match_here, ha c (List.mem_cons_self _ _)]
    rw [this]
    exact ih (fun x hx => ha x (List.mem_cons_of_mem _ hx))

theorem takeWhile_digits_append (ds b : List Char) (hd : ∀ c ∈ ds, c.isDigit = true)
    (hb : no_leading_digit b) : (ds ++ b).takeWhile Char.isDigit = ds := by
  induction ds with
  | nil =>
    cases b with
    | nil => rfl
    | cons c r =>
      rw [List.nil_append, List.takeWhile_cons, hb c r rfl]
      rfl
  | cons c r ih =>
    rw [List.cons_append, List.takeWhile_cons, hd c (List.mem_cons_self _ _)]
    simp only [if_true]
    rw [ih (fun x hx => hd x (List.mem_cons_of_mem _ hx))]

theorem capture_digits_append (ds b : List Char) (hd : ∀ c ∈ ds, c.isDigit = true)
    (hne : ds ≠ []) (hb : no_leading_digit b) : capture_digits (ds ++ b) = some ds := by
  unfold capture_digits
  rw [takeWhile_digits_append ds b hd hb, if_neg hne]

theorem digit_ne_dash (c : Char) (h : c.isDigit = true) : c ≠ '-' := by
  rintro rfl
  exact absurd h (by decide)

theorem dash_inert (short long w : List Char) (hs : '-' ∉ short) (hl : '-' ∉ long) :
    inert_start short long ('-' :: w) := by
  intro c r h
  injection h with hc _
  subst hc
  exact ⟨by decide, hs, hl⟩

theorem capture_digits_cons_none (c : Char) (x : List Char) (h : c.isDigit = false) :
    capture_digits (c :: x) = none := by
  unfold capture_digits
  rw [List.takeWhile_cons, h]
  rfl

theorem layer_here (dl rest : List Char)
    (hd : ∀ c ∈ dl, c.isDigit = true) (hne : dl ≠ []) (hr : no_leading_digit rest) :
    layer_regex ("-layer".data ++ (dl ++ rest)) = some dl := by
  unfold layer_regex
  show regex_search _ _ ('-' :: 'l' :: 'a' :: 'y' :: 'e' :: 'r' :: (dl ++ rest)) = _
  rw [regex_search]
  have h1 : capture_digits ('a' :: 'y' :: 'e' :: 'r' :: (dl ++ rest)) = none :=
    capture_digits_cons_none _ _ (by decide)
  simp [match_here, skip_literal, h1, capture_digits_append dl rest hd hne hr]

theorem layer_found (stem dl rest : List Char) (hs : layer_regex stem = none)
    (hd : ∀ c ∈ dl, c.isDigit = true) (hne : dl ≠ []) (hr : no_leading_digit rest) :
    layer_regex (stem ++ ("-layer".data ++ (dl ++ rest))) = some dl := by
  rw [← layer_here dl rest hd hne hr]
  exact regex_search_append _ _ _ _ hs (dash_inert _ _ _ (by decide) (by decide))

theorem face_here (dl rest : List Char)
    (hd : ∀ c ∈ dl, c.isDigit = true) (hne : dl ≠ []) (hr : no_leading_digit rest) :
    face_regex ("-face".data ++ (dl ++ rest)) = some dl := by
  unfold face_regex
  show regex_search _ _ ('-' :: 'f' :: 'a' :: 'c' :: 'e' :: (dl ++ rest)) = _
  rw [regex_search]
  have h1 : capture_digits ('a' :: 'c' :: 'e' :: (dl ++ rest)) = none :=
    capture_digits_cons_none _ _ (by decide)
  simp [match_here, skip_literal, h1, capture_digits_append dl rest hd hne hr]

theorem level_here (dl rest : List Char)
    (hd : ∀ c ∈ dl, c.isDigit = true) (hne : dl ≠ []) (hr : no_leading_digit rest) :
    level_regex ("-level".data ++ (dl ++ rest)) = some dl := by
  unfold level_regex
  show regex_search _ _ ('-' :: 'l' :: 'e' :: 'v' :: 'e' :: 'l' :: (dl ++ rest)) = _
  rw [regex_search]
  simp [match_here, skip_literal, capture_digits_append dl rest hd hne hr]

/-- A suffix `-name<digits>` that a pattern does not match at its dash is
passed over by the search. -/
theorem regex_search_pass (short long w dl rest : List Char)
    (h0 : match_here short long ('-' :: (w ++ (dl ++ rest))) = none)
    (hw : ∀ c ∈ w, c ≠ '-') (hd : ∀ c ∈ dl, c.isDigit = true) :
    regex_search short long ('-' :: (w ++ (dl ++ rest))) = regex_search short long rest := by
  rw [regex_search, h0]
  show regex_search short long (w ++ (dl ++ rest)) = _
  rw [regex_search_skip _ _ _ _ hw,
    regex_search_skip _ _ _ _ (fun c hc => digit_ne_dash c (hd c hc))]

theorem dash_no_leading_digit (w : List Char) : no_leading_digit ('-' :: w) := by
  intro c r h
  injection h with hc _
  rw [← hc]
  decide

theorem face_found (stem dl df rest : List Char) (hs : face_regex stem = none)
    (hdl : ∀ c ∈ dl, c.isDigit = true) (hdf : ∀ c ∈ df, c.isDigit = true) (hne : df ≠ [])
    (hr : no_leading_digit rest) :
    face_regex (stem ++ ("-layer".data ++ (dl ++ ("-face".data ++ (df ++ rest))))) = some df := by
  rw [← face_here df rest hdf hne hr]
  have hin : inert_start "f".data "face".data
      ("-layer".data ++ (dl ++ ("-face".data ++ (df ++ rest)))) :=
    dash_inert _ _ ("layer".data ++ (dl ++ ("-face".data ++ (df ++ rest))))
      (by decide) (by decide)
  exact (regex_search_append _ _ _ _ hs hin).trans
    (regex_search_pass _ _ "layer".data dl _ (by simp [match_here, skip_literal])
      (by decide) hdl)

theorem level_found (stem dl df dm rest : List Char) (hs : level_regex stem = none)
    (hdl : ∀ c ∈ dl, c.isDigit = true) (hdf : ∀ c ∈ df, c.isDigit = true)
    (hdm : ∀ c ∈ dm, c.isDigit = true) (hne : dm ≠ []) (hr : no_leading_digit rest) :
    level_regex (stem ++ ("-layer".data ++ (dl ++ ("-face".data ++ (df ++
      ("-level".data ++ (dm ++ rest))))))) = some dm := by
  rw [← level_here dm rest hdm hne hr]
  have hin : inert_start "m".data "level".data
      ("-layer".data ++ (dl ++ ("-face".data ++ (df ++ ("-level".data ++ (dm ++ rest)))))) :=
    dash_inert _ _ ("layer".data ++ (dl ++ ("-face".data ++ (df ++
      ("-level".data ++ (dm ++ rest)))))) (by decide) (by decide)
  exact ((regex_search_append _ _ _ _ hs hin).trans
    (regex_search_pass _ _ "layer".data dl _ (by simp [match_here, skip_literal])
      (by decide) hdl)).trans
    (regex_search_pass _ _ "face".data df _ (by simp [match_here, skip_literal])
      (by decide) hdf)

/-- No pattern matches the suffix written for another axis. -/
theorem suffix_not_matched (dl : List Char) (hdl : ∀ c ∈ dl, c.isDigit = true) :
    face_regex ("-layer".data ++ dl) = none ∧ level_regex ("-layer".data ++ dl) = none ∧
    layer_regex ("-face".data ++ dl) = none ∧ level_regex ("-face".data ++ dl) = none ∧
    layer_regex ("-level".data ++ dl) = none ∧ face_regex ("-level".data ++ dl) = none := by
  have hlevel : ∀ x : List Char,
      match_here "l".data "layer".data ('-' :: ("level".data ++ x)) = none := by
    intro x
    have h1 : capture_digits ('e' :: 'v' :: 'e' :: 'l' :: x) = none :=
      capture_digits_cons_none _ _ (by decide)
    simp [match_here, skip_literal, h1]
  have key : ∀ (short long w : List Char),
      match_here short long ('-' :: (w ++ (dl ++ []))) = none → (∀ c ∈ w, c ≠ '-') →
      regex_search short long ('-' :: (w ++ dl)) = none := by
    intro short long w h0 hw
    have := regex_search_pass short long w dl [] h0 hw hdl
    rw [List.append_nil] at this
    exact this
  exact ⟨key _ _ "layer".data (by simp [match_here, skip_literal]) (by decide),
    key _ _ "layer".data (by simp [match_here, skip_literal]) (by decide),
    key _ _ "face".data (by simp [match_here, skip_literal]) (by decide),
    key _ _ "face".data (by simp [match_here, skip_literal]) (by decide),
    key _ _ "level".data (hlevel _) (by decide),
    key _ _ "level".data (by simp [match_here, skip_literal]) (by decide)⟩

theorem parse_bounded_toDigits (n max : Nat) (h : n ≤ max) :
    parse_bounded_numeric_string (Nat.toDigits 10 n) max = some n := by
  unfold parse_bounded_numeric_string
  rw [parse_toDigits, if_pos h]

theorem generated_name_data (stem ext : String) (l f m : Nat) :
    (generated_name stem ext l f m).data
      = stem.data ++ ("-layer".data ++ (Nat.toDigits 10 l ++ ("-face".data ++
          (Nat.toDigits 10 f ++ ("-level".data ++ (Nat.toDigits 10 m ++ ext.data)))))) := by
  unfold generated_name
  simp only [String.data_append, toString_data, List.append_assoc]

/-! ### The destination indices of `load_input_` -/

theorem load_input_dest_spec (max given : Nat) (found : Option (List Char)) (notice : LogEntry)
    (hmax : 0 < max) (hgiven : given ≤ max) :
    (load_input_dest max given found notice).1 = resolved_dest max given found ∧
    (load_input_dest max given found notice).1 < max ∧
    (load_input_dest max given found notice).2.1
      = (if name_out_of_range max given found then [status_code_.status_warning] else []) ∧
    (load_input_dest max given found notice).2.2
      = (if name_out_of_range max given found then [notice] else []) := by
  unfold load_input_dest resolved_dest
  by_cases hg : given = max
  · rw [if_pos hg, if_neg (not_not.2 hg)]
    cases found with
    | none =>
      have hno : ¬ name_out_of_range max given none := by
        rintro ⟨_, _, h, _⟩
        cases h
      exact ⟨rfl, hmax, by rw [if_neg hno], by rw [if_neg hno]⟩
    | some index =>
      unfold parse_bounded_numeric_string
      by_cases hp : parse_digits index ≤ max - 1
      · have hlt : parse_digits index < max := by omega
        have hno : ¬ name_out_of_range max given (some index) := by
          rintro ⟨_, i, h, hle⟩
          cases h
          omega
        dsimp only
        rw [if_pos hp]
        exact ⟨by rw [if_pos hlt], hlt, by rw [if_neg hno], by rw [if_neg hno]⟩
      · have hlt : ¬ parse_digits index < max := by omega
        have hyes : name_out_of_range max given (some index) :=
          ⟨hg, index, rfl, by omega⟩
        dsimp only
        rw [if_neg hp]
        exact ⟨by rw [if_neg hlt], hmax, by rw [if_pos hyes], by rw [if_pos hyes]⟩
  · have hno : ¬ name_out_of_range max given found := fun h => hg h.1
    rw [if_neg hg, if_pos hg, if_neg hno, if_neg hno]
    exact ⟨rfl, by omega, rfl, rfl⟩

theorem load_input_valid (ts : TextureStorageTraits)
    (view_of : TextureView → ImageFormat → Nat → Nat → Nat → Nat → Nat → Nat → TextureView)
    (duplicate_ok : Bool) (read : read_outcome) (file : input_file_)
    (hvalid : file.first_layer ≤ file.last_layer ∧ file.first_face ≤ file.last_face ∧
      file.first_level ≤ file.last_level) :
    load_input_ ts view_of duplicate_ok read file
      = { input :=
            { path := file.path,
              texture := (load_input_texture ts view_of duplicate_ok read file).1,
              dest_layer := (load_input_dest ts.max_layers file.layer
                (layer_regex (filename_of file.path)) (LogEntry.layer_out_of_range file.path)).1,
              dest_face := (load_input_dest ts.max_faces file.face
                (face_regex (filename_of file.path)) (LogEntry.face_out_of_range file.path)).1,
              dest_level := (load_input_dest ts.max_levels file.level
                (level_regex (filename_of file.path))
                (LogEntry.level_out_of_range file.path)).1 },
          reported :=
            (load_input_dest ts.max_layers file.layer (layer_regex (filename_of file.path))
              (LogEntry.layer_out_of_range file.path)).2.1 ++
            (load_input_dest ts.max_faces file.face (face_regex (filename_of file.path))
              (LogEntry.face_out_of_range file.path)).2.1 ++
            (load_input_dest ts.max_levels file.level (level_regex (filename_of file.path))
              (LogEntry.level_out_of_range file.path)).2.1 ++
            (load_input_texture ts view_of duplicate_ok read file).2.1,
          logged :=
            (load_input_dest ts.max_layers file.layer (layer_regex (filename_of file.path))
              (LogEntry.layer_out_of_range file.path)).2.2 ++
            (load_input_dest ts.max_faces file.face (face_regex (filename_of file.path))
              (LogEntry.face_out_of_range file.path)).2.2 ++
            (load_input_dest ts.max_levels file.level (level_regex (filename_of file.path))
              (LogEntry.level_out_of_range file.path)).2.2 ++
            (load_input_texture ts view_of duplicate_ok read file).2.2 } := by
  unfold load_input_
  simp only []
  rw [if_neg (by omega), if_neg (by omega), if_neg (by omega)]

/-! ### The slicer always makes a call -/

theorem flatMap_range'_ne_nil {β : Type} (b n : Nat) (f : Nat → List β) (hn : 0 < n)
    (hf : ∀ x, f x ≠ []) : (List.range' b n).flatMap f ≠ [] := by
  obtain ⟨k, rfl⟩ : ∃ k, n = k + 1 := ⟨n - 1, by omega⟩
  rw [List.range'_succ, List.flatMap_cons]
  intro h
  exact hf b (List.append_eq_nil.1 h).1

theorem write_level_images_ne_nil (view : TextureView) (file : output_file_) :
    write_level_images_ view file ≠ [] := by
  unfold write_level_images_
  split
  · exact List.cons_ne_nil _ _
  · rename_i h
    intro hnil
    have hlen := congrArg List.length hnil
    simp only [List.length_map, List.length_range', List.length_nil] at hlen
    omega

theorem write_face_images_ne_nil (view : TextureView) (file : output_file_) :
    write_face_images_ view file ≠ [] := by
  unfold write_face_images_
  split
  · exact write_level_images_ne_nil _ _
  · exact flatMap_range'_ne_nil _ _ _ (by omega) (fun _ => write_level_images_ne_nil _ _)

theorem write_layer_images_ne_nil (view : TextureView) (file : output_file_) :
    write_layer_images_ view file ≠ [] := by
  unfold write_layer_images_
  split
  · exact write_face_images_ne_nil _ _
  · exact flatMap_range'_ne_nil _ _ _ (by omega) (fun _ => write_face_images_ne_nil _ _)

theorem write_selected_ne_nil (view : TextureView) (file : output_file_)
    (h : file.file_format ≠ TextureFileFormat.unknown) : write_selected view file ≠ [] := by
  unfold write_selected
  split
  · rename_i hf
    exact absurd hf h
  · exact List.cons_ne_nil _ _
  · exact List.cons_ne_nil _ _
  · exact List.cons_ne_nil _ _
  · exact write_layer_images_ne_nil _ _

/-! ### The status through `write_outputs_` -/

theorem set_status_value_le (st : Int) (c : status_code_) : c.value ≤ set_status_ st c := by
  unfold set_status_
  split <;> omega

theorem fail_status_ge (app : AppState) (e : LogEntry) :
    app.status_ ≤ (app.fail status_code_.status_write_error e).status_ ∧
    8 ≤ (app.fail status_code_.status_write_error e).status_ :=
  ⟨set_status_ge _ _, set_status_value_le _ status_code_.status_write_error⟩

theorem write_output_status (env : output_env) (app : AppState) (r : write_request) :
    app.status_ ≤ (write_output_ env app r).status_ ∧
    ((write_output_ env app r).status_ ≤ 1 → write_output_ok env r = true) := by
  unfold write_output_
  split
  · rename_i h
    exact ⟨le_refl _, fun _ => h⟩
  · refine ⟨(fail_status_ge _ _).1, fun hle => ?_⟩
    have := (fail_status_ge app (LogEntry.could_not_write r.path.string)).2
    omega

theorem foldl_write_output_status (env : output_env) (calls : List write_request)
    (app : AppState) :
    app.status_ ≤ (calls.foldl (write_output_ env) app).status_ ∧
    ((calls.foldl (write_output_ env) app).status_ ≤ 1 →
      ∀ r ∈ calls, write_output_ok env r = true) := by
  induction calls generalizing app with
  | nil => exact ⟨le_refl _, fun _ r h => absurd h (List.not_mem_nil _)⟩
  | cons c rest ih =>
    rw [List.foldl_cons]
    obtain ⟨h1, h2⟩ := ih (write_output_ env app c)
    obtain ⟨g1, g2⟩ := write_output_status env app c
    refine ⟨le_trans g1 h1, fun hle r hr => ?_⟩
    rcases List.mem_cons.1 hr with rfl | hrest
    · exact g2 (le_trans h1 hle)
    · exact h2 hle r hrest

theorem write_output_ok_betx (env : output_env) (r : write_request)
    (h : write_output_ok env r = true) :
    r.format = TextureFileFormat.betx ∧ env.betx_written r = true := by
  unfold write_output_ok at h
  split at h
  · rename_i hf
    exact ⟨hf, h⟩
  · cases h

/-- One pass of the loop does not lower the status, and leaves it at
`status_warning` or below only if it made its calls and all of them
succeeded. -/
theorem write_outputs_file_status (ts : TextureStorageTraits) (env : output_env)
    (view : TextureView) (app : AppState) (entry : output_file_) :
    app.status_ ≤ (write_outputs_file ts env view app entry).1.status_ ∧
    ((write_outputs_file ts env view app entry).1.status_ ≤ 1 →
      ∃ calls, (write_outputs_file ts env view app entry).2 = file_outcome.issued calls ∧
        calls ≠ [] ∧ ∀ r ∈ calls, write_output_ok env r = true) := by
  have hskip : ∀ e : LogEntry,
      app.status_ ≤ (app.fail status_code_.status_write_error e).status_ ∧
      ((app.fail status_code_.status_write_error e).status_ ≤ 1 →
        ∃ calls, file_outcome.skipped = file_outcome.issued calls ∧
          calls ≠ [] ∧ ∀ r ∈ calls, write_output_ok env r = true) := by
    intro e
    refine ⟨(fail_status_ge app e).1, fun hle => ?_⟩
    have := (fail_status_ge app e).2
    omega
  unfold write_outputs_file
  simp only []
  repeat' split
  all_goals first
    | exact hskip _
    | exact ⟨(foldl_write_output_status env _ app).1,
        fun hle => ⟨_, rfl, write_selected_ne_nil _ _ (by assumption),
          (foldl_write_output_status env _ app).2 hle⟩⟩

theorem write_outputs_step_outcomes (ts : TextureStorageTraits) (env : output_env)
    (view : TextureView) (files : List output_file_) (s : output_state) :
    (files.foldl (write_outputs_step ts env view) s).outcomes.length
      = s.outcomes.length + files.length := by
  induction files generalizing s with
  | nil => rfl
  | cons f rest ih =>
    rw [List.foldl_cons, ih]
    simp only [write_outputs_step, List.length_append, List.length_cons, List.length_nil]
    omega

theorem write_outputs_foldl_status (ts : TextureStorageTraits) (env : output_env)
    (view : TextureView) (files : List output_file_) (s : output_state) :
    s.app.status_ ≤ (files.foldl (write_outputs_step ts env view) s).app.status_ ∧
    ((files.foldl (write_outputs_step ts env view) s).app.status_ ≤ 1 →
      (∀ o ∈ s.outcomes, ∃ calls, o = file_outcome.issued calls ∧
        calls ≠ [] ∧ ∀ r ∈ calls, write_output_ok env r = true) →
      ∀ o ∈ (files.foldl (write_outputs_step ts env view) s).outcomes,
        ∃ calls, o = file_outcome.issued calls ∧
          calls ≠ [] ∧ ∀ r ∈ calls, write_output_ok env r = true) := by
  induction files generalizing s with
  | nil => exact ⟨le_refl _, fun _ h => h⟩
  | cons f rest ih =>
    rw [List.foldl_cons]
    obtain ⟨h1, h2⟩ := ih (write_outputs_step ts env view s f)
    obtain ⟨g1, g2⟩ := write_outputs_file_status ts env view s.app f
    refine ⟨le_trans g1 h1, fun hle hs => h2 hle ?_⟩
    intro o ho
    rcases List.mem_append.1 ho with h | h
    · exact hs o h
    · rw [List.mem_singleton.1 h]
      exact g2 (le_trans h1 hle)

/-- The status after `write_outputs_` is not below the status before; if it is
`status_warning` or lower, every pass made its calls of `write_output_` and
every call succeeded. -/
theorem write_outputs_status (ts : TextureStorageTraits) (env : output_env)
    (view : TextureView) (app : AppState) (files : List output_file_) :
    app.status_ ≤ (write_outputs_ ts env view app files).app.status_ ∧
    (write_outputs_ ts env view app files).outcomes.length = files.length ∧
    ((write_outputs_ ts env view app files).app.status_ ≤ 1 →
      ∀ o ∈ (write_outputs_ ts env view app files).outcomes,
        ∃ calls, o = file_outcome.issued calls ∧
          calls ≠ [] ∧ ∀ r ∈ calls, write_output_ok env r = true) := by
  obtain ⟨h1, h2⟩ := write_outputs_foldl_status ts env view files { app := app, outcomes := [] }
  refine ⟨h1, ?_, fun hle => h2 hle (fun o ho => absurd ho (List.not_mem_nil _))⟩
  unfold write_outputs_
  rw [write_outputs_step_outcomes]
  simp

/-! ### The status as the fold of the reported codes -/

theorem raised_refl (a : AppState) : raised a a := ⟨[], by simp, rfl⟩

theorem raised_trans {a b c : AppState} (h1 : raised a b) (h2 : raised b c) : raised a c := by
  obtain ⟨c1, r1, s1⟩ := h1
  obtain ⟨c2, r2, s2⟩ := h2
  exact ⟨c1 ++ c2, by rw [r2, r1, List.append_assoc], by rw [s2, s1, List.foldl_append]⟩

theorem raised_report (a : AppState) (c : status_code_) : raised a (a.report c) :=
  ⟨[c], rfl, rfl⟩

theorem raised_warn (a : AppState) (e : LogEntry) : raised a (a.warn e) :=
  ⟨[status_code_.status_warning], rfl, rfl⟩

theorem raised_fail (a : AppState) (c : status_code_) (e : LogEntry) : raised a (a.fail c e) :=
  ⟨[c], rfl, rfl⟩

theorem foldl_raised {α : Type} (f : AppState → α → AppState)
    (h : ∀ a x, raised a (f a x)) (l : List α) (a : AppState) : raised a (l.foldl f a) := by
  induction l generalizing a with
  | nil => exact raised_refl a
  | cons x rest ih => exact raised_trans (h a x) (ih (f a x))

theorem raised_warn_all (a : AppState) (es : List LogEntry) : raised a (warn_all a es) :=
  foldl_raised AppState.warn raised_warn es a

theorem foldl_raised_load {α : Type} (f : load_state → α → load_state)
    (h : ∀ s x, raised s.app (f s x).app) (l : List α) (s : load_state) :
    raised s.app (l.foldl f s).app := by
  induction l generalizing s with
  | nil => exact raised_refl _
  | cons x rest ih => exact raised_trans (h s x) (ih (f s x))

theorem load_inputs_visit_raised (ts : TextureStorageTraits) (file : input_file_)
    (input : input_) (s : load_state) (img : ImageView) :
    raised s.app (load_inputs_visit ts file input s img).app := by
  unfold load_inputs_visit
  simp only []
  repeat' split
  all_goals first
    | exact raised_warn _ _
    | exact raised_refl _

theorem load_inputs_path_raised (ts : TextureStorageTraits) (file : input_file_)
    (s : load_state) (p : loaded_) : raised s.app (load_inputs_path ts file s p).app := by
  have h1 : raised s.app
      { s.app with
        status_ := p.reported.foldl set_status_ s.app.status_,
        reported := s.app.reported ++ p.reported } := ⟨p.reported, rfl, rfl⟩
  unfold load_inputs_path
  simp only []
  split
  · exact h1
  · exact raised_trans h1 (foldl_raised_load _ (load_inputs_visit_raised ts file p.input) _ _)

theorem load_inputs_file_raised (ts : TextureStorageTraits) (s : load_state) (g : globbed_) :
    raised s.app (load_inputs_file ts s g).app := by
  unfold load_inputs_file
  split
  · exact raised_warn _ _
  · exact foldl_raised_load _ (load_inputs_path_raised ts g.file) _ _

theorem load_inputs_raised (ts : TextureStorageTraits) (app : AppState)
    (files : List globbed_) : raised app (load_inputs_ ts app files).app :=
  foldl_raised_load _ (load_inputs_file_raised ts) files
    { app := app, inputs := [], images := KeyMap.empty }

theorem make_texture_raised (ts : TextureStorageTraits) (gfx : GfxTraits) (cfg : settings_)
    (alloc_ok : Bool) (app : AppState) (inputs : List input_) :
    raised app (make_texture_ ts gfx cfg alloc_ok app inputs).app := by
  unfold make_texture_
  simp only [report_missing_eq, trim_levels_eq, validate_eq, check_tex_class_eq,
    fit_block_eq, warn_all_append]
  repeat' split
  all_goals first
    | exact raised_refl _
    | exact raised_warn_all _ _
    | exact raised_trans (raised_warn_all _ _) (raised_fail _ _ _)

theorem write_output_raised (env : output_env) (app : AppState) (r : write_request) :
    raised app (write_output_ env app r) := by
  unfold write_output_
  split
  · exact raised_refl _
  · exact raised_fail _ _ _

theorem write_outputs_file_raised (ts : TextureStorageTraits) (env : output_env)
    (view : TextureView) (app : AppState) (entry : output_file_) :
    raised app (write_outputs_file ts env view app entry).1 := by
  unfold write_outputs_file
  simp only []
  repeat' split
  all_goals first
    | exact raised_fail _ _ _
    | exact foldl_raised _ (write_output_raised env) _ _

theorem write_outputs_raised (ts : TextureStorageTraits) (env : output_env)
    (view : TextureView) (app : AppState) (files : List output_file_) :
    raised app (write_outputs_ ts env view app files).app := by
  have key : ∀ (l : List output_file_) (s : output_state),
      raised s.app (l.foldl (write_outputs_step ts env view) s).app := by
    intro l
    induction l with
    | nil => exact fun s => raised_refl _
    | cons f rest ih =>
      intro s
      exact raised_trans (write_outputs_file_raised ts env view s.app f)
        (ih (write_outputs_step ts env view s f))
  exact key files { app := app, outcomes := [] }

theorem operator_call_raised (ts : TextureStorageTraits) (gfx : GfxTraits) (cfg : settings_)
    (alloc_ok : Bool) (write_outputs_ : AppState → TextureView → AppState)
    (hw : ∀ a v, raised a (write_outputs_ a v)) (app : AppState)
    (output_files_ : List output_file_) (files : List globbed_) :
    raised app (operator_call ts gfx cfg alloc_ok write_outputs_ app output_files_ files).app := by
  have ha1 : raised app
      (if output_files_.isEmpty then app.report status_code_.status_no_output else app) := by
    split
    · exact raised_report _ _
    · exact raised_refl _
  have ha2 : raised app
      (if files.isEmpty then
        (if output_files_.isEmpty then app.report status_code_.status_no_output
          else app).report status_code_.status_no_input
       else (if output_files_.isEmpty then app.report status_code_.status_no_output
          else app)) := by
    split
    · exact raised_trans ha1 (raised_report _ _)
    · exact ha1
  unfold operator_call
  simp only []
  generalize (if files.isEmpty then
        (if output_files_.isEmpty then app.report status_code_.status_no_output
          else app).report status_code_.status_no_input
       else (if output_files_.isEmpty then app.report status_code_.status_no_output
          else app)) = a2 at ha2 ⊢
  have hl := load_inputs_raised ts a2 files
  have hm := make_texture_raised ts gfx cfg alloc_ok (load_inputs_ ts a2 files).app
    (load_inputs_ ts a2 files).inputs
  split
  · exact ha2
  · split
    · exact raised_trans ha2 (raised_trans hl (raised_report _ _))
    · split
      · exact raised_trans ha2 (raised_trans hl hm)
      · split
        · exact raised_trans ha2 (raised_trans hl (raised_trans hm (raised_report _ _)))
        · exact raised_trans ha2 (raised_trans hl (raised_trans hm (hw _ _)))

theorem foldl_set_status_eq_max (codes : List status_code_) (s : Int) :
    codes.foldl set_status_ s = (codes.map status_code_.value).foldl max s := by
  induction codes generalizing s with
  | nil => rfl
  | cons c rest ih =>
    rw [List.foldl_cons, List.map_cons, List.foldl_cons, ih]
    congr 1
    unfold set_status_
    split
    · rw [max_eq_right (by omega)]
    · rw [max_eq_left (by omega)]

/-- A call of `operator()` that starts with status 0, returns and leaves the
status at `status_warning` or below has reached `write_outputs_` with the view
that `make_texture_` returned. -/
theorem operator_call_low (ts : TextureStorageTraits) (gfx : GfxTraits) (cfg : settings_)
    (alloc_ok : Bool) (write_outputs_ : AppState → TextureView → AppState) (app : AppState)
    (output_files_ : List output_file_) (files : List globbed_)
    (hstart : app.status_ = 0)
    (hret : (operator_call ts gfx cfg alloc_ok write_outputs_ app output_files_
      files).returned = true)
    (hlow : (operator_call ts gfx cfg alloc_ok write_outputs_ app output_files_
      files).app.status_ ≤ 1) :
    ∃ view,
      (operator_call ts gfx cfg alloc_ok write_outputs_ app output_files_ files).made
        = some (make_texture_ ts gfx cfg alloc_ok (load_inputs_ ts app files).app
            (load_inputs_ ts app files).inputs) ∧
      (make_texture_ ts gfx cfg alloc_ok (load_inputs_ ts app files).app
        (load_inputs_ ts app files).inputs).texture = some { view := some view } ∧
      (operator_call ts gfx cfg alloc_ok write_outputs_ app output_files_ files).written
        = some view ∧
      (operator_call ts gfx cfg alloc_ok write_outputs_ app output_files_ files).app
        = write_outputs_ (make_texture_ ts gfx cfg alloc_ok (load_inputs_ ts app files).app
            (load_inputs_ ts app files).inputs).app view := by
  have h4 : (app.report status_code_.status_no_output).status_ = 4 := by
    simp [AppState.report, set_status_, status_code_.value, hstart]
  have h5 : ∀ a : AppState, 5 ≤ (a.report status_code_.status_no_input).status_ :=
    fun a => set_status_value_le a.status_ status_code_.status_no_input
  have h7 : ∀ a : AppState, 7 ≤ (a.report status_code_.status_conversion_error).status_ :=
    fun a => set_status_value_le a.status_ status_code_.status_conversion_error
  unfold run_result.returned at hret
  unfold operator_call at hret hlow ⊢
  simp only [] at hret hlow ⊢
  cases ho : output_files_.isEmpty
  · cases hf : files.isEmpty
    · simp only [ho, hf, Bool.false_eq_true, if_false, hstart, ne_eq, not_true_eq_false]
        at hret hlow ⊢
      generalize hm : make_texture_ ts gfx cfg alloc_ok (load_inputs_ ts app files).app
        (load_inputs_ ts app files).inputs = m at hret hlow ⊢
      cases hl : (load_inputs_ ts app files).inputs.isEmpty
      · simp only [hl, Bool.false_eq_true, if_false] at hret hlow ⊢
        rcases m with ⟨mapp, mtex, mblits⟩
        cases mtex with
        | none => simp at hret
        | some tex =>
          rcases tex with ⟨v⟩
          cases v with
          | none =>
            simp only [] at hlow
            have := h7 mapp
            omega
          | some view => exact ⟨view, rfl, rfl, rfl, rfl⟩
      · simp only [hl, if_true] at hlow
        have := h5 (load_inputs_ ts app files).app
        omega
    · simp only [ho, hf, Bool.false_eq_true, if_false, if_true] at hlow
      have := h5 app
      have hne : (app.report status_code_.status_no_input).status_ ≠ 0 := by omega
      simp only [ne_eq, hne, not_false_eq_true, if_true] at hlow
      omega
  · cases hf : files.isEmpty
    · simp only [ho, hf, Bool.false_eq_true, if_false, if_true] at hlow
      have hne : (app.report status_code_.status_no_output).status_ ≠ 0 := by omega
      simp only [ne_eq, hne, not_false_eq_true, if_true] at hlow
      omega
    · simp only [ho, hf, if_true] at hlow
      have := h5 (app.report status_code_.status_no_output)
      have hne : ((app.report status_code_.status_no_output).report
          status_code_.status_no_input).status_ ≠ 0 := by omega
      simp only [ne_eq, hne, not_false_eq_true, if_true] at hlow
      omega

/-! # The claims -/

/-- C1: for every legal triple (layer < max_layers, face < max_faces,
level < max_levels) the packed key round-trips: the level is the key modulo
`2^level_bits`, the face is the key shifted right by `level_bits` modulo
`2^face_bits`, the layer is the key shifted right by `face_bits + level_bits`;
hence two legal triples with the same key are the same triple. -/
theorem C1_img_id_round_trip (ts : TextureStorageTraits) (hw : ts.WellFormed)
    (layer face level : Nat)
    (hl : layer < ts.max_layers) (hf : face < ts.max_faces) (hv : level < ts.max_levels) :
    (img_id ts layer face level % 2 ^ ts.level_bits = level ∧
      (img_id ts layer face level >>> ts.level_bits) % 2 ^ ts.face_bits = face ∧
      img_id ts layer face level >>> (ts.face_bits + ts.level_bits) = layer) ∧
    ∀ layer' face' level' : Nat,
      layer' < ts.max_layers → face' < ts.max_faces → level' < ts.max_levels →
      img_id ts layer face level = img_id ts layer' face' level' →
      layer = layer' ∧ face = face' ∧ level = level' :=
  ⟨img_id_decode ts hw hl hf hv,
   fun _ _ _ hl' hf' hv' h => img_id_inj ts hw hl hf hv hl' hf' hv' h⟩

/-- C2: for every legal (layer, face, level) whose successor level is legal
too, the key of level + 1 is the key of level plus one; so for a fixed layer
and face the key is strictly increasing in the level. -/
theorem C2_img_id_level_succ (ts : TextureStorageTraits) (hw : ts.WellFormed)
    (layer face level : Nat)
    (hl : layer < ts.max_layers) (hf : face < ts.max_faces) (hv : level + 1 < ts.max_levels) :
    img_id ts layer face (level + 1) = img_id ts layer face level + 1 ∧
    ∀ level' : Nat, level < level' → level' < ts.max_levels →
      img_id ts layer face level < img_id ts layer face level' := by
  have hv0 : level < ts.max_levels := by omega
  refine ⟨?_, fun level' hlt hv' => ?_⟩
  · rw [img_id_eq_add ts hw hl hf hv, img_id_eq_add ts hw hl hf hv0]
    omega
  · rw [img_id_eq_add ts hw hl hf hv0, img_id_eq_add ts hw hl hf hv']
    omega

/-- C3: when two accepted images are given the same destination (layer, face,
level) and no other collision occurs, the table of `make_texture_` holds for
that slot the image processed later with its input, `load_inputs_` has logged
exactly one "Replacing an image that was already loaded" warning, and the
status is at least `status_warning`. -/
theorem C3_later_input_wins (ts : TextureStorageTraits) (hw : ts.WellFormed)
    (app : AppState) (files : List globbed_)
    (d : Nat × Nat × Nat) (i j : Nat) (imgA imgB : ImageView)
    (l1 l2 l3 : List ((Nat × Nat × Nat) × Nat × ImageView))
    (henc : encounter ts (load_inputs_ ts app files).inputs
      = l1 ++ (d, i, imgA) :: l2 ++ (d, j, imgB) :: l3)
    (hnodup : ((l1 ++ l2 ++ l3).map Prod.fst).Nodup)
    (hd : d ∉ (l1 ++ l2 ++ l3).map Prod.fst) :
    (scan ts (load_inputs_ ts app files).inputs).images (img_id ts d.1 d.2.1 d.2.2)
      = some (j, imgB) ∧
    count_replacing (load_inputs_ ts app files).app.log = count_replacing app.log + 1 ∧
    1 ≤ (load_inputs_ ts app files).app.status_ := by
  have hlegal : ∀ e ∈ encounter ts (load_inputs_ ts app files).inputs, legal ts e.1 :=
    encounter_from_legal ts 0 _
  rw [henc] at hlegal
  have hdl : legal ts d := hlegal (d, j, imgB) (by simp)
  have hl : ∀ e ∈ l1 ++ l2 ++ l3, legal ts e.1 := by
    intro e he
    apply hlegal e
    simp only [List.mem_append, List.mem_cons] at he ⊢
    tauto
  have hkey : ∀ e ∈ l1 ++ l2 ++ l3, key_of ts e.1 ≠ key_of ts d := by
    intro e he hk
    exact hd (List.mem_map.2 ⟨e, he, key_of_inj ts hw (hl e he) hdl hk⟩)
  have hcount : count_replacing (load_inputs_ ts app files).app.log
      = count_replacing app.log + 1 := by
    rw [(load_inputs_spec ts app files).2.1, henc]
    have hm : (l1 ++ (d, i, imgA) :: l2 ++ (d, j, imgB) :: l3).map (fun e => key_of ts e.1)
        = l1.map (fun e => key_of ts e.1) ++ key_of ts d :: l2.map (fun e => key_of ts e.1)
          ++ key_of ts d :: l3.map (fun e => key_of ts e.1) := by
      simp
    rw [hm, dup_count_one_collision]
    · rw [← List.map_append, ← List.map_append]
      have : (l1 ++ l2 ++ l3).map (fun e => key_of ts e.1)
          = ((l1 ++ l2 ++ l3).map Prod.fst).map (key_of ts) := by
        rw [List.map_map]
        rfl
      rw [this]
      apply List.Nodup.map_on _ hnodup
      intro x hx y hy hxy
      obtain ⟨ex, hex, rfl⟩ := List.mem_map.1 hx
      obtain ⟨ey, hey, rfl⟩ := List.mem_map.1 hy
      exact key_of_inj ts hw (hl ex hex) (hl ey hey) hxy
    · rw [← List.map_append, ← List.map_append]
      intro hmem
      obtain ⟨e, he, hk⟩ := List.mem_map.1 hmem
      exact hkey e he hk
  refine ⟨?_, hcount, ?_⟩
  · unfold scan
    rw [scan_from_images]
    change (List.foldl (assign_entry ts) (scan_init ts).images
      (encounter ts (load_inputs_ ts app files).inputs)) (key_of ts (d, j, imgB).1) = _
    rw [henc]
    apply foldl_assign_entry_last
    intro e he
    exact hkey e (by simp [he])
  · rcases (load_inputs_spec ts app files).2.2.2 with h | h
    · rw [h] at hcount
      omega
    · exact h


/-- C4: an image whose destination index reaches the maximum on the layer, face
or level axis is inserted into neither table: the visitor of `load_inputs_`
leaves its table as it was, logs exactly one overflow warning and raises the
status to at least `status_warning`, and the visitor of the scan leaves all
its locals as they were.  Both tables are the same as for the inputs without
the rejected images, and the table of the scan is obtained by assigning every
accepted image at its own key in encounter order. -/
theorem C4_overflow_dropped (ts : TextureStorageTraits) (app : AppState)
    (files : List globbed_) (file : input_file_) (input : input_) (img : ImageView)
    (s : load_state) (idx : Nat) (sc : scan_state)
    (hover : input.dest_layer + img.layer ≥ ts.max_layers ∨
      input.dest_face + img.face ≥ ts.max_faces ∨
      input.dest_level + img.level ≥ ts.max_levels) :
    (load_inputs_visit ts file input s img).images = s.images ∧
    (∃ e : LogEntry, e.is_overflow = true ∧
      (load_inputs_visit ts file input s img).app.log = s.app.log ++ [e]) ∧
    1 ≤ (load_inputs_visit ts file input s img).app.status_ ∧
    scan_visit ts idx input sc img = sc ∧
    (load_inputs_ ts app (files.map (globbed_.without_rejected ts))).images
      = (load_inputs_ ts app files).images ∧
    scan ts ((load_inputs_ ts app files).inputs.map (without_rejected ts))
      = scan ts (load_inputs_ ts app files).inputs ∧
    (scan ts (load_inputs_ ts app files).inputs).images
      = (encounter ts (load_inputs_ ts app files).inputs).foldl (assign_entry ts)
          KeyMap.empty := by
  have hrej : accepted ts input img = false := by
    simp only [accepted, decide_eq_false_iff_not]
    omega
  obtain ⟨_, hm, e, he, _, ha⟩ := load_inputs_visit_rejected ts file input s img hrej
  refine ⟨hm, ⟨e, he, by rw [ha]; rfl⟩, by rw [ha]; exact set_status_warning_ge _,
    scan_visit_rejected ts idx input sc img hrej, load_inputs_same_table ts app files,
    scan_from_without_rejected ts 0 _ _, scan_from_images ts 0 _ _⟩

/-- C5: when at least one image is accepted, the accepted images in encounter
order split around one image `e` such that every earlier one has a strictly
greater destination level and every later one has a destination level at
least as great; after the scan `min_level` is the destination level of `e`,
the base input is the input of `e` and the recorded base dimensions are the
dimensions of `e`. -/
theorem C5_base_is_first_of_min_level (ts : TextureStorageTraits) (hw : ts.WellFormed)
    (inputs : List input_) (hne : encounter ts inputs ≠ []) :
    ∃ l1 e l2, encounter ts inputs = l1 ++ e :: l2 ∧
      (∀ a ∈ l1, e.1.2.2 < a.1.2.2) ∧ (∀ a ∈ l2, e.1.2.2 ≤ a.1.2.2) ∧
      (scan ts inputs).min_level = e.1.2.2 ∧
      (scan ts inputs).base = some (e.2.1, e.2.2.dim) :=
  scan_base_spec ts hw inputs hne


/-- C6 (amended): provided every component greater than 1 times
`2^min_level` fits an `int`, for `min_level > 0` the corrected base dimensions
are the recorded ones with every component greater than 1 multiplied by
`2^min_level` and every other component unchanged, and the last warning
logged is "Missing levels: [ 0, min_level - 1 ]" with the status at least
`status_warning`; for `min_level = 0` the base dimensions are unchanged. -/
theorem C6_corrected_base_dim (app : AppState) (s : scan_state) (base_dim : ivec3)
    (hx : 1 < base_dim.x → base_dim.x * 2 ^ s.min_level < 2 ^ 31)
    (hy : 1 < base_dim.y → base_dim.y * 2 ^ s.min_level < 2 ^ 31)
    (hz : 1 < base_dim.z → base_dim.z * 2 ^ s.min_level < 2 ^ 31) :
    (0 < s.min_level →
      (report_missing app s base_dim).2
        = { x := if base_dim.x > 1 then base_dim.x * 2 ^ s.min_level else base_dim.x,
            y := if base_dim.y > 1 then base_dim.y * 2 ^ s.min_level else base_dim.y,
            z := if base_dim.z > 1 then base_dim.z * 2 ^ s.min_level else base_dim.z } ∧
      (∃ pre, (report_missing app s base_dim).1.log
        = pre ++ [LogEntry.missing_levels (s.min_level - 1)]) ∧
      1 ≤ (report_missing app s base_dim).1.status_) ∧
    (s.min_level = 0 → (report_missing app s base_dim).2 = base_dim) := by
  constructor
  · intro hpos
    unfold report_missing
    simp only [gt_iff_lt, hpos, if_true]
    refine ⟨?_, ⟨_, rfl⟩, set_status_warning_ge _⟩
    unfold correct_base_dim
    rw [correct_component_of_fits _ _ hx, correct_component_of_fits _ _ hy,
      correct_component_of_fits _ _ hz]
  · intro hzero
    unfold report_missing
    simp only [hzero, gt_iff_lt, lt_self_iff_false, if_false]

/-- C8: with `chain_length = mipmap_levels base_dim`, the trimming replaces
`max_level` by `min_level + chain_length - 1` and logs "Unnecessary mipmap
levels removed" exactly when `min_level + chain_length <= max_level`, and
otherwise leaves `max_level` and the log as they are; a trimmed `max_level`
lies between `min_level` and `min_level + chain_length - 1`, and the result
never exceeds the `max_level` before. -/
theorem C8_trim_levels (ts : TextureStorageTraits) (hw : ts.WellFormed) (app : AppState)
    (min_level max_level : Nat) (base_dim : ivec3) (hmax : max_level < 2 ^ ts.level_bits) :
    expected_levels ts base_dim = mipmap_levels base_dim ∧
    (min_level + mipmap_levels base_dim ≤ max_level →
      (trim_levels ts app min_level max_level base_dim).2
        = min_level + mipmap_levels base_dim - 1 ∧
      (trim_levels ts app min_level max_level base_dim).1
        = app.warn (LogEntry.unnecessary_levels_removed
            (min_level + mipmap_levels base_dim) max_level) ∧
      min_level ≤ (trim_levels ts app min_level max_level base_dim).2 ∧
      (trim_levels ts app min_level max_level base_dim).2
        ≤ min_level + mipmap_levels base_dim - 1) ∧
    (¬ min_level + mipmap_levels base_dim ≤ max_level →
      trim_levels ts app min_level max_level base_dim = (app, max_level)) ∧
    (trim_levels ts app min_level max_level base_dim).2 ≤ max_level := by
  have he := expected_levels_eq ts hw base_dim
  have hp : 1 ≤ mipmap_levels base_dim := mipmap_levels_upto_pos 31 base_dim
  have hmod : min_level + mipmap_levels base_dim ≤ max_level →
      (min_level + mipmap_levels base_dim - 1) % 2 ^ ts.level_bits
        = min_level + mipmap_levels base_dim - 1 :=
    fun h => Nat.mod_eq_of_lt (by omega)
  refine ⟨he, ?_, ?_, ?_⟩
  · intro h
    unfold trim_levels
    rw [he, if_pos h]
    simp only [hmod h]
    exact ⟨trivial, trivial, by omega, le_refl _⟩
  · intro h
    unfold trim_levels
    rw [he, if_neg h]
  · unfold trim_levels
    rw [he]
    by_cases h : min_level + mipmap_levels base_dim ≤ max_level
    · rw [if_pos h]
      simp only [hmod h]
      omega
    · rw [if_neg h]


theorem C1_img_id_round_trip_witness :
    byte_traits.WellFormed ∧
    (img_id byte_traits 3 2 1 % 2 ^ byte_traits.level_bits = 1 ∧
      (img_id byte_traits 3 2 1 >>> byte_traits.level_bits) % 2 ^ byte_traits.face_bits = 2 ∧
      img_id byte_traits 3 2 1 >>> (byte_traits.face_bits + byte_traits.level_bits) = 3) :=
  ⟨by decide,
    (C1_img_id_round_trip byte_traits (by decide) 3 2 1 (by decide) (by decide) (by decide)).1⟩

theorem C2_img_id_level_succ_witness :
    img_id byte_traits 3 2 (1 + 1) = img_id byte_traits 3 2 1 + 1 :=
  (C2_img_id_level_succ byte_traits (by decide) 3 2 1 (by decide) (by decide) (by decide)).1

theorem C3_later_input_wins_witness :
    (scan byte_traits (load_inputs_ byte_traits fresh colliding_files).inputs).images
        (img_id byte_traits 0 0 1) = some (1, image_2d 0 0 0 8 8) ∧
    count_replacing (load_inputs_ byte_traits fresh colliding_files).app.log
      = count_replacing fresh.log + 1 ∧
    1 ≤ (load_inputs_ byte_traits fresh colliding_files).app.status_ :=
  C3_later_input_wins byte_traits (by decide) fresh colliding_files (0, 0, 1) 0 1
    (image_2d 0 0 1 8 8) (image_2d 0 0 0 8 8) [((0, 0, 0), 0, image_2d 0 0 0 16 16)] [] []
    (by decide) (by decide) (by decide)

theorem C4_overflow_dropped_witness :
    (load_inputs_visit byte_traits (one_path overflowing_input).file overflowing_input
        { app := fresh, inputs := [], images := KeyMap.empty } (image_2d 1 0 0 4 4)).app.log
      = [LogEntry.too_many_layers "c-layer254.png" 1 255] ∧
    scan_visit byte_traits 0 overflowing_input (scan_init byte_traits) (image_2d 1 0 0 4 4)
      = scan_init byte_traits := by
  have h := C4_overflow_dropped byte_traits fresh [one_path overflowing_input]
    (one_path overflowing_input).file overflowing_input (image_2d 1 0 0 4 4)
    { app := fresh, inputs := [], images := KeyMap.empty } 0 (scan_init byte_traits)
    (Or.inl (by decide))
  exact ⟨by decide, h.2.2.2.1⟩

theorem C5_base_is_first_of_min_level_witness :
    ∃ l1 e l2, encounter byte_traits levels_2_3_4_7 = l1 ++ e :: l2 ∧
      (∀ a ∈ l1, e.1.2.2 < a.1.2.2) ∧ (∀ a ∈ l2, e.1.2.2 ≤ a.1.2.2) ∧
      (scan byte_traits levels_2_3_4_7).min_level = e.1.2.2 ∧
      (scan byte_traits levels_2_3_4_7).base = some (e.2.1, e.2.2.dim) :=
  C5_base_is_first_of_min_level byte_traits (by decide) levels_2_3_4_7 (by decide)

/-- C6, the example of the specification: a 16×16 base image at level 2 gives
the corrected base dimensions 64×64. -/
theorem C6_corrected_base_dim_witness :
    (report_missing fresh (scan byte_traits levels_2_3_4) { x := 16, y := 16, z := 1 }).2
      = { x := if (16 : Int) > 1 then 16 * 2 ^ (scan byte_traits levels_2_3_4).min_level else 16,
          y := if (16 : Int) > 1 then 16 * 2 ^ (scan byte_traits levels_2_3_4).min_level else 16,
          z := if (1 : Int) > 1 then 1 * 2 ^ (scan byte_traits levels_2_3_4).min_level else 1 } :=
  ((C6_corrected_base_dim fresh (scan byte_traits levels_2_3_4) { x := 16, y := 16, z := 1 }
    (by decide) (by decide) (by decide)).1 (by decide)).1

/-- C6 as stated fails where the shift leaves the range of `int`: a 2×2 image
at level 30 gives the corrected width -2147483648, not 2 * 2^30. -/
theorem C6_counterexample :
    (scan byte_traits level_30).min_level = 30 ∧
    (scan byte_traits level_30).base = some (0, { x := 2, y := 2, z := 1 }) ∧
    (report_missing fresh (scan byte_traits level_30) { x := 2, y := 2, z := 1 }).2
      = { x := -2147483648, y := -2147483648, z := 1 } ∧
    (report_missing fresh (scan byte_traits level_30) { x := 2, y := 2, z := 1 }).2.x
      ≠ 2 * 2 ^ 30 := by
  decide

theorem C8_trim_levels_witness :
    (trim_levels byte_traits fresh 0 9 { x := 64, y := 64, z := 1 }).2
        = 0 + mipmap_levels { x := 64, y := 64, z := 1 } - 1 ∧
    (trim_levels byte_traits fresh 0 9 { x := 64, y := 64, z := 1 }).1
        = fresh.warn (LogEntry.unnecessary_levels_removed
            (0 + mipmap_levels { x := 64, y := 64, z := 1 }) 9) :=
  let h := (C8_trim_levels byte_traits (by decide) fresh 0 9 { x := 64, y := 64, z := 1 }
    (by decide)).2.1 (by decide)
  ⟨h.1, h.2.1⟩


/-- C7, evaluated on the example of the specification (levels 2, 3, 4 of a
texture whose level 2 is 16×16, and an image for level 7): the corrected base
dimensions are 64×64, whose chain has 7 levels and ends at level 6, yet
`max_level` stays 7, the merged view has the levels 0 to 7 and no
"Unnecessary mipmap levels removed" warning is logged. -/
theorem C7_level_7_not_trimmed :
    final_base_dim (scan byte_traits levels_2_3_4_7) { x := 16, y := 16, z := 1 }
      = { x := 64, y := 64, z := 1 } ∧
    mipmap_levels { x := 64, y := 64, z := 1 } = 7 ∧
    final_max_level byte_traits (scan byte_traits levels_2_3_4_7) { x := 16, y := 16, z := 1 }
      = 7 ∧
    (make_texture_ byte_traits sample_gfx default_settings true fresh levels_2_3_4_7).app.log
      = [LogEntry.missing_levels 1, LogEntry.missing_image 0 0 5,
          LogEntry.missing_image 0 0 6] ∧
    ((make_texture_ byte_traits sample_gfx default_settings true fresh
        levels_2_3_4_7).texture.map fun t => t.images.map ImageView.level)
      = some [0, 1, 2, 3, 4, 5, 6, 7] := by
  decide

/-- C9 as stated fails for `min_level > 0`: the 16×16 image in the slot of
level 2 differs from the corrected base dimensions 64×64 reduced 2 - 2 = 0
times, yet no "Image size mismatch" warning is logged for that slot. -/
theorem C9_counterexample :
    (scan byte_traits levels_2_3_4).images (img_id byte_traits 0 0 2)
      = some (0, image_2d 0 0 0 16 16) ∧
    (scan byte_traits levels_2_3_4).min_level = 2 ∧
    final_base_dim (scan byte_traits levels_2_3_4) { x := 16, y := 16, z := 1 }
      = { x := 64, y := 64, z := 1 } ∧
    (image_2d 0 0 0 16 16).dim ≠ mipmap_dim { x := 64, y := 64, z := 1 } (2 - 2) ∧
    (make_texture_ byte_traits sample_gfx default_settings true fresh levels_2_3_4).app.log.filter
      (LogEntry.is_mismatch_at 0 0 2) = [] := by
  decide

/-- C9 (amended): for every coordinate of the validated range whose slot holds
an image, exactly one "Image size mismatch" warning is logged for the
coordinate if the dimensions of the image differ from the corrected base
dimensions reduced `level` times, and none if they are equal. -/
theorem C9_size_mismatch_iff (ts : TextureStorageTraits) (hw : ts.WellFormed)
    (gfx : GfxTraits) (cfg : settings_) (alloc_ok : Bool) (app : AppState)
    (inputs : List input_) (base_idx : Nat) (recorded : ivec3)
    (layer face level idx : Nat) (img : ImageView)
    (hbase : (scan ts inputs).base = some (base_idx, recorded))
    (hfit : promoted_key_fits ts (scan ts inputs).max_layer)
    (hl : (scan ts inputs).min_layer ≤ layer ∧ layer ≤ (scan ts inputs).max_layer)
    (hf : (scan ts inputs).min_face ≤ face ∧ face ≤ (scan ts inputs).max_face)
    (hv : (scan ts inputs).min_level ≤ level ∧
      level ≤ final_max_level ts (scan ts inputs) recorded)
    (hslot : (scan ts inputs).images (img_id ts layer face level) = some (idx, img)) :
    ∃ report, (make_texture_ ts gfx cfg alloc_ok app inputs).app.log = app.log ++ report ∧
      (report.filter (LogEntry.is_mismatch_at layer face level)).length
        = if img.dim ≠ mipmap_dim (final_base_dim (scan ts inputs) recorded) level
          then 1 else 0 := by
  obtain ⟨pre, post, hpre, hpost, hlog, _⟩ :=
    make_texture_app ts gfx cfg alloc_ok app inputs base_idx recorded hbase
  refine ⟨_, hlog, ?_⟩
  have hmax := scan_max_legal ts inputs (encounter_ne_nil_of_base ts inputs _ hbase)
  have htrim : final_max_level ts (scan ts inputs) recorded ≤ (scan ts inputs).max_level := by
    unfold final_max_level trim_levels
    split
    · have h1 := expected_levels_pos ts hw (final_base_dim (scan ts inputs) recorded)
      have h2 := Nat.mod_le ((scan ts inputs).min_level +
        expected_levels ts (final_base_dim (scan ts inputs) recorded) - 1) (2 ^ ts.level_bits)
      simp only []
      omega
    · exact le_refl _
  have hlegal : legal ts (layer, face, level) :=
    ⟨lt_of_le_of_lt hl.2 hmax.1, lt_of_le_of_lt hf.2 hmax.2.1,
      lt_of_le_of_lt (le_trans hv.2 htrim) hmax.2.2⟩
  rw [List.filter_append, List.filter_append,
    filter_of_kind pre _ (is_mismatch_at_kind layer face level) hpre,
    filter_of_kind post _ (is_mismatch_at_kind layer face level) hpost,
    List.nil_append, List.append_nil,
    validate_report_filter ts inputs _ _ _ _ _ _ _ _ _ layer face level
      (fun l f v hne => slot_report_mismatch_other ts inputs _ _ layer face level l f v hne)
      hl hf hv]
  unfold slot_report
  rw [img_id_promoted_eq ts hw hlegal hl.2 hfit, hslot]
  simp only []
  split
  · simp [LogEntry.is_mismatch_at]
  · rfl

/-- C10: when an image was accepted, for every coordinate of
`[min_layer, max_layer] × [min_face, max_face] × [min_level, max_level]`
(`max_level` after the trimming) exactly one "Missing image" warning is logged
if no accepted image has that destination, and none otherwise; and if the
allocation succeeds `make_texture_` returns a texture with a view and leaves
the status either as it was or raised to `status_warning`. -/
theorem C10_missing_slots_do_not_abort (ts : TextureStorageTraits) (hw : ts.WellFormed)
    (gfx : GfxTraits) (cfg : settings_) (app : AppState) (inputs : List input_)
    (base_idx : Nat) (recorded : ivec3)
    (hbase : (scan ts inputs).base = some (base_idx, recorded))
    (hfit : promoted_key_fits ts (scan ts inputs).max_layer) :
    (∀ alloc_ok : Bool, ∃ report,
      (make_texture_ ts gfx cfg alloc_ok app inputs).app.log = app.log ++ report ∧
      ∀ layer face level : Nat,
        (scan ts inputs).min_layer ≤ layer ∧ layer ≤ (scan ts inputs).max_layer →
        (scan ts inputs).min_face ≤ face ∧ face ≤ (scan ts inputs).max_face →
        (scan ts inputs).min_level ≤ level ∧
          level ≤ final_max_level ts (scan ts inputs) recorded →
        (report.filter (LogEntry.is_missing_at layer face level)).length
          = if ∀ e ∈ encounter ts inputs, e.1 ≠ (layer, face, level) then 1 else 0) ∧
    (∃ view : TextureView,
      (make_texture_ ts gfx cfg true app inputs).texture = some { view := some view }) ∧
    ((make_texture_ ts gfx cfg true app inputs).app.status_ = app.status_ ∨
      (make_texture_ ts gfx cfg true app inputs).app.status_
        = set_status_ app.status_ status_code_.status_warning) := by
  refine ⟨fun alloc_ok => ?_, make_texture_returns ts hw gfx cfg app inputs base_idx recorded hbase,
    ?_⟩
  · obtain ⟨pre, post, hpre, hpost, hlog, _⟩ :=
      make_texture_app ts gfx cfg alloc_ok app inputs base_idx recorded hbase
    refine ⟨_, hlog, fun layer face level hl hf hv => ?_⟩
    have hmax := scan_max_legal ts inputs (encounter_ne_nil_of_base ts inputs _ hbase)
    have htrim : final_max_level ts (scan ts inputs) recorded ≤ (scan ts inputs).max_level := by
      unfold final_max_level trim_levels
      split
      · have h1 := expected_levels_pos ts hw (final_base_dim (scan ts inputs) recorded)
        have h2 := Nat.mod_le ((scan ts inputs).min_level +
          expected_levels ts (final_base_dim (scan ts inputs) recorded) - 1)
          (2 ^ ts.level_bits)
        simp only []
        omega
      · exact le_refl _
    have hlegal : legal ts (layer, face, level) :=
      ⟨lt_of_le_of_lt hl.2 hmax.1, lt_of_le_of_lt hf.2 hmax.2.1,
        lt_of_le_of_lt (le_trans hv.2 htrim) hmax.2.2⟩
    rw [List.filter_append, List.filter_append,
      filter_of_kind pre _ (is_missing_at_kind layer face level) hpre,
      filter_of_kind post _ (is_missing_at_kind layer face level) hpost,
      List.nil_append, List.append_nil,
      validate_report_filter ts inputs _ _ _ _ _ _ _ _ _ layer face level
        (fun l f v hne => slot_report_missing_other ts inputs _ _ layer face level l f v hne)
        hl hf hv]
    have hnone := scan_images_none_iff ts hw inputs (layer, face, level) hlegal
    unfold slot_report
    rw [img_id_promoted_eq ts hw hlegal hl.2 hfit]
    cases hs : (scan ts inputs).images (img_id ts layer face level) with
    | none =>
      rw [if_pos (hnone.1 hs)]
      simp [LogEntry.is_missing_at]
    | some v =>
      have : ¬ ∀ e ∈ encounter ts inputs, e.1 ≠ (layer, face, level) := by
        intro h
        have := hnone.2 h
        simp only [] at this
        rw [hs] at this
        exact Option.noConfusion this
      rw [if_neg this]
      simp only []
      split <;> rfl
  · obtain ⟨pre, post, _, _, _, hall⟩ :=
      make_texture_app ts gfx cfg true app inputs base_idx recorded hbase
    rw [hall rfl, warn_all_status]
    split
    · exact Or.inl rfl
    · exact Or.inr rfl


theorem C9_size_mismatch_iff_witness :
    ∃ report,
      (make_texture_ byte_traits sample_gfx default_settings true fresh mismatched_levels).app.log
        = fresh.log ++ report ∧
      (report.filter (LogEntry.is_mismatch_at 0 0 1)).length
        = if (image_2d 0 0 1 7 7).dim ≠ mipmap_dim
            (final_base_dim (scan byte_traits mismatched_levels) { x := 16, y := 16, z := 1 }) 1
          then 1 else 0 :=
  C9_size_mismatch_iff byte_traits (by decide) sample_gfx default_settings true fresh
    mismatched_levels 0 { x := 16, y := 16, z := 1 } 0 0 1 0 (image_2d 0 0 1 7 7)
    (by decide) (by decide) (by decide) (by decide) (by decide) (by decide)

theorem C10_missing_slots_do_not_abort_witness :
    (∃ view : TextureView,
      (make_texture_ byte_traits sample_gfx default_settings true fresh levels_2_3_4_7).texture
        = some { view := some view }) ∧
    ((make_texture_ byte_traits sample_gfx default_settings true fresh
        levels_2_3_4_7).app.status_ = fresh.status_ ∨
      (make_texture_ byte_traits sample_gfx default_settings true fresh
        levels_2_3_4_7).app.status_ = set_status_ fresh.status_ status_code_.status_warning) :=
  (C10_missing_slots_do_not_abort byte_traits (by decide) sample_gfx default_settings fresh
    levels_2_3_4_7 0 { x := 16, y := 16, z := 1 } (by decide) (by decide)).2

/-- C11: when at least one image is accepted (and the allocation succeeds),
the view returned has `max_layer + 1` layers, `max_face + 1` faces and
`max_level + 1` levels with `max_level` after the trimming; `max_layer` and
`max_face` are the greatest destination layer and face of the accepted images,
the trimmed `max_level` is at most their greatest destination level; each
count is at least 1 and at most the maximum of its axis, so no index type
wraps. -/
theorem C11_merged_counts (ts : TextureStorageTraits) (hw : ts.WellFormed) (gfx : GfxTraits)
    (cfg : settings_) (app : AppState) (inputs : List input_)
    (hne : encounter ts inputs ≠ []) :
    ∃ (view : TextureView) (base_idx : Nat) (recorded : ivec3),
      (make_texture_ ts gfx cfg true app inputs).texture = some { view := some view } ∧
      (scan ts inputs).base = some (base_idx, recorded) ∧
      view.layers = (scan ts inputs).max_layer + 1 ∧
      view.faces = (scan ts inputs).max_face + 1 ∧
      view.levels = final_max_level ts (scan ts inputs) recorded + 1 ∧
      ((∃ e ∈ encounter ts inputs, e.1.1 = (scan ts inputs).max_layer) ∧
        ∀ e ∈ encounter ts inputs, e.1.1 ≤ (scan ts inputs).max_layer) ∧
      ((∃ e ∈ encounter ts inputs, e.1.2.1 = (scan ts inputs).max_face) ∧
        ∀ e ∈ encounter ts inputs, e.1.2.1 ≤ (scan ts inputs).max_face) ∧
      ((∃ e ∈ encounter ts inputs, e.1.2.2 = (scan ts inputs).max_level) ∧
        (∀ e ∈ encounter ts inputs, e.1.2.2 ≤ (scan ts inputs).max_level) ∧
        final_max_level ts (scan ts inputs) recorded ≤ (scan ts inputs).max_level) ∧
      (1 ≤ view.layers ∧ view.layers ≤ ts.max_layers) ∧
      (1 ≤ view.faces ∧ view.faces ≤ ts.max_faces) ∧
      (1 ≤ view.levels ∧ view.levels ≤ ts.max_levels) := by
  obtain ⟨_, e, _, _, _, _, _, hbase⟩ := scan_base_spec ts hw inputs hne
  obtain ⟨base_view, hview⟩ := base_view_exists ts hw inputs _ _ hbase
  obtain ⟨⟨c1, d1⟩, ⟨c2, d2⟩, ⟨c3, d3⟩⟩ := merged_counts_spec ts hw inputs e.2.2.dim hne
  obtain ⟨m1, m2, m3⟩ := scan_max_spec ts hw inputs hne
  refine ⟨merged_view ts gfx cfg (scan ts inputs) e.2.2.dim base_view, e.2.1, e.2.2.dim, ?_,
    hbase, c1, c2, c3, m1, m2,
    ⟨m3.1, m3.2, final_max_level_le ts hw _ _⟩, ?_, ?_, ?_⟩
  · rw [make_texture_ok ts gfx cfg app inputs _ _ base_view hbase hview]
  · change 1 ≤ merged_layers ts (scan ts inputs) ∧ merged_layers ts (scan ts inputs) ≤ _
    exact ⟨by omega, d1⟩
  · change 1 ≤ merged_faces ts (scan ts inputs) ∧ merged_faces ts (scan ts inputs) ≤ _
    exact ⟨by omega, d2⟩
  · change 1 ≤ merged_levels ts (scan ts inputs) e.2.2.dim ∧
      merged_levels ts (scan ts inputs) e.2.2.dim ≤ _
    exact ⟨by omega, d3⟩

theorem C11_merged_counts_witness :
    ∃ (view : TextureView) (base_idx : Nat) (recorded : ivec3),
      (make_texture_ byte_traits sample_gfx default_settings true fresh levels_2_3_4).texture
        = some { view := some view } ∧
      (scan byte_traits levels_2_3_4).base = some (base_idx, recorded) ∧
      view.layers = (scan byte_traits levels_2_3_4).max_layer + 1 ∧
      view.faces = (scan byte_traits levels_2_3_4).max_face + 1 ∧
      view.levels = final_max_level byte_traits (scan byte_traits levels_2_3_4) recorded + 1 :=
  let ⟨view, base_idx, recorded, h1, h2, h3, h4, h5, _⟩ :=
    C11_merged_counts byte_traits (by decide) sample_gfx default_settings fresh levels_2_3_4
      (by decide)
  ⟨view, base_idx, recorded, h1, h2, h3, h4, h5⟩

/-- C12 as stated fails for an overridden class: with two layers and the
class overridden to planar, a non-array class whose array counterpart exists,
the class of the merged view stays planar. -/
theorem C12_counterexample :
    sample_gfx.is_array TextureClass.planar = false ∧
    array_counterpart TextureClass.planar = TextureClass.planar_array ∧
    ((make_texture_ byte_traits sample_gfx planar_override true fresh two_layers).texture.bind
        Texture.view).map TextureView.layers = some 2 ∧
    ((make_texture_ byte_traits sample_gfx planar_override true fresh two_layers).texture.bind
        Texture.view).map TextureView.texture_class = some TextureClass.planar ∧
    (make_texture_ byte_traits sample_gfx planar_override true fresh two_layers).app.log.filter
        LogEntry.is_non_array = [LogEntry.non_array_class 2] := by
  decide

/-- C12 (amended): an explicitly overridden class is used as given.  A class
taken from the base input is replaced by its array counterpart (lineal by
lineal_array, planar by planar_array, volumetric by volumetric_array,
directional by directional_array) if the merged layer count is > 1 and the
class is not an array class, and is kept otherwise.  In every case exactly
one "Using non-array texture class" notice is logged if the layer count is
> 1 and the resolved class is not an array class, and none otherwise. -/
theorem C12_class_resolution (ts : TextureStorageTraits) (gfx : GfxTraits) (cfg : settings_)
    (app : AppState) (inputs : List input_) (base_idx : Nat) (recorded : ivec3)
    (base_view : TextureView)
    (hbase : (scan ts inputs).base = some (base_idx, recorded))
    (hview : (inputs.map input_.texture).getD base_idx { view := none }
      = { view := some base_view }) :
    ∃ (view : TextureView) (report : List LogEntry),
      (make_texture_ ts gfx cfg true app inputs).texture = some { view := some view } ∧
      (make_texture_ ts gfx cfg true app inputs).app.log = app.log ++ report ∧
      (cfg.override_tex_class_ = true → view.texture_class = cfg.tex_class_) ∧
      (cfg.override_tex_class_ = false → view.layers > 1 →
        gfx.is_array base_view.texture_class = false →
        (base_view.texture_class = TextureClass.lineal →
          view.texture_class = TextureClass.lineal_array) ∧
        (base_view.texture_class = TextureClass.planar →
          view.texture_class = TextureClass.planar_array) ∧
        (base_view.texture_class = TextureClass.volumetric →
          view.texture_class = TextureClass.volumetric_array) ∧
        (base_view.texture_class = TextureClass.directional →
          view.texture_class = TextureClass.directional_array)) ∧
      (cfg.override_tex_class_ = false →
        view.layers ≤ 1 ∨ gfx.is_array base_view.texture_class = true →
        view.texture_class = base_view.texture_class) ∧
      (report.filter LogEntry.is_non_array).length
        = if view.layers > 1 ∧ gfx.is_array view.texture_class = false then 1 else 0 := by
  refine ⟨merged_view ts gfx cfg (scan ts inputs) recorded base_view,
    merge_entries ts gfx cfg inputs (scan ts inputs) recorded base_view, ?_, ?_, ?_, ?_, ?_, ?_⟩
  · rw [make_texture_ok ts gfx cfg app inputs _ _ base_view hbase hview]
  · rw [make_texture_ok ts gfx cfg app inputs _ _ base_view hbase hview, warn_all_log]
  · intro ho
    change choose_tex_class gfx cfg base_view.texture_class _ = _
    unfold choose_tex_class
    rw [if_pos ho]
  · intro ho hl ha
    change merged_layers ts (scan ts inputs) > 1 at hl
    have hc : merged_class ts gfx cfg (scan ts inputs) base_view
        = array_counterpart base_view.texture_class := by
      unfold merged_class choose_tex_class
      rw [if_neg (by simp [ho]), if_pos ⟨hl, by simp [ha]⟩]
    change (_ → merged_class ts gfx cfg (scan ts inputs) base_view = _) ∧
      (_ → merged_class ts gfx cfg (scan ts inputs) base_view = _) ∧
      (_ → merged_class ts gfx cfg (scan ts inputs) base_view = _) ∧
      (_ → merged_class ts gfx cfg (scan ts inputs) base_view = _)
    rw [hc]
    refine ⟨?_, ?_, ?_, ?_⟩ <;> intro h <;> rw [h] <;> rfl
  · intro ho hor
    change merged_layers ts (scan ts inputs) ≤ 1 ∨ _ at hor
    change choose_tex_class gfx cfg base_view.texture_class _ = _
    unfold choose_tex_class
    rw [if_neg (by simp [ho]), if_neg]
    rintro ⟨hl, ha⟩
    rcases hor with h | h
    · omega
    · exact ha h
  · rw [merge_entries_filter_class ts gfx cfg inputs _ recorded base_view _ is_non_array_stage]
    change _ = if merged_layers ts (scan ts inputs) > 1 ∧
      gfx.is_array (merged_class ts gfx cfg (scan ts inputs) base_view) = false then 1 else 0
    unfold class_entries
    simp only [List.filter_append, List.length_append, length_filter_ite,
      LogEntry.is_non_array, Bool.false_eq_true, and_false, if_false, and_true, Nat.add_zero]
    by_cases hc : merged_layers ts (scan ts inputs) > 1 ∧
        gfx.is_array (merged_class ts gfx cfg (scan ts inputs) base_view) = false
    · rw [if_pos hc, if_pos ⟨hc.1, by simp [hc.2]⟩]
    · rw [if_neg hc, if_neg (by
        rintro ⟨h1, h2⟩
        exact hc ⟨h1, by simpa using h2⟩)]

theorem C12_class_resolution_witness :
    ∃ (view : TextureView) (report : List LogEntry),
      (make_texture_ byte_traits sample_gfx default_settings true fresh two_layers).texture
        = some { view := some view } ∧
      (make_texture_ byte_traits sample_gfx default_settings true fresh two_layers).app.log
        = fresh.log ++ report ∧
      (view.layers > 1 → view.texture_class = TextureClass.planar_array) :=
  let ⟨view, report, h1, h2, _, h4, _⟩ :=
    C12_class_resolution byte_traits sample_gfx default_settings fresh two_layers 0
      { x := 4, y := 4, z := 1 }
      (planar_view [image_2d 0 0 0 4 4, image_2d 1 0 0 4 4]) (by decide) (by decide)
  ⟨view, report, h1, h2, fun hl => (h4 (by decide) hl (by decide)).2.1 (by decide)⟩

/-- C13 as stated fails when `required_block_size` does not fit the block
size type: for blocks of 8×8 pixels with four one-byte words a pixel it is
256, the block size 16 is replaced by 256 converted to one byte, which is 0,
and the final block size is smaller than `required_block_size`. -/
theorem C13_counterexample :
    ((make_texture_ byte_traits sample_gfx default_settings true fresh blocks_8x8).texture.bind
        Texture.view).map (fun v => required_block_size sample_gfx v.format) = some 256 ∧
    ((make_texture_ byte_traits sample_gfx default_settings true fresh blocks_8x8).texture.bind
        Texture.view).map (fun v => v.format.block_size) = some 0 ∧
    ((make_texture_ byte_traits sample_gfx default_settings true fresh blocks_8x8).texture.bind
        Texture.view).map TextureView.block_span = some 16 ∧
    (make_texture_ byte_traits sample_gfx default_settings true fresh blocks_8x8).app.log
      = [LogEntry.block_size_enlarged 16 256] := by
  decide

/-- C13 (amended): with `required_block_size` the product of the block
dimensions, the word size and the word count of the packing in effect, the
reconciliation replaces the block size (by `required_block_size` converted to
the block size type, with one "Block size enlarged" notice) exactly when it
was smaller, and the block span (by the final block size, with one "Block
span increased" notice) exactly when it was smaller than the final block
size; the final block span is at least the final block size; and when
`required_block_size` fits the block size type the conversion keeps its value
and the final block size is at least `required_block_size`.  The block size
type is one byte wide, like the `U8` block span. -/
theorem C13_block_size_and_span (ts : TextureStorageTraits) (gfx : GfxTraits)
    (cfg : settings_) (app : AppState) (inputs : List input_) (base_idx : Nat)
    (recorded : ivec3) (base_view : TextureView)
    (hbase : (scan ts inputs).base = some (base_idx, recorded))
    (hview : (inputs.map input_.texture).getD base_idx { view := none }
      = { view := some base_view })
    (hbs : gfx.sizeof_block_size_type = 1)
    (hsize : base_view.format.block_size < 256) :
    ∃ (view : TextureView) (report : List LogEntry),
      (make_texture_ ts gfx cfg true app inputs).texture = some { view := some view } ∧
      (make_texture_ ts gfx cfg true app inputs).app.log = app.log ++ report ∧
      required_block_size gfx view.format
        = (view.format.block_dim.x * view.format.block_dim.y * view.format.block_dim.z).toNat *
            gfx.block_word_size view.format.packing * gfx.block_word_count view.format.packing ∧
      required_block_size gfx view.format = required_block_size gfx
        (override_block gfx cfg base_view.format base_view.block_span).1 ∧
      view.format.block_size
        = (if required_block_size gfx view.format
              > (override_block gfx cfg base_view.format base_view.block_span).1.block_size
            then to_block_size gfx (required_block_size gfx view.format)
            else (override_block gfx cfg base_view.format base_view.block_span).1.block_size) ∧
      (report.filter LogEntry.is_block_size_enlarged).length
        = (if required_block_size gfx view.format
              > (override_block gfx cfg base_view.format base_view.block_span).1.block_size
            then 1 else 0) ∧
      view.block_span
        = (if (override_block gfx cfg base_view.format base_view.block_span).2
              < view.format.block_size
            then view.format.block_size
            else (override_block gfx cfg base_view.format base_view.block_span).2) ∧
      (report.filter LogEntry.is_block_span_increased).length
        = (if (override_block gfx cfg base_view.format base_view.block_span).2
              < view.format.block_size then 1 else 0) ∧
      view.format.block_size ≤ view.block_span ∧
      (required_block_size gfx view.format < 256 →
        to_block_size gfx (required_block_size gfx view.format)
          = required_block_size gfx view.format ∧
        required_block_size gfx view.format ≤ view.format.block_size) := by
  have hfst := fitted_block_fst gfx cfg base_view
  have hsnd := fitted_block_snd gfx cfg base_view
  obtain ⟨f1, f2, _, _⟩ := fitted_block_fields gfx cfg base_view
  have hlt := override_block_size_lt gfx cfg base_view (by rw [hbs]; exact hsize)
  rw [hbs] at hlt
  have hreq : required_block_size gfx (override_color cfg (fitted_block gfx cfg base_view).1)
      = required_block_size gfx
          (override_block gfx cfg base_view.format base_view.block_span).1 := by
    unfold required_block_size
    rw [(override_color_fields cfg _).2.1, (override_color_fields cfg _).2.2.1, f1, f2]
  have hsz : (override_color cfg (fitted_block gfx cfg base_view).1).block_size
      = (if required_block_size gfx
              (override_block gfx cfg base_view.format base_view.block_span).1
            > (override_block gfx cfg base_view.format base_view.block_span).1.block_size
          then to_block_size gfx (required_block_size gfx
              (override_block gfx cfg base_view.format base_view.block_span).1)
          else (override_block gfx cfg base_view.format base_view.block_span).1.block_size) := by
    rw [(override_color_fields cfg _).1, hfst]
    split <;> rfl
  have hto : ∀ v, to_block_size gfx v < 256 := by
    intro v
    unfold to_block_size
    rw [hbs]
    exact Nat.mod_lt _ (by norm_num)
  have hszlt : (override_color cfg (fitted_block gfx cfg base_view).1).block_size < 256 := by
    rw [hsz]
    split
    · exact hto _
    · exact hlt
  have hfsz : (fitted_block gfx cfg base_view).1.block_size
      = (override_color cfg (fitted_block gfx cfg base_view).1).block_size :=
    (override_color_fields cfg _).1.symm
  have hspan : (fitted_block gfx cfg base_view).2
      = (if (override_block gfx cfg base_view.format base_view.block_span).2
              < (override_color cfg (fitted_block gfx cfg base_view).1).block_size
          then (override_color cfg (fitted_block gfx cfg base_view).1).block_size
          else (override_block gfx cfg base_view.format base_view.block_span).2) := by
    rw [hsnd, hfsz]
    split
    · exact Nat.mod_eq_of_lt hszlt
    · rfl
  refine ⟨merged_view ts gfx cfg (scan ts inputs) recorded base_view,
    merge_entries ts gfx cfg inputs (scan ts inputs) recorded base_view, ?_, ?_, rfl, hreq,
    ?_, ?_, hspan, ?_, ?_, ?_⟩
  · rw [make_texture_ok ts gfx cfg app inputs _ _ base_view hbase hview]
  · rw [make_texture_ok ts gfx cfg app inputs _ _ base_view hbase hview, warn_all_log]
  · change (override_color cfg (fitted_block gfx cfg base_view).1).block_size = _
    rw [hsz]
    change _ = if required_block_size gfx (override_color cfg (fitted_block gfx cfg base_view).1)
      > _ then to_block_size gfx (required_block_size gfx
        (override_color cfg (fitted_block gfx cfg base_view).1)) else _
    rw [hreq]
  · rw [merge_entries_filter_block ts gfx cfg inputs _ recorded base_view _
      is_block_size_enlarged_stage, block_entries_filter_size]
    change _ = if required_block_size gfx (override_color cfg (fitted_block gfx cfg base_view).1)
      > _ then 1 else 0
    rw [hreq]
  · rw [merge_entries_filter_block ts gfx cfg inputs _ recorded base_view _
      is_block_span_increased_stage, block_entries_filter_span]
    change _ = if _ < (override_color cfg (fitted_block gfx cfg base_view).1).block_size
      then 1 else 0
    rw [hsz]
  · change (override_color cfg (fitted_block gfx cfg base_view).1).block_size
      ≤ (fitted_block gfx cfg base_view).2
    rw [hspan]
    split <;> omega
  · intro hfit
    change required_block_size gfx (override_color cfg (fitted_block gfx cfg base_view).1) < 256
      at hfit
    change to_block_size gfx
        (required_block_size gfx (override_color cfg (fitted_block gfx cfg base_view).1))
        = required_block_size gfx (override_color cfg (fitted_block gfx cfg base_view).1) ∧
      required_block_size gfx (override_color cfg (fitted_block gfx cfg base_view).1)
        ≤ (override_color cfg (fitted_block gfx cfg base_view).1).block_size
    have hto2 : to_block_size gfx
        (required_block_size gfx (override_color cfg (fitted_block gfx cfg base_view).1))
        = required_block_size gfx (override_color cfg (fitted_block gfx cfg base_view).1) := by
      unfold to_block_size
      rw [hbs]
      exact Nat.mod_eq_of_lt hfit
    refine ⟨hto2, ?_⟩
    rw [hsz, ← hreq]
    split
    · rw [hto2]
    · omega

theorem C13_block_size_and_span_witness :
    ∃ (view : TextureView),
      (make_texture_ byte_traits four_byte_words default_settings true fresh two_layers).texture
        = some { view := some view } ∧
      view.format.block_size ≤ view.block_span ∧
      (required_block_size four_byte_words view.format < 256 →
        required_block_size four_byte_words view.format ≤ view.format.block_size) :=
  let ⟨view, _, h1, _, _, _, _, _, _, _, h9, h10⟩ :=
    C13_block_size_and_span byte_traits four_byte_words default_settings fresh two_layers 0
      { x := 4, y := 4, z := 1 }
      (planar_view [image_2d 0 0 0 4 4, image_2d 1 0 0 4 4]) (by decide) (by decide) rfl
      (by decide)
  ⟨view, h1, h9, fun h => (h10 h).2⟩

/-- C14 as stated fails: for a custom block format with four components, a
packing of four words of four bytes (sixteen bytes a block) and the block
span 8, the final block span is 16 but the only notice logged is "Block span
increased": the custom format sets the block size to the sixteen bytes of the
packing, so that the block size is not enlarged. -/
theorem C14_counterexample :
    required_block_size four_byte_words
      (override_block four_byte_words custom_block_span_8 rgba_format 4).1 = 16 ∧
    ((make_texture_ byte_traits four_byte_words custom_block_span_8 true fresh
        two_layers).texture.bind Texture.view).map TextureView.block_span = some 16 ∧
    (make_texture_ byte_traits four_byte_words custom_block_span_8 true fresh two_layers).app.log
      = [LogEntry.block_span_increased 8 16] ∧
    ((make_texture_ byte_traits four_byte_words custom_block_span_8 true fresh
        two_layers).app.log.filter LogEntry.is_enlargement).length = 1 := by
  decide

/-- C14 (amended): for a custom block format request with components = 4, a
packing whose required block size is 16 bytes, and an explicit block span of
8, reconciliation yields a block size of 16 and a final block span of 16 and
records exactly one enlargement warning, "Block span increased" from 8 to 16. -/
theorem C14_custom_block_span (ts : TextureStorageTraits) (gfx : GfxTraits)
    (cfg : settings_) (app : AppState) (inputs : List input_) (base_idx : Nat)
    (recorded : ivec3) (base_view : TextureView)
    (hbase : (scan ts inputs).base = some (base_idx, recorded))
    (hview : (inputs.map input_.texture).getD base_idx { view := none }
      = { view := some base_view })
    (hov : cfg.override_block_ = true) (hcomp : cfg.components_ = 4)
    (hreq : gfx.block_word_size cfg.packing_ * gfx.block_word_count cfg.packing_ = 16)
    (hspan : cfg.block_span_ = 8) (hbs : 1 ≤ gfx.sizeof_block_size_type) :
    ∃ (view : TextureView) (report : List LogEntry),
      (make_texture_ ts gfx cfg true app inputs).texture = some { view := some view } ∧
      (make_texture_ ts gfx cfg true app inputs).app.log = app.log ++ report ∧
      view.format.packing = cfg.packing_ ∧
      view.format.components = 4 ∧
      required_block_size gfx view.format = 16 ∧
      view.format.block_size = 16 ∧
      view.block_span = 16 ∧
      report.filter LogEntry.is_enlargement = [LogEntry.block_span_increased 8 16] := by
  have h16 : 16 < 2 ^ (8 * gfx.sizeof_block_size_type) :=
    calc 16 < 2 ^ 8 := by norm_num
      _ ≤ 2 ^ (8 * gfx.sizeof_block_size_type) := Nat.pow_le_pow_right (by norm_num) (by omega)
  have ho : override_block gfx cfg base_view.format base_view.block_span
      = ({ base_view.format with
            packing := cfg.packing_, block_dim := { x := 1, y := 1, z := 1 }, block_size := 16,
            components := 4, component_types := cfg.component_types_,
            swizzles := cfg.swizzles_ }, 8) := by
    unfold override_block to_block_size
    rw [if_pos hov, hreq, hcomp, hspan, Nat.mod_eq_of_lt h16]
  have hr : required_block_size gfx
      (override_block gfx cfg base_view.format base_view.block_span).1 = 16 := by
    rw [ho]
    change ((1 : Int) * 1 * 1).toNat * gfx.block_word_size cfg.packing_ *
      gfx.block_word_count cfg.packing_ = 16
    have h1 : ((1 : Int) * 1 * 1).toNat = 1 := by decide
    rw [h1, Nat.one_mul, hreq]
  have hf1 : (fitted_block gfx cfg base_view).1
      = (override_block gfx cfg base_view.format base_view.block_span).1 := by
    rw [fitted_block_fst, if_neg]
    rw [hr, ho]
    exact Nat.lt_irrefl 16
  have hf2 : (fitted_block gfx cfg base_view).2 = 16 := by
    rw [fitted_block_snd, hf1, ho]
    rfl
  obtain ⟨c1, c2, c3, c4⟩ := override_color_fields cfg (fitted_block gfx cfg base_view).1
  refine ⟨merged_view ts gfx cfg (scan ts inputs) recorded base_view,
    merge_entries ts gfx cfg inputs (scan ts inputs) recorded base_view, ?_, ?_, ?_, ?_, ?_,
    ?_, hf2, ?_⟩
  · rw [make_texture_ok ts gfx cfg app inputs _ _ base_view hbase hview]
  · rw [make_texture_ok ts gfx cfg app inputs _ _ base_view hbase hview, warn_all_log]
  · change (override_color cfg (fitted_block gfx cfg base_view).1).packing = _
    rw [c2, hf1, ho]
  · change (override_color cfg (fitted_block gfx cfg base_view).1).components = _
    rw [c4, hf1, ho]
  · change required_block_size gfx (override_color cfg (fitted_block gfx cfg base_view).1) = _
    rw [← hr]
    unfold required_block_size
    rw [c2, c3, hf1]
  · change (override_color cfg (fitted_block gfx cfg base_view).1).block_size = _
    rw [c1, hf1, ho]
  · rw [merge_entries_filter_block ts gfx cfg inputs _ recorded base_view _
      is_enlargement_stage]
    unfold block_entries
    rw [hr, ho]
    by_cases hc : 4 > gfx.component_count cfg.packing_ <;>
      simp [hc, LogEntry.is_enlargement]

theorem C14_custom_block_span_witness :
    ∃ (view : TextureView) (report : List LogEntry),
      (make_texture_ byte_traits four_byte_words custom_block_span_8 true fresh
        two_layers).texture = some { view := some view } ∧
      view.block_span = 16 ∧
      report.filter LogEntry.is_enlargement = [LogEntry.block_span_increased 8 16] :=
  let ⟨view, report, h1, _, _, _, _, _, h7, h8⟩ :=
    C14_custom_block_span byte_traits four_byte_words custom_block_span_8 fresh two_layers 0
      { x := 4, y := 4, z := 1 }
      (planar_view [image_2d 0 0 0 4 4, image_2d 1 0 0 4 4]) (by decide) (by decide) rfl rfl
      rfl rfl (by decide)
  ⟨view, report, h1, h7, h8⟩

/-- C15 as stated fails: with a custom block format of the packing 1, which
holds one component, and the default four components, the merged format has
four components; the conflict is only reported. -/
theorem C15_counterexample :
    one_component_packing.component_count 1 = 1 ∧
    ((make_texture_ byte_traits one_component_packing custom_packing_1 true fresh
        two_layers).texture.bind Texture.view).map (fun v => v.format.packing) = some 1 ∧
    ((make_texture_ byte_traits one_component_packing custom_packing_1 true fresh
        two_layers).texture.bind Texture.view).map (fun v => v.format.components) = some 4 ∧
    (make_texture_ byte_traits one_component_packing custom_packing_1 true fresh
        two_layers).app.log = [LogEntry.component_count_conflict 4 1] := by
  decide

/-- C15 (amended): the packing and the component count of the merged format
are those of the custom block format when one is requested and those of the
base input otherwise; they are not adjusted to each other.  Exactly one
"Component count conflict" notice is logged when the component count exceeds
`component_count(packing)` and none otherwise, so that the merged format
satisfies components <= component_count(packing) exactly when no such notice
is logged. -/
theorem C15_component_count (ts : TextureStorageTraits) (gfx : GfxTraits)
    (cfg : settings_) (app : AppState) (inputs : List input_) (base_idx : Nat)
    (recorded : ivec3) (base_view : TextureView)
    (hbase : (scan ts inputs).base = some (base_idx, recorded))
    (hview : (inputs.map input_.texture).getD base_idx { view := none }
      = { view := some base_view }) :
    ∃ (view : TextureView) (report : List LogEntry),
      (make_texture_ ts gfx cfg true app inputs).texture = some { view := some view } ∧
      (make_texture_ ts gfx cfg true app inputs).app.log = app.log ++ report ∧
      view.format.packing
        = (if cfg.override_block_ then cfg.packing_ else base_view.format.packing) ∧
      view.format.components
        = (if cfg.override_block_ then cfg.components_ else base_view.format.components) ∧
      (report.filter LogEntry.is_component_conflict).length
        = (if view.format.components > gfx.component_count view.format.packing
            then 1 else 0) ∧
      (view.format.components ≤ gfx.component_count view.format.packing ↔
        report.filter LogEntry.is_component_conflict = []) := by
  obtain ⟨_, c2, _, c4⟩ := override_color_fields cfg (fitted_block gfx cfg base_view).1
  obtain ⟨f1, _, f3, _⟩ := fitted_block_fields gfx cfg base_view
  have hp : (override_color cfg (fitted_block gfx cfg base_view).1).packing
      = (override_block gfx cfg base_view.format base_view.block_span).1.packing := by
    rw [c2, f1]
  have hc : (override_color cfg (fitted_block gfx cfg base_view).1).components
      = (override_block gfx cfg base_view.format base_view.block_span).1.components := by
    rw [c4, f3]
  have hlen : ((merge_entries ts gfx cfg inputs (scan ts inputs) recorded base_view).filter
      LogEntry.is_component_conflict).length
      = (if (override_color cfg (fitted_block gfx cfg base_view).1).components
            > gfx.component_count (override_color cfg (fitted_block gfx cfg base_view).1).packing
          then 1 else 0) := by
    rw [merge_entries_filter_block ts gfx cfg inputs _ recorded base_view _
      is_component_conflict_stage, block_entries_filter_components, hp, hc]
  refine ⟨merged_view ts gfx cfg (scan ts inputs) recorded base_view,
    merge_entries ts gfx cfg inputs (scan ts inputs) recorded base_view, ?_, ?_, ?_, ?_,
    hlen, ?_⟩
  · rw [make_texture_ok ts gfx cfg app inputs _ _ base_view hbase hview]
  · rw [make_texture_ok ts gfx cfg app inputs _ _ base_view hbase hview, warn_all_log]
  · change (override_color cfg (fitted_block gfx cfg base_view).1).packing = _
    rw [hp]
    unfold override_block
    split <;> rfl
  · change (override_color cfg (fitted_block gfx cfg base_view).1).components = _
    rw [hc]
    unfold override_block
    split <;> rfl
  · change (override_color cfg (fitted_block gfx cfg base_view).1).components
        ≤ gfx.component_count (override_color cfg (fitted_block gfx cfg base_view).1).packing ↔ _
    rw [← List.length_eq_zero, hlen]
    split <;> omega

theorem C15_component_count_witness :
    ∃ (view : TextureView) (report : List LogEntry),
      (make_texture_ byte_traits one_component_packing custom_packing_1 true fresh
        two_layers).texture = some { view := some view } ∧
      view.format.packing = 1 ∧ view.format.components = 4 ∧
      (report.filter LogEntry.is_component_conflict).length
        = (if view.format.components > one_component_packing.component_count view.format.packing
            then 1 else 0) :=
  let ⟨view, report, h1, _, h3, h4, h5, _⟩ :=
    C15_component_count byte_traits one_component_packing custom_packing_1 fresh two_layers 0
      { x := 4, y := 4, z := 1 }
      (planar_view [image_2d 0 0 0 4 4, image_2d 1 0 0 4 4]) (by decide) (by decide)
  ⟨view, report, h1, h3, h4, h5⟩

/-- C16: the handler of the output option `--colorspace` assigns `colorspace_`
to itself: given the value 2, it leaves the member at its default 1 (sRGB)
and sets the override flag, so that the merged format gets the colorspace 1,
neither the requested 2 nor the 0 of the base input; without the option the
colorspace is the base input's. -/
theorem C16_output_colorspace_not_stored :
    (output_colorspace_option default_settings 2).colorspace_ = 1 ∧
    (output_colorspace_option default_settings 2).override_colorspace_ = true ∧
    ((make_texture_ byte_traits sample_gfx (output_colorspace_option default_settings 2) true
        fresh two_layers).texture.bind Texture.view).map (fun v => v.format.colorspace)
      = some 1 ∧
    rgba_format.colorspace = 0 ∧
    ((make_texture_ byte_traits sample_gfx default_settings true fresh
        two_layers).texture.bind Texture.view).map (fun v => v.format.colorspace)
      = some 0 := by
  decide

/-- C17: if the allocation of the storage fails, `make_texture_` returns a
texture without a view, makes no copy, logs "Not enough memory" after what it
logged before and leaves the status at conversion-error or above; and
`operator()` hands no view to `write_outputs_`: its outcome does not depend on
what `write_outputs_` would do. -/
theorem C17_allocation_failure (ts : TextureStorageTraits) (gfx : GfxTraits)
    (cfg : settings_) (app : AppState) (inputs : List input_) (base_idx : Nat)
    (recorded : ivec3) (base_view : TextureView)
    (hbase : (scan ts inputs).base = some (base_idx, recorded))
    (hview : (inputs.map input_.texture).getD base_idx { view := none }
      = { view := some base_view })
    (write_outputs_ : AppState → TextureView → AppState) (start : AppState)
    (output_files_ : List output_file_) (files : List globbed_) :
    (make_texture_ ts gfx cfg false app inputs).texture = some { view := none } ∧
    (make_texture_ ts gfx cfg false app inputs).blits = [] ∧
    status_code_.status_conversion_error.value
      ≤ (make_texture_ ts gfx cfg false app inputs).app.status_ ∧
    (∃ report, (make_texture_ ts gfx cfg false app inputs).app.log
      = app.log ++ report ++ [LogEntry.not_enough_memory]) ∧
    (operator_call ts gfx cfg false write_outputs_ start output_files_ files).written = none ∧
    operator_call ts gfx cfg false write_outputs_ start output_files_ files
      = operator_call ts gfx cfg false (fun a _ => a) start output_files_ files := by
  rw [make_texture_alloc_failed ts gfx cfg app inputs _ _ base_view hbase hview]
  refine ⟨rfl, rfl, ?_,
    ⟨merge_entries ts gfx cfg inputs (scan ts inputs) recorded base_view, ?_⟩,
    operator_call_not_written ts gfx cfg _ _ _ _,
    operator_call_alloc_failed ts gfx cfg _ _ _ _⟩
  · change _ ≤ set_status_ _ _
    unfold set_status_
    split <;> omega
  · change (warn_all app _).log ++ _ = _
    rw [warn_all_log]

theorem C17_allocation_failure_witness :
    (make_texture_ byte_traits sample_gfx default_settings false fresh two_layers).texture
      = some { view := none } ∧
    (make_texture_ byte_traits sample_gfx default_settings false fresh two_layers).blits = [] ∧
    (7 : Int) ≤ (make_texture_ byte_traits sample_gfx default_settings false fresh
      two_layers).app.status_ ∧
    (operator_call byte_traits sample_gfx default_settings false (fun a _ => a) fresh []
      (two_layers.map one_path)).written = none :=
  let ⟨h1, h2, h3, _, h5, _⟩ :=
    C17_allocation_failure byte_traits sample_gfx default_settings fresh two_layers 0
      { x := 4, y := 4, z := 1 }
      (planar_view [image_2d 0 0 0 4 4, image_2d 1 0 0 4 4]) (by decide) (by decide)
      (fun a _ => a) fresh [] (two_layers.map one_path)
  ⟨h1, h2, h3, h5⟩

/-- C18: for every image of the merged view whose slot has an entry in the
table, the compositor makes one call of the blit from the image of that entry,
with the intersection of the two pixel extents as the region of the source and
of the destination; every call made is of this kind, so that its two regions
are equal and lie inside both images, whatever the two dimensions are. -/
theorem C18_blit_regions (ts : TextureStorageTraits) (gfx : GfxTraits)
    (cfg : settings_) (app : AppState) (inputs : List input_) (base_idx : Nat)
    (recorded : ivec3) (base_view : TextureView)
    (hbase : (scan ts inputs).base = some (base_idx, recorded))
    (hview : (inputs.map input_.texture).getD base_idx { view := none }
      = { view := some base_view }) :
    ∃ (view : TextureView),
      (make_texture_ ts gfx cfg true app inputs).texture = some { view := some view } ∧
      (∀ img ∈ view.images, ∀ idx src,
        (scan ts inputs).images (img_id ts img.layer img.face img.level) = some (idx, src) →
        ({ src := src, src_region := region_intersection src.dim img.dim, dst := img,
           dst_region := region_intersection src.dim img.dim } : blit_)
          ∈ (make_texture_ ts gfx cfg true app inputs).blits) ∧
      (∀ b ∈ (make_texture_ ts gfx cfg true app inputs).blits,
        b.dst ∈ view.images ∧
        (∃ idx, (scan ts inputs).images (img_id ts b.dst.layer b.dst.face b.dst.level)
          = some (idx, b.src)) ∧
        b.src_region = b.dst_region ∧
        b.src_region = region_intersection b.src.dim b.dst.dim ∧
        b.src_region = { x := min b.src.dim.x b.dst.dim.x, y := min b.src.dim.y b.dst.dim.y,
                         z := min b.src.dim.z b.dst.dim.z } ∧
        (b.src_region.x ≤ b.src.dim.x ∧ b.src_region.y ≤ b.src.dim.y ∧
          b.src_region.z ≤ b.src.dim.z) ∧
        (b.dst_region.x ≤ b.dst.dim.x ∧ b.dst_region.y ≤ b.dst.dim.y ∧
          b.dst_region.z ≤ b.dst.dim.z)) := by
  refine ⟨merged_view ts gfx cfg (scan ts inputs) recorded base_view, ?_, ?_, ?_⟩
  · rw [make_texture_ok ts gfx cfg app inputs _ _ base_view hbase hview]
  · intro img himg idx src htab
    rw [make_texture_ok ts gfx cfg app inputs _ _ base_view hbase hview]
    change _ ∈ List.flatMap _ _
    rw [List.mem_flatMap]
    exact ⟨img, himg, (mem_composite_visit ts _ img _).2 ⟨idx, src, htab, rfl⟩⟩
  · intro b hb
    rw [make_texture_ok ts gfx cfg app inputs _ _ base_view hbase hview] at hb
    change b ∈ List.flatMap _ _ at hb
    rw [List.mem_flatMap] at hb
    obtain ⟨img, himg, hbi⟩ := hb
    obtain ⟨idx, src, htab, rfl⟩ := (mem_composite_visit ts _ img b).1 hbi
    exact ⟨himg, ⟨idx, htab⟩, rfl, rfl, rfl, (region_intersection_le _ _).1,
      (region_intersection_le _ _).2⟩

theorem C18_blit_regions_witness :
    ∃ (view : TextureView),
      (make_texture_ byte_traits sample_gfx default_settings true fresh
        mismatched_levels).texture = some { view := some view } ∧
      ∀ b ∈ (make_texture_ byte_traits sample_gfx default_settings true fresh
          mismatched_levels).blits,
        b.src_region = b.dst_region ∧
        b.src_region = region_intersection b.src.dim b.dst.dim :=
  let ⟨view, h1, _, h3⟩ :=
    C18_blit_regions byte_traits sample_gfx default_settings fresh mismatched_levels 0
      { x := 16, y := 16, z := 1 }
      (planar_view [image_2d 0 0 0 16 16, image_2d 0 0 1 7 7]) (by decide) (by decide)
  ⟨view, h1, fun b hb => ⟨(h3 b hb).2.2.1, (h3 b hb).2.2.2.1⟩⟩

/-- C19: the compositor writes to the slot (layer, face, level) if and only
if the slot lies within the merged extents [0, layers) × [0, faces) ×
[0, levels) and the table has an entry at the key of the slot, which inside
the extents is the case exactly when an accepted image has that destination.
A slot without an entry is not written, and no slot of a level above the
final `max_level` (a level removed by the trimming) is written. -/
theorem C19_written_slots (ts : TextureStorageTraits) (hw : ts.WellFormed) (gfx : GfxTraits)
    (cfg : settings_) (app : AppState) (inputs : List input_) (base_idx : Nat)
    (recorded : ivec3) (base_view : TextureView)
    (hbase : (scan ts inputs).base = some (base_idx, recorded))
    (hview : (inputs.map input_.texture).getD base_idx { view := none }
      = { view := some base_view }) :
    ∃ (view : TextureView),
      (make_texture_ ts gfx cfg true app inputs).texture = some { view := some view } ∧
      view.levels = final_max_level ts (scan ts inputs) recorded + 1 ∧
      (∀ l f v, (l, f, v) ∈ written_slots (make_texture_ ts gfx cfg true app inputs).blits ↔
        (l < view.layers ∧ f < view.faces ∧ v < view.levels) ∧
          ∃ e, (scan ts inputs).images (img_id ts l f v) = some e) ∧
      (∀ l f v, l < view.layers → f < view.faces → v < view.levels →
        ((∃ e, (scan ts inputs).images (img_id ts l f v) = some e) ↔
          ∃ a ∈ encounter ts inputs, a.1 = (l, f, v))) ∧
      (∀ l f v, (scan ts inputs).images (img_id ts l f v) = none →
        (l, f, v) ∉ written_slots (make_texture_ ts gfx cfg true app inputs).blits) ∧
      (∀ l f v, final_max_level ts (scan ts inputs) recorded < v →
        (l, f, v) ∉ written_slots (make_texture_ ts gfx cfg true app inputs).blits) := by
  have hne := encounter_ne_nil_of_base ts inputs _ hbase
  obtain ⟨⟨_, d1⟩, ⟨_, d2⟩, ⟨c3, d3⟩⟩ := merged_counts_spec ts hw inputs recorded hne
  have hiff : ∀ l f v,
      (l, f, v) ∈ written_slots (make_texture_ ts gfx cfg true app inputs).blits ↔
        (l < merged_layers ts (scan ts inputs) ∧ f < merged_faces ts (scan ts inputs) ∧
          v < merged_levels ts (scan ts inputs) recorded) ∧
          ∃ e, (scan ts inputs).images (img_id ts l f v) = some e := by
    intro l f v
    rw [make_texture_ok ts gfx cfg app inputs _ _ base_view hbase hview]
    change (l, f, v) ∈ written_slots (List.flatMap (storage_images _ _ _ _) _) ↔ _
    rw [mem_written_slots]
    constructor
    · rintro ⟨img, himg, rfl, rfl, rfl, he⟩
      obtain ⟨h1, h2, h3, _⟩ := (mem_storage_images _ _ _ _ img).1 himg
      exact ⟨⟨h1, h2, h3⟩, he⟩
    · rintro ⟨⟨h1, h2, h3⟩, he⟩
      exact ⟨{ layer := l, face := f, level := v,
               dim := mipmap_dim (final_base_dim (scan ts inputs) recorded) v },
        (mem_storage_images _ _ _ _ _).2 ⟨h1, h2, h3, rfl⟩, rfl, rfl, rfl, he⟩
  refine ⟨merged_view ts gfx cfg (scan ts inputs) recorded base_view, ?_, c3, hiff, ?_, ?_, ?_⟩
  · rw [make_texture_ok ts gfx cfg app inputs _ _ base_view hbase hview]
  · intro l f v hl hf hv
    change l < merged_layers ts (scan ts inputs) at hl
    change f < merged_faces ts (scan ts inputs) at hf
    change v < merged_levels ts (scan ts inputs) recorded at hv
    exact table_entry_iff ts hw inputs (l, f, v)
      ⟨lt_of_lt_of_le hl d1, lt_of_lt_of_le hf d2, lt_of_lt_of_le hv d3⟩
  · intro l f v hnone hmem
    obtain ⟨_, e, he⟩ := (hiff l f v).1 hmem
    rw [hnone] at he
    cases he
  · intro l f v hv hmem
    obtain ⟨⟨_, _, h3⟩, _⟩ := (hiff l f v).1 hmem
    omega

theorem C19_written_slots_witness :
    ∃ (view : TextureView),
      (make_texture_ byte_traits sample_gfx default_settings true fresh
        levels_2_3_4).texture = some { view := some view } ∧
      ∀ l f v, (l, f, v) ∈ written_slots
          (make_texture_ byte_traits sample_gfx default_settings true fresh levels_2_3_4).blits ↔
        (l < view.layers ∧ f < view.faces ∧ v < view.levels) ∧
          ∃ e, (scan byte_traits levels_2_3_4).images (img_id byte_traits l f v) = some e :=
  let ⟨view, h1, _, h3, _⟩ :=
    C19_written_slots byte_traits (by decide) sample_gfx default_settings fresh levels_2_3_4 0
      { x := 16, y := 16, z := 1 }
      (planar_view [image_2d 0 0 0 16 16, image_2d 0 0 1 8 8, image_2d 0 0 2 4 4])
      (by decide) (by decide)
  ⟨view, h1, h3⟩

/-- C20: for a selected view with layer, face and level counts L, F, M ≥ 1,
the format switch issues exactly one request with the whole selected view for
beTx, KTX and DDS, and the requests of the slicer for every format other than
these and unknown; the slicer issues L*F*M requests, in the order of the
(layer, face, level) coordinates of the selection (layers outermost), which
are pairwise different, the request of a coordinate having the view of
exactly that layer, that face and that level. -/
theorem C20_slicer_requests (view : TextureView) (file : output_file_)
    (hl : 1 ≤ view.layers) (hf : 1 ≤ view.faces) (hm : 1 ≤ view.levels) :
    (file.file_format = TextureFileFormat.betx ∨ file.file_format = TextureFileFormat.ktx ∨
        file.file_format = TextureFileFormat.dds →
      write_selected view file = [file.request view]) ∧
    (file.file_format ≠ TextureFileFormat.unknown → file.file_format ≠ TextureFileFormat.betx →
        file.file_format ≠ TextureFileFormat.ktx → file.file_format ≠ TextureFileFormat.dds →
      write_selected view file = write_layer_images_ view file) ∧
    (write_layer_images_ view file).length = view.layers * view.faces * view.levels ∧
    (write_layer_images_ view file).map write_request.coordinate = selection_coordinates view ∧
    (selection_coordinates view).Nodup ∧
    (∀ r ∈ write_layer_images_ view file,
      r.view.layers = 1 ∧ r.view.faces = 1 ∧ r.view.levels = 1) ∧
    (write_layer_images_ view file).map write_request.ranges
      = (selection_coordinates view).map fun c => ((c.1, 1), (c.2.1, 1), (c.2.2, 1)) := by
  have hr : (write_layer_images_ view file).map write_request.ranges
      = (selection_coordinates view).map fun c => ((c.1, 1), (c.2.1, 1), (c.2.2, 1)) := by
    rw [write_layer_images_ranges view file hl hf hm, ranges_eq_of_coordinates]
  have hc : (write_layer_images_ view file).map write_request.coordinate
      = selection_coordinates view := by
    have h := congrArg (List.map fun (t : (Nat × Nat) × (Nat × Nat) × (Nat × Nat)) =>
      (t.1.1, t.2.1.1, t.2.2.1)) hr
    rw [List.map_map, List.map_map] at h
    have h2 : (selection_coordinates view).map
        ((fun (t : (Nat × Nat) × (Nat × Nat) × (Nat × Nat)) => (t.1.1, t.2.1.1, t.2.2.1)) ∘
          fun c => ((c.1, 1), (c.2.1, 1), (c.2.2, 1))) = selection_coordinates view :=
      List.map_id _
    rw [h2] at h
    exact h
  refine ⟨?_, ?_, ?_, hc, selection_coordinates_nodup view, ?_, hr⟩
  · intro h
    unfold write_selected
    rcases h with h | h | h <;> rw [h]
  · intro h1 h2 h3 h4
    unfold write_selected
    split <;> first | rfl | contradiction
  · rw [← List.length_map (write_layer_images_ view file) write_request.coordinate, hc,
      selection_coordinates_length]
  · intro r hmem
    have hmem2 : r.ranges ∈ (write_layer_images_ view file).map write_request.ranges :=
      List.mem_map_of_mem _ hmem
    rw [hr] at hmem2
    obtain ⟨c, _, hcr⟩ := List.mem_map.1 hmem2
    have e1 := congrArg (fun t => t.1.2) hcr
    have e2 := congrArg (fun t => t.2.1.2) hcr
    have e3 := congrArg (fun t => t.2.2.2) hcr
    exact ⟨e1.symm, e2.symm, e3.symm⟩

theorem C20_slicer_requests_witness :
    (write_layer_images_ two_by_two_view png_output).length
      = two_by_two_view.layers * two_by_two_view.faces * two_by_two_view.levels ∧
    (write_layer_images_ two_by_two_view png_output).map write_request.coordinate
      = selection_coordinates two_by_two_view ∧
    write_selected two_by_two_view png_output = write_layer_images_ two_by_two_view png_output :=
  let ⟨_, h2, h3, h4, _⟩ :=
    C20_slicer_requests two_by_two_view png_output (by decide) (by decide) (by decide)
  ⟨h3, h4, h2 (by decide) (by decide) (by decide) (by decide)⟩

/-- C26: with no output file named, `operator()` reports `status_no_output`
and returns before anything is loaded: `make_texture_` is not called and no
view reaches `write_outputs_`, whatever the input files are; the status is
`status_no_output` (or `status_no_input` when there is no input file either).
No dry-run takes place. -/
theorem C26_no_output_no_merge (ts : TextureStorageTraits) (gfx : GfxTraits) (cfg : settings_)
    (alloc_ok : Bool) (write_outputs_ : AppState → TextureView → AppState)
    (files : List globbed_) :
    (operator_call ts gfx cfg alloc_ok write_outputs_ fresh [] files).made = none ∧
    (operator_call ts gfx cfg alloc_ok write_outputs_ fresh [] files).written = none ∧
    (operator_call ts gfx cfg alloc_ok write_outputs_ fresh [] files).app.log = [] ∧
    (operator_call ts gfx cfg alloc_ok write_outputs_ fresh [] files).app.status_
      = (if files.isEmpty then status_code_.status_no_input.value
          else status_code_.status_no_output.value) ∧
    (operator_call byte_traits sample_gfx default_settings true (fun a _ => a) fresh []
      (two_layers.map one_path)).app.status_ = 4 := by
  refine ⟨?_, ?_, ?_, ?_, by decide⟩ <;>
    cases hf : files.isEmpty <;>
    simp [operator_call, hf, AppState.report, fresh, set_status_, status_code_.value]

/-- C28: the scan leaves `base_input` set if and only if some image of some
input was accepted (all three destination indices below the maxima).  Then
the minima do not exceed the maxima, also the final `max_level`, so that each
of the three validation loops visits at least one index, and `make_texture_`
returns a texture with a view when the allocation succeeds; when no image is
accepted the assertion fails and nothing is returned. -/
theorem C28_base_input_assertion (ts : TextureStorageTraits) (hw : ts.WellFormed)
    (inputs : List input_) :
    ((scan ts inputs).base ≠ none ↔
      ∃ input ∈ inputs, ∃ img ∈ input.texture.images, accepted ts input img = true) ∧
    (∀ base_idx recorded, (scan ts inputs).base = some (base_idx, recorded) →
      (scan ts inputs).min_layer ≤ (scan ts inputs).max_layer ∧
      (scan ts inputs).min_face ≤ (scan ts inputs).max_face ∧
      (scan ts inputs).min_level ≤ (scan ts inputs).max_level ∧
      (scan ts inputs).min_level ≤ final_max_level ts (scan ts inputs) recorded ∧
      index_range (scan ts inputs).min_layer (scan ts inputs).max_layer ≠ [] ∧
      index_range (scan ts inputs).min_face (scan ts inputs).max_face ≠ [] ∧
      index_range (scan ts inputs).min_level (final_max_level ts (scan ts inputs) recorded)
        ≠ [] ∧
      ∀ gfx cfg app, ∃ view,
        (make_texture_ ts gfx cfg true app inputs).texture = some { view := some view }) ∧
    ((scan ts inputs).base = none →
      ∀ gfx cfg alloc_ok app, (make_texture_ ts gfx cfg alloc_ok app inputs).texture = none) := by
  have hiff : (scan ts inputs).base ≠ none ↔ encounter ts inputs ≠ [] := by
    constructor
    · intro h
      cases hb : (scan ts inputs).base with
      | none => exact absurd hb h
      | some b => exact encounter_ne_nil_of_base ts inputs b hb
    · intro hne
      obtain ⟨_, e, _, _, _, _, _, hb⟩ := scan_base_spec ts hw inputs hne
      rw [hb]
      exact Option.some_ne_none _
  have hrange : ∀ lo hi : Nat, lo ≤ hi → index_range lo hi ≠ [] := by
    intro lo hi hle h
    have hlen := congrArg List.length h
    simp only [index_range, List.length_range', List.length_nil] at hlen
    omega
  refine ⟨hiff.trans (encounter_from_ne_nil_iff ts 0 inputs), ?_, ?_⟩
  · intro base_idx recorded hbase
    have hne := encounter_ne_nil_of_base ts inputs _ hbase
    obtain ⟨h1, h2, h3⟩ := scan_min_le_max ts hw inputs hne
    have h4 := min_level_le_final ts hw inputs recorded hne
    exact ⟨h1, h2, h3, h4, hrange _ _ h1, hrange _ _ h2, hrange _ _ h4,
      fun gfx cfg app => make_texture_returns ts hw gfx cfg app inputs base_idx recorded hbase⟩
  · intro hnone gfx cfg alloc_ok app
    exact make_texture_no_base ts gfx cfg alloc_ok app inputs hnone

theorem C28_base_input_assertion_witness :
    ((scan byte_traits levels_2_3_4).base ≠ none ↔
      ∃ input ∈ levels_2_3_4, ∃ img ∈ input.texture.images,
        accepted byte_traits input img = true) ∧
    (scan byte_traits levels_2_3_4).min_level ≤ (scan byte_traits levels_2_3_4).max_level ∧
    (scan byte_traits []).base = none ∧
    (make_texture_ byte_traits sample_gfx default_settings true fresh []).texture = none :=
  ⟨(C28_base_input_assertion byte_traits (by decide) levels_2_3_4).1,
    ((C28_base_input_assertion byte_traits (by decide) levels_2_3_4).2.1 0
      { x := 16, y := 16, z := 1 } (by decide)).2.2.1,
    by decide,
    (C28_base_input_assertion byte_traits (by decide) []).2.2 (by decide) sample_gfx
      default_settings true fresh⟩

/-- C29: for base dimensions with components ≥ 1 and a `min_level` for which
the shift does not overflow, the corrected base dimensions reduced
`min_level` times are the recorded ones; so the base image, the first
accepted image of the lowest level, has the dimensions expected for its
level, and as long as the table still holds it at its slot, no "Image size
mismatch" warning is logged for that slot. -/
theorem C29_correction_right_inverse (ts : TextureStorageTraits) (hw : ts.WellFormed)
    (gfx : GfxTraits) (cfg : settings_) (alloc_ok : Bool) (app : AppState)
    (inputs : List input_) (base_idx : Nat) (recorded : ivec3)
    (hbase : (scan ts inputs).base = some (base_idx, recorded))
    (hfit : promoted_key_fits ts (scan ts inputs).max_layer)
    (hdim : 1 ≤ recorded.x ∧ 1 ≤ recorded.y ∧ 1 ≤ recorded.z)
    (hshift : (1 < recorded.x → recorded.x * 2 ^ (scan ts inputs).min_level < 2 ^ 31) ∧
      (1 < recorded.y → recorded.y * 2 ^ (scan ts inputs).min_level < 2 ^ 31) ∧
      (1 < recorded.z → recorded.z * 2 ^ (scan ts inputs).min_level < 2 ^ 31)) :
    (∀ (d : ivec3) (k : Nat), (1 ≤ d.x ∧ 1 ≤ d.y ∧ 1 ≤ d.z) →
      ((1 < d.x → d.x * 2 ^ k < 2 ^ 31) ∧ (1 < d.y → d.y * 2 ^ k < 2 ^ 31) ∧
        (1 < d.z → d.z * 2 ^ k < 2 ^ 31)) →
      mipmap_dim (correct_base_dim d k) k = d) ∧
    mipmap_dim (final_base_dim (scan ts inputs) recorded) (scan ts inputs).min_level
      = recorded ∧
    ∃ l1 e l2, encounter ts inputs = l1 ++ e :: l2 ∧
      e.2.1 = base_idx ∧ e.2.2.dim = recorded ∧ e.1.2.2 = (scan ts inputs).min_level ∧
      ((scan ts inputs).images (img_id ts e.1.1 e.1.2.1 e.1.2.2) = some e.2 →
        ∃ report, (make_texture_ ts gfx cfg alloc_ok app inputs).app.log = app.log ++ report ∧
          report.filter (LogEntry.is_mismatch_at e.1.1 e.1.2.1 e.1.2.2) = []) := by
  have hne := encounter_ne_nil_of_base ts inputs _ hbase
  have hback : mipmap_dim (final_base_dim (scan ts inputs) recorded) (scan ts inputs).min_level
      = recorded := by
    unfold final_base_dim
    split
    · exact mipmap_dim_correct_base_dim recorded _ hdim hshift
    · rename_i h0
      have : (scan ts inputs).min_level = 0 := by omega
      rw [this]
      rfl
  refine ⟨fun d k hd hf => mipmap_dim_correct_base_dim d k hd hf, hback, ?_⟩
  obtain ⟨l1, e, l2, hdec, _, _, hmin, hb⟩ := scan_base_spec ts hw inputs hne
  rw [hbase] at hb
  have hidx : base_idx = e.2.1 := congrArg Prod.fst (Option.some.inj hb)
  have hrec : recorded = e.2.2.dim := congrArg Prod.snd (Option.some.inj hb)
  have hmem : e ∈ encounter ts inputs := by
    rw [hdec]
    simp
  refine ⟨l1, e, l2, hdec, hidx.symm, hrec.symm, hmin.symm, ?_⟩
  intro hslot
  obtain ⟨pre, post, hpre, hpost, hlog, _⟩ :=
    make_texture_app ts gfx cfg alloc_ok app inputs base_idx recorded hbase
  refine ⟨_, hlog, ?_⟩
  obtain ⟨⟨_, m1⟩, ⟨_, m2⟩, _⟩ := scan_max_spec ts hw inputs hne
  obtain ⟨n1, n2, _⟩ := (scan_from_min ts 0 inputs (scan_init ts)).2 e hmem
  have hl : (scan ts inputs).min_layer ≤ e.1.1 ∧ e.1.1 ≤ (scan ts inputs).max_layer :=
    ⟨n1, m1 e hmem⟩
  have hf : (scan ts inputs).min_face ≤ e.1.2.1 ∧ e.1.2.1 ≤ (scan ts inputs).max_face :=
    ⟨n2, m2 e hmem⟩
  have hv : (scan ts inputs).min_level ≤ e.1.2.2 ∧
      e.1.2.2 ≤ final_max_level ts (scan ts inputs) recorded := by
    rw [← hmin]
    exact ⟨le_refl _, min_level_le_final ts hw inputs recorded hne⟩
  have hlegal : legal ts (e.1.1, e.1.2.1, e.1.2.2) := encounter_from_legal ts 0 inputs e hmem
  rw [List.filter_append, List.filter_append,
    filter_of_kind pre _ (is_mismatch_at_kind e.1.1 e.1.2.1 e.1.2.2) hpre,
    filter_of_kind post _ (is_mismatch_at_kind e.1.1 e.1.2.1 e.1.2.2) hpost,
    List.nil_append, List.append_nil,
    validate_report_filter ts inputs _ _ _ _ _ _ _ _ _ e.1.1 e.1.2.1 e.1.2.2
      (fun l f v hne => slot_report_mismatch_other ts inputs _ _ e.1.1 e.1.2.1 e.1.2.2 l f v hne)
      hl hf hv]
  unfold slot_report
  rw [img_id_promoted_eq ts hw hlegal hl.2 hfit, hslot]
  simp only []
  rw [← hmin, hback, if_neg (by rw [hrec]; exact not_not.2 rfl)]
  rfl

theorem C29_correction_right_inverse_witness :
    mipmap_dim (final_base_dim (scan byte_traits levels_2_3_4) { x := 16, y := 16, z := 1 })
        (scan byte_traits levels_2_3_4).min_level = { x := 16, y := 16, z := 1 } ∧
    mipmap_dim (correct_base_dim { x := 16, y := 16, z := 1 } 2) 2
      = { x := 16, y := 16, z := 1 } :=
  ⟨(C29_correction_right_inverse byte_traits (by decide) sample_gfx default_settings true fresh
      levels_2_3_4 0 { x := 16, y := 16, z := 1 } (by decide) (by decide) (by decide)
      (by decide)).2.1,
    (C29_correction_right_inverse byte_traits (by decide) sample_gfx default_settings true fresh
      levels_2_3_4 0 { x := 16, y := 16, z := 1 } (by decide) (by decide) (by decide)
      (by decide)).1 { x := 16, y := 16, z := 1 } 2 (by decide) (by decide)⟩

/-- C21: for a selection with at least one layer, face and level, the files
that the slicer writes for a single-image path are, coordinate by coordinate
of the selection (indices of the merged texture, layers outermost), named by
the convention: the stem, then `-layer<l>` if the selection has more than one
layer, then `-face<f>` if it has more than one face, then `-level<m>` if it
has more than one level, with decimal indices, then the extension, in the
same directory; each file holds one layer, one face and one level. -/
theorem C21_slice_names (view : TextureView) (file : output_file_)
    (hl : 1 ≤ view.layers) (hf : 1 ≤ view.faces) (hm : 1 ≤ view.levels) :
    (write_layer_images_ view file).map (fun r => (r.coordinate, r.path))
      = (selection_coordinates view).map (fun c => (c, sliced_path view file.path c)) ∧
    (∀ c, (sliced_path view file.path c).filename
      = file.path.stem ++ axis_suffix view.layers "-layer" c.1 ++
          axis_suffix view.faces "-face" c.2.1 ++ axis_suffix view.levels "-level" c.2.2 ++
          file.path.extension) ∧
    (∀ c, (sliced_path view file.path c).parent_path = file.path.parent_path) ∧
    (∀ n : Nat, (toString n).data = Nat.toDigits 10 n) ∧
    (∀ r ∈ write_layer_images_ view file,
      r.view.layers = 1 ∧ r.view.faces = 1 ∧ r.view.levels = 1) := by
  refine ⟨?_, fun _ => rfl, fun _ => rfl, fun _ => rfl,
    write_layer_images_single view file hl hf hm⟩
  rw [← List.zip_map' write_request.coordinate write_request.path,
    write_layer_images_coordinates view file hl hf hm,
    write_layer_images_paths view file hl hf hm,
    ← List.zip_map' (fun c => c) (sliced_path view file.path), List.map_id']

theorem C21_slice_names_witness :
    (write_layer_images_ three_layers_view png_output).map (fun r => r.path.filename)
      = ["tex-layer0.png", "tex-layer1.png", "tex-layer2.png"] ∧
    (write_layer_images_ three_layers_view png_output).map (fun r => (r.coordinate, r.path))
      = (selection_coordinates three_layers_view).map
          (fun c => (c, sliced_path three_layers_view png_output.path c)) :=
  ⟨by decide,
    (C21_slice_names three_layers_view png_output (by decide) (by decide) (by decide)).1⟩

/-- C30: for one output file and a selection with at least one layer, face
and level, the paths of the requests of the slicer are pairwise different:
two different coordinates of the selection never get the same path. -/
theorem C30_slice_paths_distinct (view : TextureView) (file : output_file_)
    (hl : 1 ≤ view.layers) (hf : 1 ≤ view.faces) (hm : 1 ≤ view.levels) :
    ((write_layer_images_ view file).map write_request.path).Nodup ∧
    (∀ c ∈ selection_coordinates view, ∀ c' ∈ selection_coordinates view,
      sliced_path view file.path c = sliced_path view file.path c' → c = c') ∧
    (write_layer_images_ view file).map write_request.path
      = (selection_coordinates view).map (sliced_path view file.path) := by
  have hinj : ∀ c ∈ selection_coordinates view, ∀ c' ∈ selection_coordinates view,
      sliced_path view file.path c = sliced_path view file.path c' → c = c' :=
    fun c hc c' hc' h => sliced_path_inj view file.path c c' hc hc' h
  refine ⟨?_, hinj, write_layer_images_paths view file hl hf hm⟩
  rw [write_layer_images_paths view file hl hf hm]
  exact (selection_coordinates_nodup view).map_on hinj

theorem C30_slice_paths_distinct_witness :
    ((write_layer_images_ two_by_two_view png_output).map write_request.path).Nodup :=
  (C30_slice_paths_distinct two_by_two_view png_output (by decide) (by decide) (by decide)).1

/-- C22: for a stem without a match of the layer, face or level pattern, an
extension (empty or starting with a dot, so not with a digit) and indices in
range, the name `stem-layer<l>-face<f>-level<m>ext`, which is the name the
slicer generates when the selection has more than one index on every axis,
is read back as l, f and m: the first case-insensitive match of each pattern
captures the digits written for its axis, which parse to the index; and no
pattern matches the suffix written for another axis. -/
theorem C22_name_round_trip (ts : TextureStorageTraits) (stem ext : String) (l f m : Nat)
    (hlayer : layer_regex stem.data = none) (hface : face_regex stem.data = none)
    (hlevel : level_regex stem.data = none) (hext : no_leading_digit ext.data)
    (hl : l < ts.max_layers) (hf : f < ts.max_faces) (hm : m < ts.max_levels) :
    (layer_regex (generated_name stem ext l f m).data = some (toString l).data ∧
      (layer_regex (generated_name stem ext l f m).data).bind
        (fun index => parse_bounded_numeric_string index (ts.max_layers - 1)) = some l) ∧
    (face_regex (generated_name stem ext l f m).data = some (toString f).data ∧
      (face_regex (generated_name stem ext l f m).data).bind
        (fun index => parse_bounded_numeric_string index (ts.max_faces - 1)) = some f) ∧
    (level_regex (generated_name stem ext l f m).data = some (toString m).data ∧
      (level_regex (generated_name stem ext l f m).data).bind
        (fun index => parse_bounded_numeric_string index (ts.max_levels - 1)) = some m) ∧
    (face_regex ("-layer" ++ toString l).data = none ∧
      level_regex ("-layer" ++ toString l).data = none ∧
      layer_regex ("-face" ++ toString f).data = none ∧
      level_regex ("-face" ++ toString f).data = none ∧
      layer_regex ("-level" ++ toString m).data = none ∧
      face_regex ("-level" ++ toString m).data = none) ∧
    (∀ (view : TextureView) (parent : String),
      view.layers > 1 → view.faces > 1 → view.levels > 1 →
      (sliced_path view { parent_path := parent, stem := stem, extension := ext }
        (l, f, m)).filename = generated_name stem ext l f m) := by
  have e1 : layer_regex (generated_name stem ext l f m).data = some (Nat.toDigits 10 l) := by
    rw [generated_name_data]
    exact layer_found _ _ _ hlayer (toDigits_all_digits l) (toDigits_ne_nil l)
      (dash_no_leading_digit _)
  have e2 : face_regex (generated_name stem ext l f m).data = some (Nat.toDigits 10 f) := by
    rw [generated_name_data]
    exact face_found _ _ _ _ hface (toDigits_all_digits l) (toDigits_all_digits f)
      (toDigits_ne_nil f) (dash_no_leading_digit _)
  have e3 : level_regex (generated_name stem ext l f m).data = some (Nat.toDigits 10 m) := by
    rw [generated_name_data]
    exact level_found _ _ _ _ _ hlevel (toDigits_all_digits l) (toDigits_all_digits f)
      (toDigits_all_digits m) (toDigits_ne_nil m) hext
  refine ⟨⟨e1, ?_⟩, ⟨e2, ?_⟩, ⟨e3, ?_⟩, ?_, ?_⟩
  · rw [e1]
    exact parse_bounded_toDigits l _ (by omega)
  · rw [e2]
    exact parse_bounded_toDigits f _ (by omega)
  · rw [e3]
    exact parse_bounded_toDigits m _ (by omega)
  · obtain ⟨a1, a2, _, _, _, _⟩ := suffix_not_matched _ (toDigits_all_digits l)
    obtain ⟨_, _, b3, b4, _, _⟩ := suffix_not_matched _ (toDigits_all_digits f)
    obtain ⟨_, _, _, _, c5, c6⟩ := suffix_not_matched _ (toDigits_all_digits m)
    exact ⟨a1, a2, b3, b4, c5, c6⟩
  · intro view parent h1 h2 h3
    simp only [sliced_path, Path.filename, generated_name, axis_suffix, h1, h2, h3, if_true,
      String.append_assoc]

theorem C22_name_round_trip_witness :
    generated_name "tex" ".png" 12 3 0 = "tex-layer12-face3-level0.png" ∧
    (layer_regex (generated_name "tex" ".png" 12 3 0).data).bind
      (fun index => parse_bounded_numeric_string index (byte_traits.max_layers - 1))
        = some 12 ∧
    (face_regex (generated_name "tex" ".png" 12 3 0).data).bind
      (fun index => parse_bounded_numeric_string index (byte_traits.max_faces - 1))
        = some 3 ∧
    (level_regex (generated_name "tex" ".png" 12 3 0).data).bind
      (fun index => parse_bounded_numeric_string index (byte_traits.max_levels - 1))
        = some 0 :=
  let ⟨⟨_, h1⟩, ⟨_, h2⟩, ⟨_, h3⟩, _⟩ :=
    C22_name_round_trip byte_traits "tex" ".png" 12 3 0 (by decide) (by decide) (by decide)
      (fun c r h => by
        have hc : c = '.' := by
          injection h with hc _
          exact hc.symm
        rw [hc]
        decide)
      (by decide) (by decide) (by decide)
  ⟨by decide, h1, h2, h3⟩

/-- C27: for an input file with valid selection ranges (and positive maxima,
the given indices not above them), `load_input_` leaves each destination
index below the maximum of its axis: an index given explicitly is kept,
whatever the file name is; the sentinel is replaced by the index of the first
match in the file name if that index is in range, by 0 with one notice and a
reported `status_warning` if it is out of range, and by 0 with nothing
reported if the name has no match.  What is reported and logged besides comes
from reading the file. -/
theorem C27_destination_offsets (ts : TextureStorageTraits)
    (view_of : TextureView → ImageFormat → Nat → Nat → Nat → Nat → Nat → Nat → TextureView)
    (duplicate_ok : Bool) (read : read_outcome) (file : input_file_)
    (hmax : 0 < ts.max_layers ∧ 0 < ts.max_faces ∧ 0 < ts.max_levels)
    (hvalid : file.first_layer ≤ file.last_layer ∧ file.first_face ≤ file.last_face ∧
      file.first_level ≤ file.last_level)
    (hgiven : file.layer ≤ ts.max_layers ∧ file.face ≤ ts.max_faces ∧
      file.level ≤ ts.max_levels) :
    ((load_input_ ts view_of duplicate_ok read file).input.dest_layer < ts.max_layers ∧
      (load_input_ ts view_of duplicate_ok read file).input.dest_face < ts.max_faces ∧
      (load_input_ ts view_of duplicate_ok read file).input.dest_level < ts.max_levels) ∧
    ((load_input_ ts view_of duplicate_ok read file).input.dest_layer
        = resolved_dest ts.max_layers file.layer (layer_regex (filename_of file.path)) ∧
      (load_input_ ts view_of duplicate_ok read file).input.dest_face
        = resolved_dest ts.max_faces file.face (face_regex (filename_of file.path)) ∧
      (load_input_ ts view_of duplicate_ok read file).input.dest_level
        = resolved_dest ts.max_levels file.level (level_regex (filename_of file.path))) ∧
    (load_input_ ts view_of duplicate_ok read file).reported
      = (if name_out_of_range ts.max_layers file.layer (layer_regex (filename_of file.path))
          then [status_code_.status_warning] else []) ++
        (if name_out_of_range ts.max_faces file.face (face_regex (filename_of file.path))
          then [status_code_.status_warning] else []) ++
        (if name_out_of_range ts.max_levels file.level (level_regex (filename_of file.path))
          then [status_code_.status_warning] else []) ++
        (load_input_texture ts view_of duplicate_ok read file).2.1 ∧
    (load_input_ ts view_of duplicate_ok read file).logged
      = (if name_out_of_range ts.max_layers file.layer (layer_regex (filename_of file.path))
          then [LogEntry.layer_out_of_range file.path] else []) ++
        (if name_out_of_range ts.max_faces file.face (face_regex (filename_of file.path))
          then [LogEntry.face_out_of_range file.path] else []) ++
        (if name_out_of_range ts.max_levels file.level (level_regex (filename_of file.path))
          then [LogEntry.level_out_of_range file.path] else []) ++
        (load_input_texture ts view_of duplicate_ok read file).2.2 ∧
    (∀ given found, given < ts.max_layers →
      resolved_dest ts.max_layers given found = given ∧
      ¬ name_out_of_range ts.max_layers given found) ∧
    (∀ given found, given < ts.max_faces →
      resolved_dest ts.max_faces given found = given ∧
      ¬ name_out_of_range ts.max_faces given found) ∧
    (∀ given found, given < ts.max_levels →
      resolved_dest ts.max_levels given found = given ∧
      ¬ name_out_of_range ts.max_levels given found) := by
  obtain ⟨l1, l2, l3, l4⟩ := load_input_dest_spec ts.max_layers file.layer
    (layer_regex (filename_of file.path)) (LogEntry.layer_out_of_range file.path)
    hmax.1 hgiven.1
  obtain ⟨f1, f2, f3, f4⟩ := load_input_dest_spec ts.max_faces file.face
    (face_regex (filename_of file.path)) (LogEntry.face_out_of_range file.path)
    hmax.2.1 hgiven.2.1
  obtain ⟨m1, m2, m3, m4⟩ := load_input_dest_spec ts.max_levels file.level
    (level_regex (filename_of file.path)) (LogEntry.level_out_of_range file.path)
    hmax.2.2 hgiven.2.2
  have hkept : ∀ max given found, given < max →
      resolved_dest max given found = given ∧ ¬ name_out_of_range max given found := by
    intro max given found hlt
    have hne : given ≠ max := by omega
    exact ⟨by unfold resolved_dest; rw [if_pos hne], fun h => hne h.1⟩
  rw [load_input_valid ts view_of duplicate_ok read file hvalid]
  refine ⟨⟨l2, f2, m2⟩, ⟨l1, f1, m1⟩, ?_, ?_, hkept _, hkept _, hkept _⟩
  · simp only []
    rw [l3, f3, m3]
  · simp only []
    rw [l4, f4, m4]

theorem C27_destination_offsets_witness :
    ((load_input_ byte_traits (fun v _ _ _ _ _ _ _ => v) true read_outcome.read_failed
        named_file).input.dest_layer = 12 ∧
      (load_input_ byte_traits (fun v _ _ _ _ _ _ _ => v) true read_outcome.read_failed
        named_file).input.dest_face = 0 ∧
      (load_input_ byte_traits (fun v _ _ _ _ _ _ _ => v) true read_outcome.read_failed
        named_file).input.dest_level = 0 ∧
      (load_input_ byte_traits (fun v _ _ _ _ _ _ _ => v) true read_outcome.read_failed
        named_file).logged
        = [LogEntry.face_out_of_range named_file.path, LogEntry.read_failed named_file.path]) ∧
    (load_input_ byte_traits (fun v _ _ _ _ _ _ _ => v) true read_outcome.read_failed
      named_file).input.dest_layer < byte_traits.max_layers :=
  ⟨by decide,
    (C27_destination_offsets byte_traits (fun v _ _ _ _ _ _ _ => v) true
      read_outcome.read_failed named_file (by decide) (by decide) (by decide)).1.1⟩

/-- C23: `write_output_` calls a writer for beTx only, where it reports
`status_write_error` exactly when the writer reports an error; for KTX and
DDS, as for PNG, Targa, BMP and Radiance, it sets "not supported" without
calling an encoder and always reports `status_write_error`.  So a run that
names `out/tex.ktx` as its output ends with `status_write_error`. -/
theorem C23_ktx_dds_not_supported (env : output_env) (app : AppState) (r : write_request) :
    write_output_ env app { r with format := TextureFileFormat.ktx }
      = app.fail status_code_.status_write_error (LogEntry.could_not_write r.path.string) ∧
    write_output_ env app { r with format := TextureFileFormat.dds }
      = app.fail status_code_.status_write_error (LogEntry.could_not_write r.path.string) ∧
    8 ≤ (write_output_ env app { r with format := TextureFileFormat.ktx }).status_ ∧
    8 ≤ (write_output_ env app { r with format := TextureFileFormat.dds }).status_ ∧
    write_output_ env app { r with format := TextureFileFormat.betx }
      = (if env.betx_written { r with format := TextureFileFormat.betx } then app
          else app.fail status_code_.status_write_error
            (LogEntry.could_not_write r.path.string)) ∧
    write_output_ env app { r with format := TextureFileFormat.png }
      = app.fail status_code_.status_write_error (LogEntry.could_not_write r.path.string) ∧
    (atex_run byte_traits sample_gfx default_settings true plain_env fresh [ktx_output]
      (two_layers.map one_path)).app.status_ = 8 ∧
    (atex_run byte_traits sample_gfx default_settings true plain_env fresh [betx_output]
      (two_layers.map one_path)).app.status_ = 0 := by
  refine ⟨rfl, rfl, ?_, ?_, rfl, rfl, by decide, by decide⟩
  · exact (fail_status_ge app _).2
  · exact (fail_status_ge app _).2

/-- C24: `set_status_(c)` leaves the status at the maximum of the status
before and `c`, in the order ok < warning < exception < cli_error <
no_output < no_input < read_error < conversion_error < write_error; so no
sequence of calls lowers the status, and the status that `operator()` returns
is the maximum of the status at its start and the codes reported during the
run. -/
theorem C24_status_monotonic (ts : TextureStorageTraits) (gfx : GfxTraits) (cfg : settings_)
    (alloc_ok : Bool) (env : output_env) (app : AppState) (output_files_ : List output_file_)
    (files : List globbed_) (s : Int) (c : status_code_) (codes : List status_code_) :
    set_status_ s c = max s c.value ∧
    [status_code_.status_ok, status_code_.status_warning, status_code_.status_exception,
      status_code_.status_cli_error, status_code_.status_no_output,
      status_code_.status_no_input, status_code_.status_read_error,
      status_code_.status_conversion_error, status_code_.status_write_error].map
        status_code_.value = [0, 1, 2, 3, 4, 5, 6, 7, 8] ∧
    s ≤ codes.foldl set_status_ s ∧
    codes.foldl set_status_ s = (codes.map status_code_.value).foldl max s ∧
    ∃ run_codes : List status_code_,
      (atex_run ts gfx cfg alloc_ok env app output_files_ files).app.reported
        = app.reported ++ run_codes ∧
      (atex_run ts gfx cfg alloc_ok env app output_files_ files).app.status_
        = run_codes.foldl set_status_ app.status_ ∧
      (atex_run ts gfx cfg alloc_ok env app output_files_ files).app.status_
        = (run_codes.map status_code_.value).foldl max app.status_ ∧
      app.status_ ≤ (atex_run ts gfx cfg alloc_ok env app output_files_ files).app.status_ := by
  refine ⟨?_, rfl, foldl_set_status_ge _ _, foldl_set_status_eq_max codes s, ?_⟩
  · unfold set_status_
    split
    · rw [max_eq_right (by omega)]
    · rw [max_eq_left (by omega)]
  · obtain ⟨run_codes, h1, h2⟩ := operator_call_raised ts gfx cfg alloc_ok
      (fun a view => (write_outputs_ ts env view a output_files_).app)
      (fun a v => write_outputs_raised ts env v a output_files_) app output_files_ files
    refine ⟨run_codes, h1, h2, ?_, ?_⟩
    · rw [← foldl_set_status_eq_max]
      exact h2
    · change _ ≤ (operator_call _ _ _ _ _ _ _ _).app.status_
      rw [h2]
      exact foldl_set_status_ge _ _

/-- C25: if `operator()` starts with status ok, returns, and returns
`status_ok` or `status_warning`, then `write_outputs_` was called with the
merged view, and for every entry of `output_files_` the pass of its loop was
not left by a skip path (existing file, invalid index in the file name, base
index out of bounds, unknown format) and every call of `write_output_` made
for it succeeded: it was a beTx request and the writer reported no error. -/
theorem C25_low_status_all_written (ts : TextureStorageTraits) (gfx : GfxTraits)
    (cfg : settings_) (alloc_ok : Bool) (env : output_env) (app : AppState)
    (output_files_ : List output_file_) (files : List globbed_)
    (hstart : app.status_ = 0)
    (hret : (atex_run ts gfx cfg alloc_ok env app output_files_ files).returned = true)
    (hlow : (atex_run ts gfx cfg alloc_ok env app output_files_ files).app.status_ ≤ 1) :
    ∃ (m : make_result) (view : TextureView),
      (atex_run ts gfx cfg alloc_ok env app output_files_ files).made = some m ∧
      m.texture = some { view := some view } ∧
      (atex_run ts gfx cfg alloc_ok env app output_files_ files).written = some view ∧
      (atex_run ts gfx cfg alloc_ok env app output_files_ files).app
        = (write_outputs_ ts env view m.app output_files_).app ∧
      (write_outputs_ ts env view m.app output_files_).outcomes.length
        = output_files_.length ∧
      ∀ o ∈ (write_outputs_ ts env view m.app output_files_).outcomes,
        ∃ calls, o = file_outcome.issued calls ∧ calls ≠ [] ∧
          ∀ r ∈ calls, r.format = TextureFileFormat.betx ∧ env.betx_written r = true := by
  obtain ⟨view, h1, h2, h3, h4⟩ := operator_call_low ts gfx cfg alloc_ok
    (fun a view => (write_outputs_ ts env view a output_files_).app) app output_files_ files
    hstart hret hlow
  refine ⟨_, view, h1, h2, h3, h4, ?_, ?_⟩
  · exact (write_outputs_status ts env view _ output_files_).2.1
  · have hle : (write_outputs_ ts env view
        (make_texture_ ts gfx cfg alloc_ok (load_inputs_ ts app files).app
          (load_inputs_ ts app files).inputs).app output_files_).app.status_ ≤ 1 := by
      have := hlow
      unfold atex_run at this
      rw [h4] at this
      exact this
    intro o ho
    obtain ⟨calls, hc, hne, hall⟩ :=
      (write_outputs_status ts env view _ output_files_).2.2 hle o ho
    exact ⟨calls, hc, hne, fun r hr => write_output_ok_betx env r (hall r hr)⟩

theorem C25_low_status_all_written_witness :
    (atex_run byte_traits sample_gfx default_settings true plain_env fresh [betx_output]
      (two_layers.map one_path)).app.status_ = 0 ∧
    ∃ (m : make_result) (view : TextureView),
      (atex_run byte_traits sample_gfx default_settings true plain_env fresh [betx_output]
        (two_layers.map one_path)).made = some m ∧
      (write_outputs_ byte_traits plain_env view m.app [betx_output]).outcomes.length = 1 :=
  ⟨by decide,
    let ⟨m, view, h1, _, _, _, h5, _⟩ :=
      C25_low_status_all_written byte_traits sample_gfx default_settings true plain_env fresh
        [betx_output] (two_layers.map one_path) (by decide) (by decide) (by decide)
    ⟨m, view, h1, h5⟩⟩

end be.atex
